import Mathlib

/-!
Verification of kie-cloud-operator, `pkg/controller/kieapp/defaults/defaults.go`

A shallow embedding of the configuration-resolution code of the operator:
image resolution (`GetImage`, `getDefaultKieServerImage`), the replica policy
(`setReplicas`), the expansion of server sets into named server templates
(`getServersConfig` and its helpers), the generated defaults (`setDefaults`,
`setPasswords`), the matching of component objects and the folds over the
servers (`findCustomObjectByName`, `mergeProcessMigration`, `mergeJms`,
`mergeDB`), the version transition at the head of `GetEnvironment` and its
router filter, the database deployment descriptors
(`getDatabaseDeploymentTemplate`), the config-map names
(`convertToConfigMapName`) and the server set of an instance (`ResolveSpec`,
`GetServerSet`).

Conventions of the embedding.

* Go pointers (`*int`, `*DatabaseObject`, ...) are `Option` values; `nil` is
  `none`.  Distinct server sets never share a pointee, so a write through a
  pointer of one set is a functional update of that set.
* Go `int`/`int32` values are `Int`; loop counters that start at `0` and only
  grow are `Nat`.  No arithmetic in the embedded code can overflow: every
  counter is bounded by a slice length or by a deployment count.
* `map[string]bool` used as a set (`usedNames`) is the list of its keys.
* A Go function returning `(value, error)` returns the value together with an
  `Option` of the error; `none` is the `nil` error.
* `len(s) != 0` on a string or slice is `s ≠ ""`, respectively `s ≠ []`.
* Everything declared outside `defaults.go` that the code reads (the
  `constants` package, the process environment, the random password
  generator) is collected in `World` and every theorem quantifies over it;
  the template catalogue with the merge code is `Services`, the version
  functions of the package are `UpgradeFunctions`, the library merge of
  `ResolveSpec` is a function parameter.
* A run-time panic (index out of range, nil dereference) is the result `none`
  of the functions that return an `Option` of their result.
-/

set_option linter.dupNamespace false

namespace Defaults

/-! ## Go library functions -/

/-- Splitting at every occurrence of a one-character separator, on character lists.
The result always has one element more than the number of separators. -/
def splitChars (sep : Char) : List Char → List (List Char)
  | [] => [[]]
  | c :: cs =>
    if c = sep then [] :: splitChars sep cs
    else
      match splitChars sep cs with
      | [] => [[c]]
      | h :: t => (c :: h) :: t

/-- Go `strings.Split(s, sep)` for a separator of exactly one character (the
only form `defaults.go` uses: `"/"` and `":"`). -/
def stringsSplit (s : String) (sep : Char) : List String :=
  (splitChars sep s.data).map String.mk

/-- Go `fmt.Sprintf("%d", n)` for a non-negative `n`. -/
def fmtD (n : Nat) : String := toString n

/-! ## API types (package `api`, declared outside `defaults.go`) -/

/-- The `corev1.ObjectReference` fields the code sets. -/
structure ObjectReference where
  Kind : String := ""
  Name : String := ""
  Namespace : String := ""
deriving DecidableEq

/-- The `api.Replicas` constant of a profile. -/
structure Replicas where
  Replicas : Int := 0
  DenyScale : Bool := false
deriving DecidableEq

/-- The `api.DatabaseObject`; `ExternalConfig` is kept as an uninterpreted payload. -/
structure DatabaseObject where
  Type_ : String := ""
  Size : String := ""
  StorageClassName : String := ""
  ExternalConfig : Option (List (String × String)) := none
deriving DecidableEq

/-- The `api.KieAppJmsObject`. -/
structure KieAppJmsObject where
  EnableIntegration : Bool := false
  Executor : Option Bool := none
  ExecutorTransacted : Bool := false
  QueueExecutor : String := ""
  QueueRequest : String := ""
  QueueResponse : String := ""
  EnableSignal : Bool := false
  QueueSignal : String := ""
  EnableAudit : Bool := false
  QueueAudit : String := ""
  AuditTransacted : Option Bool := none
  Username : String := ""
  Password : String := ""
  AMQQueues : String := ""
  AMQSecretName : String := ""
  AMQTruststoreName : String := ""
  AMQTruststorePassword : String := ""
  AMQKeystoreName : String := ""
  AMQKeystorePassword : String := ""
  AMQEnableSSL : Bool := false
deriving DecidableEq

/-- The `api.JvmObject`: only ever copied, kept as an uninterpreted payload. -/
structure JvmObject where
  fields : List (String × String) := []
deriving DecidableEq

/-- The `api.GitSource`. -/
structure GitSource where
  URI : String := ""
  Reference : String := ""
  ContextDir : String := ""
deriving DecidableEq

/-- The `api.WebhookSecret`. -/
structure WebhookSecret where
  Type_ : String := ""
  Secret : String := ""
deriving DecidableEq

/-- The `api.KieAppBuildObject` (the `Build` of a server set). -/
structure KieAppBuildObject where
  KieServerContainerDeployment : String := ""
  GitSource : GitSource := {}
  MavenMirrorURL : String := ""
  ArtifactDir : String := ""
  Webhooks : List WebhookSecret := []
  From : Option ObjectReference := none
  ExtensionImageStreamTag : String := ""
  ExtensionImageStreamTagNamespace : String := ""
  ExtensionImageInstallDir : String := ""
deriving DecidableEq

/-- The `api.BuildTemplate`. -/
structure BuildTemplate where
  From : ObjectReference := {}
  GitSource : GitSource := {}
  GitHubWebhookSecret : String := ""
  GenericWebhookSecret : String := ""
  KieServerContainerDeployment : String := ""
  MavenMirrorURL : String := ""
  ArtifactDir : String := ""
  ExtensionImageStreamTag : String := ""
  ExtensionImageStreamTagNamespace : String := ""
  ExtensionImageInstallDir : String := ""
deriving DecidableEq

/-- The `api.KieServerSet`: one user-declared server set. -/
structure KieServerSet where
  Deployments : Option Int := none
  Name : String := ""
  ID : String := ""
  From : Option ObjectReference := none
  Build : Option KieAppBuildObject := none
  Image : String := ""
  ImageTag : String := ""
  KeystoreSecret : String := ""
  StorageClassName : String := ""
  Replicas : Option Int := none
  Database : Option DatabaseObject := none
  Jms : Option KieAppJmsObject := none
  Jvm : Option JvmObject := none
deriving DecidableEq

/-- The `api.SmartRouterObject` fields read by the embedded code. -/
structure SmartRouterObject where
  Protocol : String := ""
  Image : String := ""
  ImageTag : String := ""
deriving DecidableEq

/-- The `api.ConsoleObject` fields read by the embedded code. -/
structure ConsoleObject where
  Replicas : Option Int := none
deriving DecidableEq

/-- The `api.ProcessMigrationObject` fields read by the embedded code. -/
structure ProcessMigrationObject where
  Image : String := ""
  ImageTag : String := ""
  Database : DatabaseObject := {}
deriving DecidableEq

/-- The `api.KieAppObjects`. -/
structure KieAppObjects where
  Console : ConsoleObject := {}
  Servers : List KieServerSet := []
  SmartRouter : Option SmartRouterObject := none
  ProcessMigration : Option ProcessMigrationObject := none
deriving DecidableEq

/-- The `api.CommonConfig`. -/
structure CommonConfig where
  ApplicationName : String := ""
  AdminUser : String := ""
  KeyStorePassword : String := ""
  AdminPassword : String := ""
  DBPassword : String := ""
  AMQPassword : String := ""
  AMQClusterPassword : String := ""
deriving DecidableEq

/-- The `api.KieAppSpec`. -/
structure KieAppSpec where
  Environment : String := ""
  Version : String := ""
  UseImageTags : Bool := false
  CommonConfig : CommonConfig := {}
  Objects : KieAppObjects := {}
deriving DecidableEq

/-- The `api.KieAppStatus`: the generated defaults have the type of a spec. -/
structure KieAppStatus where
  Generated : KieAppSpec := {}
deriving DecidableEq

/-- The `api.KieApp` custom resource.  `Annotations` is the annotation map of the
object metadata (`none` is the `nil` map, `some []` the empty map). -/
structure KieApp where
  Name : String := ""
  Namespace : String := ""
  Annotations : Option (List (String × String)) := none
  Spec : KieAppSpec := {}
  Status : KieAppStatus := {}
deriving DecidableEq

/-- The `api.SmartRouterTemplate` part of a server template. -/
structure SmartRouterTemplate where
  Protocol : String := ""
deriving DecidableEq

/-- The `api.ServerTemplate`: one expanded server instance. -/
structure ServerTemplate where
  KieName : String := ""
  KieServerID : String := ""
  Replicas : Int := 0
  SmartRouter : SmartRouterTemplate := {}
  From : ObjectReference := {}
  OmitImageStream : Bool := false
  ImageURL : String := ""
  Build : BuildTemplate := {}
  KeystoreSecret : String := ""
  StorageClassName : String := ""
  Database : DatabaseObject := {}
  Jms : KieAppJmsObject := {}
  Jvm : JvmObject := {}
deriving DecidableEq

/-! ## What the code reads from outside `defaults.go` -/

/-- One entry of `constants.EnvironmentConstants` (the fields the code reads). -/
structure EnvironmentConstants where
  Product : String := ""
  ServerReplicas : Replicas := {}
  Database : Option DatabaseObject := none

/-- The constants of package `constants`, the process environment
(`os.LookupEnv`) and the random generator (`shared.GeneratePassword`, indexed by
the number of calls made before, so that successive calls may differ). -/
structure World where
  DefaultKieDeployments : Int
  SmartRouterProtocol : String
  RhelVersion : String
  PamKieImageVar : String
  DmKieImageVar : String
  RhdmPrefix : String
  ImageStreamNamespace : String
  DefaultExtensionImageInstallDir : String
  DatabaseExternal : String
  GitHubWebhook : String
  GenericWebhook : String
  CurrentVersion : String
  DefaultAdminUser : String
  DefaultPassword : String
  TrialEnvSuffix : String
  SchemeGroup : String
  OperatorVersion : String
  DatabaseH2 : String
  DatabaseMySQL : String
  DatabasePostgreSQL : String
  DefaultKieServerDatabaseUsername : String
  DefaultKieServerDatabaseName : String
  DefaultProcessMigrationDatabaseUsername : String
  DefaultProcessMigrationDatabaseName : String
  ConfigMapPrefix : String
  RhpamEnvironments : List String
  KeystoreSecret : String → String
  EnvironmentConstants : String → Option EnvironmentConstants
  LookupEnv : String → Option String
  GeneratePassword : Nat → Nat → String

/-- The errors `getServersConfig` can return. -/
inductive ConfigError where
  | duplicateName (name : String)
  | buildDeployments (deployments : Int)
  | externalDatabase
deriving DecidableEq

/-! ## Image resolution -/

/-- `GetImage`: `urlParts[len-2]` is the context when there are at least two
parts, `urlParts[len-1]` is split at `":"`; the image is `imageParts[0]` and the
tag `imageParts[len-1]` when there are at least two parts. -/
def GetImage (imageURL : String) : String × String × String :=
  let urlParts := stringsSplit imageURL '/'
  let imageContext :=
    if urlParts.length > 1 then urlParts.getD (urlParts.length - 2) "" else ""
  let imageAndTag := urlParts.getD (urlParts.length - 1) ""
  let imageParts := stringsSplit imageAndTag ':'
  let image := imageParts.getD 0 ""
  let imageTag :=
    if imageParts.length > 1 then imageParts.getD (imageParts.length - 1) "" else ""
  (image, imageTag, imageContext)

/-- `GetVersion`: the spec's version when set, else the generated one. -/
def GetVersion (cr : KieApp) : String :=
  if cr.Spec.Version ≠ "" then cr.Spec.Version else cr.Status.Generated.Version

/-- `GetProduct`: the product of a known environment, else the empty string. -/
def GetProduct (W : World) (env : String) : String :=
  match W.EnvironmentConstants env with
  | some envConstants => envConstants.Product
  | none => ""

/-- `getDefaultKieServerImage`: returns `(from, omitImageTrigger, imageURL)`. -/
def getDefaultKieServerImage (W : World) (product : String) (cr : KieApp)
    (serverSet : KieServerSet) : ObjectReference × Bool × String :=
  match serverSet.From with
  | some ref => (ref, false, "")
  | none =>
    let envVar :=
      if product = W.RhdmPrefix then W.DmKieImageVar ++ GetVersion cr
      else W.PamKieImageVar ++ GetVersion cr
    let imageURL0 := product ++ "-kieserver" ++ W.RhelVersion ++ ":" ++ GetVersion cr
    let (imageURL1, omit1) :=
      match W.LookupEnv envVar with
      | some val => if !cr.Spec.UseImageTags then (val, true) else (imageURL0, false)
      | none => (imageURL0, false)
    let image0 := (GetImage imageURL1).1
    let imageTag0 := (GetImage imageURL1).2.1
    let (image1, imageURL2, omit2) :=
      if serverSet.Image ≠ "" then
        (serverSet.Image, serverSet.Image ++ ":" ++ imageTag0, false)
      else (image0, imageURL1, omit1)
    let (imageTag1, imageURL3, omit3) :=
      if serverSet.ImageTag ≠ "" then
        (serverSet.ImageTag, image1 ++ ":" ++ serverSet.ImageTag, false)
      else (imageTag0, imageURL2, omit2)
    ({ Kind := "ImageStreamTag", Name := image1 ++ ":" ++ imageTag1,
       Namespace := W.ImageStreamNamespace }, omit3, imageURL3)

/-! ## Replica policy -/

/-- `setReplicas`: returns `(replicas, denyScale)`. -/
def setReplicas (objectReplicas : Option Int) (replicaConstant : Replicas)
    (hasEnv : Bool) : Int × Bool :=
  match objectReplicas with
  | some r =>
    if hasEnv && replicaConstant.DenyScale && r != replicaConstant.Replicas then
      (replicaConstant.Replicas, true)
    else (r, false)
  | none =>
    if hasEnv then (replicaConstant.Replicas, false)
    else (1, false)

/-- The replica policy in the words of the specification: clamp a request that
differs from the fixed count of a scaling-forbidden profile, else honour the
request, else use the profile default if known, otherwise fall back to 1. -/
def ResolveReplicas (requested : Option Int) (profileDefault : Replicas)
    (hasProfile : Bool) : Int × Bool :=
  if hasProfile = true ∧ profileDefault.DenyScale = true ∧
      (∃ r, requested = some r ∧ r ≠ profileDefault.Replicas) then
    (profileDefault.Replicas, true)
  else if requested.isSome then (requested.getD 0, false)
  else if hasProfile then (profileDefault.Replicas, false)
  else (1, false)

/-! ## Database and JMS configuration of a server set -/

/-- `getDatabaseConfig`: `(nil, nil)` for an unknown environment, the profile
default for a `nil` database, an error for an external database without
external configuration, else the given database with the default size filled
into an empty `Size`. -/
def getDatabaseConfig (W : World) (environment : String)
    (database : Option DatabaseObject) : Option DatabaseObject × Option ConfigError :=
  match W.EnvironmentConstants environment with
  | none => (none, none)
  | some envConstants =>
    let defaultDB := envConstants.Database
    match database with
    | none => (defaultDB, none)
    | some database =>
      if database.Type_ = W.DatabaseExternal ∧ database.ExternalConfig = none then
        (none, some ConfigError.externalDatabase)
      else
        match defaultDB with
        | some d =>
          if database.Size = "" then (some { database with Size := d.Size }, none)
          else (some database, none)
        | none => (some database, none)

/-- `getDefaultQueue`. -/
def getDefaultQueue (append : Bool) (defaultJmsQueue jmsQueue : String) : String :=
  if append then
    if jmsQueue = "" then defaultJmsQueue else jmsQueue
  else ""

/-- The "clean empty values" loop of `getJmsConfig`: it deletes the first
empty element and then leaves the loop (`break`). -/
def cleanEmptyValues : List String → List String
  | [] => []
  | queue :: rest => if queue = "" then rest else queue :: cleanEmptyValues rest

/-- `mergo.Merge` on a string field without override: the destination keeps a
non-empty value and takes the source's otherwise. -/
def mergeString (dst src : String) : String := if dst = "" then src else dst

/-- `getJmsConfig`, for a non-`nil` `jms` of a known environment with integration
enabled: the object after the in-place updates (which is also what is
returned) and the number of generator calls made so far. -/
def fillJmsConfig (W : World) (jms : KieAppJmsObject) (calls : Nat) :
    KieAppJmsObject × Nat :=
  let jms1 :=
    if jms.AMQSecretName ≠ "" ∧ jms.AMQKeystoreName ≠ "" ∧ jms.AMQKeystorePassword ≠ "" ∧
        jms.AMQTruststoreName ≠ "" ∧ jms.AMQTruststorePassword ≠ "" then
      { jms with AMQEnableSSL := true }
    else jms
  let executor := jms1.Executor.getD true
  let jms2 := { jms1 with Executor := some executor,
                          AuditTransacted := some (jms1.AuditTransacted.getD true) }
  let defaultUsername := "user" ++ W.GeneratePassword calls 4
  let defaultPassword := W.GeneratePassword (calls + 1) 8
  let queuesList := [
    getDefaultQueue executor "queue/KIE.SERVER.EXECUTOR" jms2.QueueExecutor,
    getDefaultQueue true "queue/KIE.SERVER.REQUEST" jms2.QueueRequest,
    getDefaultQueue true "queue/KIE.SERVER.RESPONSE" jms2.QueueResponse,
    getDefaultQueue jms2.EnableSignal "queue/KIE.SERVER.SIGNAL" jms2.QueueSignal,
    getDefaultQueue jms2.EnableAudit "queue/KIE.SERVER.AUDIT" jms2.QueueAudit]
  let defaultAMQQueues := String.intercalate ", " (cleanEmptyValues queuesList)
  ({ jms2 with
      QueueExecutor := mergeString jms2.QueueExecutor "queue/KIE.SERVER.EXECUTOR",
      QueueRequest := mergeString jms2.QueueRequest "queue/KIE.SERVER.REQUEST",
      QueueResponse := mergeString jms2.QueueResponse "queue/KIE.SERVER.RESPONSE",
      QueueSignal := mergeString jms2.QueueSignal "queue/KIE.SERVER.SIGNAL",
      QueueAudit := mergeString jms2.QueueAudit "queue/KIE.SERVER.AUDIT",
      Username := mergeString jms2.Username defaultUsername,
      Password := mergeString jms2.Password defaultPassword,
      AMQQueues := mergeString jms2.AMQQueues defaultAMQQueues }, calls + 2)

/-- `getJmsConfig`: returns the returned pointer (`none` is `nil`), the caller's
`jms` after the call (the function writes through the pointer) and the number of
generator calls made so far; the returned error is always `nil`. -/
def getJmsConfig (W : World) (environment : String) (jms : Option KieAppJmsObject)
    (calls : Nat) : Option KieAppJmsObject × Option KieAppJmsObject × Nat :=
  match W.EnvironmentConstants environment, jms with
  | some _, some j =>
    if j.EnableIntegration then
      let r := fillJmsConfig W j calls
      (some r.1, some r.1, r.2)
    else (none, jms, calls)
  | _, _ => (none, jms, calls)

/-! ## Build configuration of a server set -/

/-- `getWebhookSecret`: the secret of the first webhook of the given type, else a
generated one. -/
def getWebhookSecret (W : World) (webhookType : String) (webhooks : List WebhookSecret)
    (calls : Nat) : String × Nat :=
  match webhooks.find? (fun webhook => webhook.Type_ = webhookType) with
  | some webhook => (webhook.Secret, calls)
  | none => (W.GeneratePassword calls 8, calls + 1)

/-- `getBuildConfig`: the build template, the server set after the call (the
function fills defaults into `serverSet.Build`) and the generator calls made. -/
def getBuildConfig (W : World) (product : String) (cr : KieApp) (serverSet : KieServerSet)
    (calls : Nat) : BuildTemplate × KieServerSet × Nat :=
  match serverSet.Build with
  | none => ({}, serverSet, calls)
  | some build =>
    if build.ExtensionImageStreamTag ≠ "" then
      let build1 :=
        if build.ExtensionImageStreamTagNamespace = "" then
          { build with ExtensionImageStreamTagNamespace := W.ImageStreamNamespace }
        else build
      let build2 :=
        if build1.ExtensionImageInstallDir = "" then
          { build1 with ExtensionImageInstallDir := W.DefaultExtensionImageInstallDir }
        else build1
      let serverSet1 := { serverSet with Build := some build2 }
      let from0 := (getDefaultKieServerImage W product cr serverSet1).1
      ({ ExtensionImageStreamTag := build2.ExtensionImageStreamTag,
         ExtensionImageStreamTagNamespace := build2.ExtensionImageStreamTagNamespace,
         ExtensionImageInstallDir := build2.ExtensionImageInstallDir,
         From := build2.From.getD from0 }, serverSet1, calls)
    else
      let gitHub := getWebhookSecret W W.GitHubWebhook build.Webhooks calls
      let generic := getWebhookSecret W W.GenericWebhook build.Webhooks gitHub.2
      let from0 := (getDefaultKieServerImage W product cr serverSet).1
      ({ GitSource := build.GitSource,
         GitHubWebhookSecret := gitHub.1,
         GenericWebhookSecret := generic.1,
         KieServerContainerDeployment := build.KieServerContainerDeployment,
         MavenMirrorURL := build.MavenMirrorURL,
         ArtifactDir := build.ArtifactDir,
         From := build.From.getD from0 }, serverSet, generic.2)

/-! ## Naming of server sets and deployments -/

/-- `getKieSetIndex`. -/
def getKieSetIndex (arrayIdx deploymentsIdx : Nat) : String :=
  (if arrayIdx > 0 then fmtD (arrayIdx + 1) else "") ++
    (if deploymentsIdx > 0 then "-" ++ fmtD (deploymentsIdx + 1) else "")

/-- `getKieDeploymentName`. -/
def getKieDeploymentName (applicationName setName : String)
    (arrayIdx deploymentsIdx : Nat) : String :=
  if setName = "" then
    applicationName ++ "-kieserver" ++ getKieSetIndex arrayIdx deploymentsIdx
  else setName ++ getKieSetIndex 0 deploymentsIdx

/-- `getKieSetName`. -/
def getKieSetName (applicationName setName : String) (arrayIdx : Nat) : String :=
  getKieDeploymentName applicationName setName arrayIdx 0

/-- `serverSortBlanks`: named sets first, then the unnamed ones, with the
defensive fallback to the input when the lengths differ. -/
def serverSortBlanks (serverSets : List KieServerSet) : List KieServerSet :=
  let newSets := serverSets.filter (fun s => s.Name ≠ "") ++
    serverSets.filter (fun s => s.Name = "")
  if newSets.length ≠ serverSets.length then serverSets else newSets

/-! ## Expansion of server sets -/

/-- The local variables of `getServersConfig` that its loops update: the
templates built so far, the names handed out, the counter of the unnamed-set
probe and the number of generator calls made.  When the function returns with
an error, `servers` holds the list it returns beside the error. -/
structure LoopState where
  servers : List ServerTemplate := []
  usedNames : List String := []
  unsetNames : Nat := 0
  calls : Nat := 0

/-- The probe loop for an unnamed set (`for i := 0; i < len(serverSlice); i++`):
`fuel` iterations are left; the first candidate that is not a used name becomes
the set's name, every used candidate increments `unsetNames`. -/
def probeSetName (appName : String) (usedNames : List String) :
    Nat → KieServerSet → Nat → KieServerSet × Nat
  | 0, serverSet, unsetNames => (serverSet, unsetNames)
  | fuel + 1, serverSet, unsetNames =>
    let serverSetName := getKieSetName appName serverSet.Name unsetNames
    if serverSetName ∈ usedNames then
      probeSetName appName usedNames fuel serverSet (unsetNames + 1)
    else ({ serverSet with Name := serverSetName }, unsetNames)

/-- One iteration of the deployment loop of `getServersConfig` (lines 450-520)
for deployment index `i` of a set whose `*Deployments` is `deployments`: the
set and the locals after the iteration and the error it returns with, if any. -/
def deploymentStep (W : World) (cr : KieApp) (product appName : String)
    (serverReplicas deployments : Int) (i : Nat) (serverSet : KieServerSet)
    (st : LoopState) : KieServerSet × LoopState × Option ConfigError :=
  let name := getKieDeploymentName appName serverSet.Name st.unsetNames i
  if name ∈ st.usedNames then
    (serverSet, { st with servers := [] }, some (ConfigError.duplicateName name))
  else
    let usedNames := name :: st.usedNames
    let build := getBuildConfig W product cr serverSet st.calls
    let serverSet1 := build.2.1
    let template0 : ServerTemplate :=
      { KieName := name,
        KieServerID := if serverSet1.ID ≠ "" then serverSet1.ID else name,
        Build := build.1,
        KeystoreSecret := serverSet1.KeystoreSecret,
        StorageClassName := serverSet1.StorageClassName }
    if serverSet1.Build.isSome ∧ deployments > 1 then
      (serverSet1, { st with servers := [], usedNames := usedNames, calls := build.2.2 },
        some (ConfigError.buildDeployments deployments))
    else
      let image := getDefaultKieServerImage W product cr serverSet1
      let template1 : ServerTemplate :=
        { template0 with
            From :=
              if serverSet1.Build.isSome then
                { Kind := "ImageStreamTag", Name := appName ++ "-kieserver:latest",
                  Namespace := "" }
              else image.1,
            OmitImageStream := if serverSet1.Build.isSome then false else image.2.1,
            ImageURL := if serverSet1.Build.isSome then "" else image.2.2 }
      let replicas := serverSet1.Replicas.getD serverReplicas
      let serverSet2 := { serverSet1 with Replicas := some replicas }
      let template2 : ServerTemplate :=
        { template1 with
            Replicas := replicas,
            SmartRouter :=
              match cr.Spec.Objects.SmartRouter with
              | some router =>
                { Protocol := if router.Protocol = "" then W.SmartRouterProtocol
                              else router.Protocol }
              | none => template1.SmartRouter }
      match getDatabaseConfig W cr.Spec.Environment serverSet2.Database with
      | (_, some err) =>
        (serverSet2, { st with usedNames := usedNames, calls := build.2.2 }, some err)
      | (dbConfig, none) =>
        let template3 : ServerTemplate :=
          { template2 with Database := dbConfig.getD template2.Database }
        let jms := getJmsConfig W cr.Spec.Environment serverSet2.Jms build.2.2
        let serverSet3 := { serverSet2 with Jms := jms.2.1 }
        let template4 : ServerTemplate := { template3 with Jms := jms.1.getD template3.Jms }
        let instanceTemplate : ServerTemplate :=
          { template4 with
              KeystoreSecret :=
                if template4.KeystoreSecret = "" then W.KeystoreSecret template4.KieName
                else template4.KeystoreSecret,
              Jvm := serverSet3.Jvm.getD template4.Jvm }
        (serverSet3,
          { st with servers := st.servers ++ [instanceTemplate], usedNames := usedNames,
                    calls := jms.2.2 }, none)

/-- The deployment loop `for i := 0; i < *serverSet.Deployments; i++`, with
`fuel` iterations left and `i` the current index. -/
def deploymentsLoop (W : World) (cr : KieApp) (product appName : String)
    (serverReplicas deployments : Int) :
    Nat → Nat → KieServerSet → LoopState → KieServerSet × LoopState × Option ConfigError
  | 0, _, serverSet, st => (serverSet, st, none)
  | fuel + 1, i, serverSet, st =>
    match deploymentStep W cr product appName serverReplicas deployments i serverSet st with
    | (serverSet1, st1, some err) => (serverSet1, st1, some err)
    | (serverSet1, st1, none) =>
      deploymentsLoop W cr product appName serverReplicas deployments fuel (i + 1)
        serverSet1 st1

/-- The body of the loop over the server sets (lines 435-521) for one set:
default the deployment count, name an unnamed set, then run its deployments. -/
def serverSetStep (W : World) (cr : KieApp) (product appName : String)
    (serverReplicas : Int) (sliceLen : Nat) (serverSet : KieServerSet) (st : LoopState) :
    KieServerSet × LoopState × Option ConfigError :=
  let deployments := serverSet.Deployments.getD W.DefaultKieDeployments
  let serverSet1 := { serverSet with Deployments := some deployments }
  let probed :=
    if serverSet1.Name = "" then probeSetName appName st.usedNames sliceLen serverSet1 st.unsetNames
    else (serverSet1, st.unsetNames)
  deploymentsLoop W cr product appName serverReplicas deployments deployments.toNat 0
    probed.1 { st with unsetNames := probed.2 }

/-- The loop `for index := range serverSlice` over the sets not yet visited;
returns the slice as the iterations leave it (sets are updated in place). -/
def serverSetsLoop (W : World) (cr : KieApp) (product appName : String)
    (serverReplicas : Int) (sliceLen : Nat) :
    List KieServerSet → LoopState → List KieServerSet × LoopState × Option ConfigError
  | [], st => ([], st, none)
  | serverSet :: rest, st =>
    match serverSetStep W cr product appName serverReplicas sliceLen serverSet st with
    | (serverSet1, st1, some err) => (serverSet1 :: rest, st1, some err)
    | (serverSet1, st1, none) =>
      match serverSetsLoop W cr product appName serverReplicas sliceLen rest st1 with
      | (rest1, st2, err) => (serverSet1 :: rest1, st2, err)

/-- What `getServersConfig` leaves behind: the custom resource after the call
(its server lists are sorted and updated in place), the returned templates, the
returned error and the number of generator calls made. -/
structure ServersResult where
  cr : KieApp
  servers : List ServerTemplate
  err : Option ConfigError
  calls : Nat

/-- The custom resource with `Spec.Objects.Servers` replaced. -/
def setSpecServers (cr : KieApp) (servers : List KieServerSet) : KieApp :=
  { cr with Spec := { cr.Spec with Objects := { cr.Spec.Objects with Servers := servers } } }

/-- The custom resource with `Status.Generated.Objects.Servers` replaced. -/
def setStatusServers (cr : KieApp) (servers : List KieServerSet) : KieApp :=
  { cr with Status := { Generated := { cr.Status.Generated with
      Objects := { cr.Status.Generated.Objects with Servers := servers } } } }

/-- The server sets `getServersConfig` iterates over: the sorted spec servers
when the spec declares any, else the sorted generated ones. -/
def effectiveServers (cr : KieApp) : List KieServerSet :=
  if cr.Spec.Objects.Servers.length ≠ 0 then serverSortBlanks cr.Spec.Objects.Servers
  else serverSortBlanks cr.Status.Generated.Objects.Servers

/-- The application name `getServersConfig` uses: the spec's when non-empty,
else the generated one. -/
def effectiveAppName (cr : KieApp) : String :=
  if cr.Spec.CommonConfig.ApplicationName ≠ "" then cr.Spec.CommonConfig.ApplicationName
  else cr.Status.Generated.CommonConfig.ApplicationName

/-- `getServersConfig`, started after `calls` calls of the password generator. -/
def getServersConfig (W : World) (cr : KieApp) (calls : Nat) : ServersResult :=
  let serverReplicas : Int :=
    match W.EnvironmentConstants cr.Spec.Environment with
    | some envConstants => envConstants.ServerReplicas.Replicas
    | none => 1
  let product := GetProduct W cr.Spec.Environment
  let useSpec : Bool := cr.Spec.Objects.Servers.length ≠ 0
  let serverSlice := effectiveServers cr
  let cr1 :=
    if useSpec then setSpecServers (setStatusServers cr []) serverSlice
    else setStatusServers cr serverSlice
  let appName := effectiveAppName cr
  let out := serverSetsLoop W cr1 product appName serverReplicas serverSlice.length
    serverSlice { calls := calls }
  { cr := if useSpec then setSpecServers cr1 out.1 else setStatusServers cr1 out.1,
    servers := out.2.1.servers,
    err := out.2.2,
    calls := out.2.1.calls }

/-! ## Component objects and the migration-service fold -/

/-- The `corev1.EnvVar` fields the code reads. -/
structure EnvVar where
  Name : String := ""
  Value : String := ""
deriving DecidableEq

/-- The `corev1.Container` fields the code reads. -/
structure Container where
  Name : String := ""
  Env : List EnvVar := []
deriving DecidableEq

/-- A workload (`appsv1.DeploymentConfig`): `Name` is `ObjectMeta.Name`,
`Containers` is `Spec.Template.Spec.Containers`. -/
structure DeploymentConfig where
  Name : String := ""
  Containers : List Container := []
deriving DecidableEq

/-- The `api.CustomObject`: the workloads and, uninterpreted, the other object
kinds it carries. -/
structure CustomObject where
  Omit : Bool := false
  DeploymentConfigs : List DeploymentConfig := []
  Others : List (String × String) := []
deriving DecidableEq

/-- The `api.Environment`. -/
structure Environment where
  Console : CustomObject := {}
  SmartRouter : CustomObject := {}
  Servers : List CustomObject := []
  Databases : List CustomObject := []
  ProcessMigration : CustomObject := {}
  Others : List CustomObject := []
deriving DecidableEq

/-- The `api.ProcessMigrationTemplate` fields the code reads. -/
structure ProcessMigrationTemplate where
  ImageURL : String := ""
  Image : String := ""
  ImageTag : String := ""
  OmitImageStream : Bool := false
  Database : DatabaseObject := {}
deriving DecidableEq

/-- The `api.EnvTemplate` fields the code reads. -/
structure EnvTemplate where
  CommonConfig : CommonConfig := {}
  Servers : List ServerTemplate := []
  ProcessMigration : ProcessMigrationTemplate := {}
deriving DecidableEq

/-- What the fragment folds call outside their own bodies: `loadYaml` (its result
is decided by the template catalogue and the platform service; arguments are
file name, product version, namespace and render context), `yaml.Unmarshal`,
and `mergeCustomObject` of the package's merge code.  A failure is `Except.error`
with its message. -/
structure Services where
  loadYaml : String → String → String → EnvTemplate → Except String String
  yamlUnmarshal : String → Except String Environment
  mergeCustomObject : CustomObject → CustomObject → CustomObject

/-- `findCustomObjectByName`: walks the list; an element without workloads, or
a template without workloads, ends the search with `(CustomObject{}, false)`. -/
def findCustomObjectByName (template : CustomObject) :
    List CustomObject → CustomObject × Bool
  | [] => ({}, false)
  | object :: rest =>
    match object.DeploymentConfigs, template.DeploymentConfigs with
    | objectDC :: _, templateDC :: _ =>
      if objectDC.Name = templateDC.Name then (object, true)
      else findCustomObjectByName template rest
    | _, _ => ({}, false)

/-- `isRHPAM`: the environment is one of the RHPAM profiles. -/
def isRHPAM (W : World) (cr : KieApp) : Bool :=
  decide (cr.Spec.Environment ∈ W.RhpamEnvironments)

/-- `deployProcessMigration`. -/
def deployProcessMigration (W : World) (cr : KieApp) : Bool :=
  cr.Spec.Objects.ProcessMigration.isSome && isRHPAM W cr

/-- `mergeProcessMigrationDB`: returns `(env, error)`; `none` is the `nil` error. -/
def mergeProcessMigrationDB (W : World) (S : Services) (cr : KieApp) (env : Environment)
    (envTemplate : EnvTemplate) : Environment × Option String :=
  if envTemplate.ProcessMigration.Database.Type_ = W.DatabaseH2 then (env, none)
  else
    match S.loadYaml ("dbs/pim/" ++ envTemplate.ProcessMigration.Database.Type_ ++ ".yaml")
        (GetVersion cr) cr.Namespace envTemplate with
    | Except.error err => ({}, some err)
    | Except.ok yamlBytes =>
      match S.yamlUnmarshal yamlBytes with
      | Except.error err => ({}, some err)
      | Except.ok dbEnv =>
        let merged := S.mergeCustomObject env.ProcessMigration dbEnv.ProcessMigration
        ({ env with ProcessMigration := merged }, none)

/-- `mergeProcessMigration`: returns `(env, error)`.  When `mergeProcessMigrationDB`
fails, line 1070 returns `api.Environment{}, nil`. -/
def mergeProcessMigration (W : World) (S : Services) (cr : KieApp) (env : Environment)
    (envTemplate : EnvTemplate) : Environment × Option String :=
  if deployProcessMigration W cr then
    match S.loadYaml "pim/process-migration.yaml" (GetVersion cr) cr.Namespace envTemplate with
    | Except.error err => ({}, some err)
    | Except.ok yamlBytes =>
      match S.yamlUnmarshal yamlBytes with
      | Except.error err => ({}, some err)
      | Except.ok processMigrationEnv =>
        let merged :=
          S.mergeCustomObject env.ProcessMigration processMigrationEnv.ProcessMigration
        let env1 := { env with ProcessMigration := merged }
        match mergeProcessMigrationDB W S cr env1 envTemplate with
        | (_, some _) => ({}, none)
        | (env2, none) => (env2, none)
  else (env, none)

/-! ## Generated defaults -/

/-- Go `strings.HasSuffix`. -/
def stringsHasSuffix (s suffix : String) : Bool := suffix.data.isSuffixOf s.data

/-- One iteration of the loop of `setPasswords` (lines 782-791) on one password:
a non-empty one is kept, an empty one becomes the default password in a trial
environment and a generated one otherwise. -/
def fillPassword (W : World) (isTrialEnv : Bool) (password : String) (calls : Nat) :
    String × Nat :=
  if password ≠ "" then (password, calls)
  else if isTrialEnv then (W.DefaultPassword, calls)
  else (W.GeneratePassword calls 8, calls + 1)

/-- `setPasswords`: fills the five generated passwords in the order of the
slice, then empties those the spec supplies.  Returns the resource and the
number of generator calls made so far. -/
def setPasswords (W : World) (cr : KieApp) (isTrialEnv : Bool) (calls : Nat) :
    KieApp × Nat :=
  let g := cr.Status.Generated.CommonConfig
  let keyStore := fillPassword W isTrialEnv g.KeyStorePassword calls
  let admin := fillPassword W isTrialEnv g.AdminPassword keyStore.2
  let db := fillPassword W isTrialEnv g.DBPassword admin.2
  let amq := fillPassword W isTrialEnv g.AMQPassword db.2
  let amqCluster := fillPassword W isTrialEnv g.AMQClusterPassword amq.2
  let s := cr.Spec.CommonConfig
  let g1 : CommonConfig :=
    { g with
        KeyStorePassword := if s.KeyStorePassword ≠ "" then "" else keyStore.1,
        AdminPassword := if s.AdminPassword ≠ "" then "" else admin.1,
        DBPassword := if s.DBPassword ≠ "" then "" else db.1,
        AMQPassword := if s.AMQPassword ≠ "" then "" else amq.1,
        AMQClusterPassword := if s.AMQClusterPassword ≠ "" then "" else amqCluster.1 }
  ({ cr with Status := { Generated := { cr.Status.Generated with CommonConfig := g1 } } },
    amqCluster.2)

/-- `setDefaults`: returns the resource and the number of generator calls made. -/
def setDefaults (W : World) (cr : KieApp) (calls : Nat) : KieApp × Nat :=
  let annotations :=
    match cr.Annotations with
    | none => some [(W.SchemeGroup, W.OperatorVersion)]
    | some a => some a
  let g := cr.Status.Generated
  let version := if cr.Spec.Version ≠ "" then "" else W.CurrentVersion
  let applicationName :=
    if cr.Spec.CommonConfig.ApplicationName ≠ "" then "" else cr.Name
  let adminUser :=
    if cr.Spec.CommonConfig.AdminUser ≠ "" then "" else W.DefaultAdminUser
  let servers : List KieServerSet :=
    if cr.Spec.Objects.Servers ≠ [] then []
    else [{ Deployments := some W.DefaultKieDeployments }]
  let consoleReplicas :=
    if cr.Spec.Objects.Console.Replicas.isSome then none else g.Objects.Console.Replicas
  let commonConfig : CommonConfig :=
    { g.CommonConfig with ApplicationName := applicationName, AdminUser := adminUser }
  let console : ConsoleObject := { g.Objects.Console with Replicas := consoleReplicas }
  let objects : KieAppObjects := { g.Objects with Servers := servers, Console := console }
  let generated : KieAppSpec :=
    { g with Version := version, CommonConfig := commonConfig, Objects := objects }
  let cr1 : KieApp :=
    { cr with Annotations := annotations, Status := { Generated := generated } }
  setPasswords W cr1 (stringsHasSuffix cr.Spec.Environment W.TrialEnvSuffix) calls

/-! ## Version transition -/

/-- `SetVersion`: writes the version into the layer `GetVersion` reads from. -/
def SetVersion (cr : KieApp) (v : String) : KieApp :=
  if cr.Spec.Version ≠ "" then { cr with Spec := { cr.Spec with Version := v } }
  else { cr with Status := { Generated := { cr.Status.Generated with Version := v } } }

/-- The functions of the package that `GetEnvironment` calls before it builds
the render context and that are declared in other files.  `checkProductUpgrade`
receives the resource by pointer, so it returns the resource as it leaves it,
then `minor`, `micro` and the error; `getConfigVersionDiffs` returns its error. -/
structure UpgradeFunctions where
  checkProductUpgrade : KieApp → KieApp × Bool × Bool × Option String
  MajorMinorMicro : String → String × String × String
  GetMinorImageVersion : String → String
  getConfigVersionDiffs : String → String → Option String

/-- Whether lines 43-44 of `GetEnvironment` decide to process a version
transition, from the flags of `checkProductUpgrade` and the resource after it. -/
def transitionRequired (W : World) (U : UpgradeFunctions) (cr : KieApp)
    (minor micro : Bool) : Bool :=
  let cMajor := (U.MajorMinorMicro (GetVersion cr)).1
  let lMajor := (U.MajorMinorMicro W.CurrentVersion).1
  let minorVersion := U.GetMinorImageVersion (GetVersion cr)
  let latestMinorVersion := U.GetMinorImageVersion W.CurrentVersion
  (micro && minorVersion == latestMinorVersion) ||
    (minor && minorVersion != latestMinorVersion && cMajor == lMajor)

/-- Lines 34-51 of `GetEnvironment`: the resource as the step leaves it and the
error the function returns with at this point, if any. -/
def upgradeStep (W : World) (U : UpgradeFunctions) (cr : KieApp) : KieApp × Option String :=
  match U.checkProductUpgrade cr with
  | (cr0, _, _, some err) => (cr0, some err)
  | (cr0, minor, micro, none) =>
    if transitionRequired W U cr0 minor micro then
      match U.getConfigVersionDiffs (GetVersion cr0) W.CurrentVersion with
      | some err => (cr0, some err)
      | none => (SetVersion { cr0 with Annotations := some [] } W.CurrentVersion, none)
    else (cr0, none)

/-- `GetEnvironment`: the upgrade step, then the construction of the environment
(lines 52-114, here the function `build`, which receives the resource as the
step left it).  Returns the resource, the environment and the error. -/
def GetEnvironment (W : World) (U : UpgradeFunctions)
    (build : KieApp → KieApp × Environment × Option String) (cr : KieApp) :
    KieApp × Environment × Option String :=
  match upgradeStep W U cr with
  | (cr1, some err) => (cr1, {}, some err)
  | (cr1, none) => build cr1

/-! ## Database deployments, config-map names and the router filter -/

/-- The `api.DatabaseTemplate`: the embedded `InternalDatabaseObject` (type,
size, storage class) and the names of the deployment. -/
structure DatabaseTemplate where
  Type_ : String := ""
  Size : String := ""
  StorageClassName : String := ""
  ServerName : String := ""
  Username : String := ""
  DatabaseName : String := ""
deriving DecidableEq

/-- `isDeployDB`: the database type is MySQL or PostgreSQL. -/
def isDeployDB (W : World) (dbType : String) : Bool :=
  if dbType = W.DatabaseMySQL ∨ dbType = W.DatabasePostgreSQL then true else false

/-- The descriptor `getDatabaseDeploymentTemplate` appends for a server template. -/
def serverDatabaseTemplate (W : World) (sc : ServerTemplate) : DatabaseTemplate :=
  { Type_ := sc.Database.Type_, Size := sc.Database.Size,
    StorageClassName := sc.Database.StorageClassName,
    ServerName := sc.KieName,
    Username := W.DefaultKieServerDatabaseUsername,
    DatabaseName := W.DefaultKieServerDatabaseName }

/-- The descriptor `getDatabaseDeploymentTemplate` appends for the migration
service. -/
def migrationDatabaseTemplate (W : World) (cr : KieApp) (pim : ProcessMigrationTemplate) :
    DatabaseTemplate :=
  { Type_ := pim.Database.Type_, Size := pim.Database.Size,
    StorageClassName := pim.Database.StorageClassName,
    ServerName := cr.Name ++ "-process-migration",
    Username := W.DefaultProcessMigrationDatabaseUsername,
    DatabaseName := W.DefaultProcessMigrationDatabaseName }

/-- The loop of `getDatabaseDeploymentTemplate` over the server templates
(lines 1113-1122), with the slice built so far. -/
def appendServerDatabases (W : World) :
    List ServerTemplate → List DatabaseTemplate → List DatabaseTemplate
  | [], databaseDeploymentTemplate => databaseDeploymentTemplate
  | sc :: rest, databaseDeploymentTemplate =>
    if isDeployDB W sc.Database.Type_ then
      appendServerDatabases W rest (databaseDeploymentTemplate ++ [serverDatabaseTemplate W sc])
    else appendServerDatabases W rest databaseDeploymentTemplate

/-- `getDatabaseDeploymentTemplate`; the migration template is passed by pointer
(`none` is `nil`). -/
def getDatabaseDeploymentTemplate (W : World) (cr : KieApp)
    (serversConfig : List ServerTemplate)
    (processMigrationTemplate : Option ProcessMigrationTemplate) : List DatabaseTemplate :=
  let databaseDeploymentTemplate := appendServerDatabases W serversConfig []
  match processMigrationTemplate with
  | some pim =>
    if isDeployDB W pim.Database.Type_ then
      databaseDeploymentTemplate ++ [migrationDatabaseTemplate W cr pim]
    else databaseDeploymentTemplate
  | none => databaseDeploymentTemplate

/-- `convertToConfigMapName`: returns `(configMapName, file)`.  The loop joins the
prefix with `result[0]`, ..., `result[len-2]` by `-`, one at a time. -/
def convertToConfigMapName (W : World) (filename : String) : String × String :=
  let result := stringsSplit filename '/'
  let name :=
    if result.length > 1 then
      (result.take (result.length - 1)).foldl (fun name r => name ++ "-" ++ r)
        W.ConfigMapPrefix
    else W.ConfigMapPrefix
  (name, result.getD (result.length - 1) "")

/-- `GetImage` with the slice indexing made explicit: `none` stands for an index
out of range. -/
def GetImageChecked (imageURL : String) : Option (String × String × String) :=
  let urlParts := stringsSplit imageURL '/'
  match (if urlParts.length > 1 then urlParts[urlParts.length - 2]? else some ""),
      urlParts[urlParts.length - 1]? with
  | some imageContext, some imageAndTag =>
    let imageParts := stringsSplit imageAndTag ':'
    match imageParts[0]?,
        (if imageParts.length > 1 then imageParts[imageParts.length - 1]? else some "") with
    | some image, some imageTag => some (image, imageTag, imageContext)
    | _, _ => none
  | _, _ => none

/-- Lines 75-77 of `GetEnvironment`: the environment fragment is marked when the
resource declares no smart router. -/
def markRouterOmitted (cr : KieApp) (env : Environment) : Environment :=
  if cr.Spec.Objects.SmartRouter.isNone then
    { env with SmartRouter := { env.SmartRouter with Omit := true } }
  else env

/-- The test of line 89: the variable is none of the three router variables. -/
def keepsEnvVar (envvar : EnvVar) : Bool :=
  envvar.Name ≠ "KIE_SERVER_ROUTER_SERVICE" ∧ envvar.Name ≠ "KIE_SERVER_ROUTER_PORT" ∧
    envvar.Name ≠ "KIE_SERVER_ROUTER_PROTOCOL"

/-- Lines 87-93 for one workload: the variables of `Containers[0]` are replaced by
those that pass the test; `none` stands for the index `[0]` out of range. -/
def removeRouterVarsDC (dc : DeploymentConfig) : Option DeploymentConfig :=
  match dc.Containers with
  | [] => none
  | first :: others =>
    some { dc with Containers := { first with Env := first.Env.filter keepsEnvVar } :: others }

/-- The loop of line 86 over the workloads of one server. -/
def removeRouterVarsDCs : List DeploymentConfig → Option (List DeploymentConfig)
  | [] => some []
  | dc :: rest =>
    match removeRouterVarsDC dc, removeRouterVarsDCs rest with
    | some dc1, some rest1 => some (dc1 :: rest1)
    | _, _ => none

/-- The loop of line 85 over the servers. -/
def removeRouterVarsServers : List CustomObject → Option (List CustomObject)
  | [] => some []
  | server :: rest =>
    match removeRouterVarsDCs server.DeploymentConfigs, removeRouterVarsServers rest with
    | some dcs, some rest1 => some ({ server with DeploymentConfigs := dcs } :: rest1)
    | _, _ => none

/-- Lines 83-96 of `GetEnvironment`, the router filter on the merged environment;
`none` stands for a run-time panic (a workload without containers). -/
def removeRouterVars (mergedEnv : Environment) : Option Environment :=
  if mergedEnv.SmartRouter.Omit then
    match removeRouterVarsServers mergedEnv.Servers with
    | some servers => some { mergedEnv with Servers := servers }
    | none => none
  else some mergedEnv

/-- Lines 75-96 of `GetEnvironment`: the environment fragment is marked when the
resource declares no smart router, merged over the common fragment, and the
merged environment is filtered.  The function `merge` of the package is declared
in another file and is a parameter (merged environment and error); the result
is the environment after the filter with a nil error, or the empty environment
with the error of the merge; `none` stands for a run-time panic. -/
def routerFilterStep (merge : Environment → Environment → Environment × Option String)
    (cr : KieApp) (common env : Environment) : Option (Environment × Option String) :=
  match merge common (markRouterOmitted cr env) with
  | (_, some err) => some ({}, some err)
  | (mergedEnv, none) =>
    match removeRouterVars mergedEnv with
    | some filtered => some (filtered, none)
    | none => none

/-! ## The database and messaging folds -/

/-- Lines 128-131 and 154-157: the server is merged with the fragment's server of
the same name when `findCustomObjectByName` finds one, and left as it is
otherwise. -/
def mergeFound (S : Services) (server : CustomObject) (fragmentServers : List CustomObject) :
    CustomObject :=
  match findCustomObjectByName server fragmentServers with
  | (found, true) => S.mergeCustomObject server found
  | (_, false) => server

/-- What the loops of `mergeJms` and `mergeDB` leave behind: the servers visited so
far as the loop leaves them, the error the function returns with (`none` when
the loop completes) and the files handed to `loadYaml`, in order. -/
structure FoldResult where
  servers : List CustomObject
  err : Option String
  fetched : List String

/-- The loop of `mergeJms` over `env.Servers` (first list) with
`envTemplate.Servers[i]` read from the second list; `jmsEnv` is the variable
declared before the loop, `fetched` the files loaded so far.  `none` stands for
the index `envTemplate.Servers[i]` out of range. -/
def mergeJmsLoop (S : Services) (cr : KieApp) (envTemplate : EnvTemplate) :
    List CustomObject → List ServerTemplate → Environment → List String → Option FoldResult
  | [], _, _, fetched => some { servers := [], err := none, fetched := fetched }
  | _ :: _, [], _, _ => none
  | server :: rest, kieServerSet :: templates, jmsEnv, fetched =>
    if kieServerSet.Jms.EnableIntegration then
      match S.loadYaml "jms/activemq-jms-config.yaml" (GetVersion cr) cr.Namespace
          envTemplate with
      | Except.error err =>
        some { servers := [], err := some err,
               fetched := fetched ++ ["jms/activemq-jms-config.yaml"] }
      | Except.ok yamlBytes =>
        match S.yamlUnmarshal yamlBytes with
        | Except.error err =>
          some { servers := [], err := some err,
                 fetched := fetched ++ ["jms/activemq-jms-config.yaml"] }
        | Except.ok jmsEnv1 =>
          match mergeJmsLoop S cr envTemplate rest templates jmsEnv1
              (fetched ++ ["jms/activemq-jms-config.yaml"]) with
          | some r => some { r with servers := mergeFound S server jmsEnv1.Servers :: r.servers }
          | none => none
    else
      match mergeJmsLoop S cr envTemplate rest templates jmsEnv fetched with
      | some r => some { r with servers := mergeFound S server jmsEnv.Servers :: r.servers }
      | none => none

/-- `mergeJms`: the environment, the error and the files fetched; `none` stands
for a run-time panic.  On an error the function returns `api.Environment{}`. -/
def mergeJms (S : Services) (cr : KieApp) (env : Environment) (envTemplate : EnvTemplate) :
    Option (Environment × Option String × List String) :=
  match mergeJmsLoop S cr envTemplate env.Servers envTemplate.Servers {} [] with
  | none => none
  | some r =>
    match r.err with
    | some err => some ({}, some err, r.fetched)
    | none => some ({ env with Servers := r.servers }, none, r.fetched)

/-- `dbEnvs[dbType]` of the map of loaded database fragments (the zero
environment for a missing key). -/
def lookupDBEnv (dbEnvs : List (String × Environment)) (dbType : String) : Environment :=
  match dbEnvs.find? (fun entry => entry.1 = dbType) with
  | some entry => entry.2
  | none => {}

/-- The loop of `mergeDB`, with the map `dbEnvs` of the fragments loaded so far
(`loadDBYamls` loads `dbs/servers/<type>.yaml` once per database type). -/
def mergeDBLoop (S : Services) (cr : KieApp) (envTemplate : EnvTemplate) :
    List CustomObject → List ServerTemplate → List (String × Environment) → List String →
      Option FoldResult
  | [], _, _, fetched => some { servers := [], err := none, fetched := fetched }
  | _ :: _, [], _, _ => none
  | server :: rest, kieServerSet :: templates, dbEnvs, fetched =>
    let dbType := kieServerSet.Database.Type_
    if dbType = "" then
      match mergeDBLoop S cr envTemplate rest templates dbEnvs fetched with
      | some r => some { r with servers := server :: r.servers }
      | none => none
    else if (dbEnvs.find? (fun entry => entry.1 = dbType)).isSome then
      match mergeDBLoop S cr envTemplate rest templates dbEnvs fetched with
      | some r =>
        some { r with servers := mergeFound S server (lookupDBEnv dbEnvs dbType).Servers ::
                 r.servers }
      | none => none
    else
      match S.loadYaml ("dbs/servers/" ++ dbType ++ ".yaml") (GetVersion cr) cr.Namespace
          envTemplate with
      | Except.error err =>
        some { servers := [], err := some err,
               fetched := fetched ++ ["dbs/servers/" ++ dbType ++ ".yaml"] }
      | Except.ok yamlBytes =>
        match S.yamlUnmarshal yamlBytes with
        | Except.error err =>
          some { servers := [], err := some err,
                 fetched := fetched ++ ["dbs/servers/" ++ dbType ++ ".yaml"] }
        | Except.ok dbEnv =>
          match mergeDBLoop S cr envTemplate rest templates ((dbType, dbEnv) :: dbEnvs)
              (fetched ++ ["dbs/servers/" ++ dbType ++ ".yaml"]) with
          | some r => some { r with servers := mergeFound S server dbEnv.Servers :: r.servers }
          | none => none

/-- `mergeDB`: the environment, the error and the files fetched; `none` stands for
a run-time panic.  On an error the function returns `api.Environment{}`. -/
def mergeDB (S : Services) (cr : KieApp) (env : Environment) (envTemplate : EnvTemplate) :
    Option (Environment × Option String × List String) :=
  match mergeDBLoop S cr envTemplate env.Servers envTemplate.Servers [] [] with
  | none => none
  | some r =>
    match r.err with
    | some err => some ({}, some err, r.fetched)
    | none => some ({ env with Servers := r.servers }, none, r.fetched)

/-! ## The resolved spec and the server set of an instance -/

/-- `ResolveSpec`: the generated status merged into a copy of the spec.  The merge
`mergo.Merge` is a library outside this repository and is the parameter
`Merge` (merged value and error). -/
def ResolveSpec (Merge : KieAppSpec → KieAppSpec → KieAppSpec × Option String) (cr : KieApp) :
    KieAppSpec × Option String :=
  Merge cr.Spec cr.Status.Generated

/-- The inner loop of `GetServerSet` over the deployments of one set, with `fuel`
iterations left: the set and name found at `requestedIndex`, or the count
after the loop. -/
def getServerSetDeployments (appName : String) (requestedIndex : Int)
    (thisServerSet : KieServerSet) (unnamedSets : Nat) :
    Nat → Nat → Nat → (KieServerSet × String) ⊕ Nat
  | 0, _, count => Sum.inr count
  | fuel + 1, relativeIndex, count =>
    if (count : Int) = requestedIndex then
      Sum.inl (thisServerSet,
        getKieDeploymentName appName thisServerSet.Name unnamedSets relativeIndex)
    else
      getServerSetDeployments appName requestedIndex thisServerSet unnamedSets fuel
        (relativeIndex + 1) (count + 1)

/-- The loop of `GetServerSet` over the resolved server sets; `none` stands for the
dereference of a nil `Deployments`. -/
def getServerSetLoop (appName : String) (requestedIndex : Int) :
    List KieServerSet → Nat → Nat → Option (KieServerSet × String)
  | [], _, _ => some ({}, "")
  | thisServerSet :: rest, count, unnamedSets =>
    match thisServerSet.Deployments with
    | none => none
    | some deployments =>
      match getServerSetDeployments appName requestedIndex thisServerSet unnamedSets
          deployments.toNat 0 count with
      | Sum.inl found => some found
      | Sum.inr count1 =>
        getServerSetLoop appName requestedIndex rest count1
          (if thisServerSet.Name = "" then unnamedSets + 1 else unnamedSets)

/-- `GetServerSet`: the server set and the deployment name for an instance index
(`none` stands for a run-time panic). -/
def GetServerSet (Merge : KieAppSpec → KieAppSpec → KieAppSpec × Option String) (cr : KieApp)
    (requestedIndex : Int) : Option (KieServerSet × String) :=
  match ResolveSpec Merge cr with
  | (_, some _) => some ({}, "")
  | (resolvedSpec, none) =>
    getServerSetLoop resolvedSpec.CommonConfig.ApplicationName requestedIndex
      resolvedSpec.Objects.Servers 0 0

/-! ## Vocabulary of the statements -/

/-- A server set without build, database override and JMS override. -/
def Plain (s : KieServerSet) : Prop :=
  s.Build = none ∧ s.Database = none ∧ s.Jms = none

/-- The names of a list of server templates. -/
def kieNames (ts : List ServerTemplate) : List String := ts.map (fun t => t.KieName)

/-- The server sets a custom resource declares, before sorting: those of the
spec when there are any, else the generated ones. -/
def declaredServers (cr : KieApp) : List KieServerSet :=
  if cr.Spec.Objects.Servers ≠ [] then cr.Spec.Objects.Servers
  else cr.Status.Generated.Objects.Servers

/-- The names the specification gives to the deployments of unnamed sets: set
number `j` (counted from 0) of the list, deployment `k` (from 0), is
`<app>-kieserver<idx><suffix>` with `idx` empty for the first set and the
decimal `j+1` otherwise, `suffix` empty for the first deployment and
`-<k+1>` otherwise. -/
def unnamedSetNames (app : String) (first : Nat) (sets : List KieServerSet) : List String :=
  (sets.enumFrom first).flatMap (fun js =>
    (List.range (js.2.Deployments.getD 0).toNat).map (fun k =>
      app ++ "-kieserver" ++ (if js.1 = 0 then "" else toString (js.1 + 1)) ++
        (if k = 0 then "" else "-" ++ toString (k + 1))))

/-- The five generated credentials of a common configuration, in the order of
the slice of `setPasswords`: keystore, admin, DB, AMQ and AMQ-cluster password. -/
def passwords (c : CommonConfig) : List String :=
  [c.KeyStorePassword, c.AdminPassword, c.DBPassword, c.AMQPassword, c.AMQClusterPassword]

/-- A name of the form `<name>-<number>`, as every deployment after the first
of a set is named. -/
def DashNumbered (x : String) : Prop := ∃ (n : String) (k : Nat), x = n ++ "-" ++ fmtD k

/-- At most `q` of the used names are not of the form `<name>-<number>`. -/
def BasesBound (used : List String) (q : Nat) : Prop :=
  ∃ bases : List String, bases.length ≤ q ∧ ∀ x ∈ used, x ∈ bases ∨ DashNumbered x

/-- The servers of the fragment that `loadYaml` and `yaml.Unmarshal` give for a
file (no servers when either of them fails). -/
def loadedServers (S : Services) (cr : KieApp) (envTemplate : EnvTemplate) (file : String) :
    List CustomObject :=
  match S.loadYaml file (GetVersion cr) cr.Namespace envTemplate with
  | Except.error _ => []
  | Except.ok yamlBytes =>
    match S.yamlUnmarshal yamlBytes with
    | Except.error _ => []
    | Except.ok fragment => fragment.Servers

/-- The servers `mergeJms` searches for the server at index `i`: those of the
messaging fragment once a template up to `i` has enabled the integration, and
none before. -/
def jmsFragmentAt (S : Services) (cr : KieApp) (envTemplate : EnvTemplate) (i : Nat) :
    List CustomObject :=
  if (envTemplate.Servers.take (i + 1)).any (fun t => t.Jms.EnableIntegration) then
    loadedServers S cr envTemplate "jms/activemq-jms-config.yaml"
  else []

/-- What the statements assume of `mergo.Merge` on the server sets: it returns no
error, and the merged spec has the server sets of the destination when it
declares any and those of the source otherwise. -/
def MergeFillsServers (Merge : KieAppSpec → KieAppSpec → KieAppSpec × Option String) : Prop :=
  ∀ dst src : KieAppSpec, (Merge dst src).2 = none ∧
    (Merge dst src).1.Objects.Servers =
      (if dst.Objects.Servers = [] then src.Objects.Servers else dst.Objects.Servers)

/-- The number of instances a set with its deployment count set expands to. -/
def deploymentCount (s : KieServerSet) : Nat := (s.Deployments.getD 0).toNat

/-- The set that owns instance `i` according to the deployment counts: the set `j`
with the sum of the counts of the earlier sets `≤ i <` that sum plus the count
of set `j`. -/
def owningSet : List KieServerSet → Nat → Option KieServerSet
  | [], _ => none
  | s :: rest, i =>
    if i < deploymentCount s then some s else owningSet rest (i - deploymentCount s)

/-- The templates `block` are the expansion of the named set `s`: one per
deployment, named after the set. -/
def Expanded (s : KieServerSet) (block : List ServerTemplate) : Prop :=
  s.Name ≠ "" ∧ s.Deployments ≠ none ∧
    kieNames block = (List.range (deploymentCount s)).map (fun k => s.Name ++ getKieSetIndex 0 k)

/-- The templates `block` carry the keystore secret of the set `s`, or the one
named after the template when the set has none. -/
def KeystoreOf (W : World) (s : KieServerSet) (block : List ServerTemplate) : Prop :=
  block.length = (s.Deployments.getD W.DefaultKieDeployments).toNat ∧
    ∀ t ∈ block, t.KeystoreSecret =
      (if s.KeystoreSecret = "" then W.KeystoreSecret t.KieName else s.KeystoreSecret)

/-- The names the expansion gives to the instances of one server set that is
visited with the used names `used` and the counter `unset` (the set's own name
or the name the probe finds, numbered by deployment), and the counter after the
visit. -/
def setInstanceNames (W : World) (appName : String) (sliceLen : Nat) (s : KieServerSet)
    (used : List String) (unset : Nat) : List String × Nat :=
  let d := s.Deployments.getD W.DefaultKieDeployments
  let probed :=
    if s.Name = "" then probeSetName appName used sliceLen { s with Deployments := some d } unset
    else ({ s with Deployments := some d }, unset)
  ((List.range d.toNat).map (fun k => getKieDeploymentName appName probed.1.Name probed.2 k),
    probed.2)

/-- The instance names of an expansion, in order, whether or not a name repeats:
every set is visited with the names of the sets before it as used names. -/
def expansionNames (W : World) (appName : String) (sliceLen : Nat) :
    List KieServerSet → List String → Nat → List String
  | [], _, _ => []
  | s :: rest, used, unset =>
    (setInstanceNames W appName sliceLen s used unset).1 ++
      expansionNames W appName sliceLen rest
        ((setInstanceNames W appName sliceLen s used unset).1.reverse ++ used)
        (setInstanceNames W appName sliceLen s used unset).2

/-- A server set that cannot make the expansion fail for another reason than a
repeated name: it has no build with more than one deployment, and its database
passes `getDatabaseConfig` in the environment. -/
def NoOtherError (W : World) (environment : String) (s : KieServerSet) : Prop :=
  (s.Build.isSome = true → s.Deployments.getD W.DefaultKieDeployments ≤ 1) ∧
    (getDatabaseConfig W environment s.Database).2 = none

/-! ## A concrete world, for evaluating the definitions -/

/-- A concrete instance of what the code reads from outside: two known
environments (`rhpam-trial`, `rhdm-production`), one operator-level image
override for product `rhpam` at version `7.8.0`, and a password generator that
returns a string of the requested length made of a letter that changes from
one call to the next. -/
def exampleWorld : World where
  DefaultKieDeployments := 1
  SmartRouterProtocol := "http"
  RhelVersion := "-rhel8"
  PamKieImageVar := "PAM_KIESERVER_IMAGE_"
  DmKieImageVar := "DM_KIESERVER_IMAGE_"
  RhdmPrefix := "rhdm"
  ImageStreamNamespace := "openshift"
  DefaultExtensionImageInstallDir := "/extensions"
  DatabaseExternal := "external"
  GitHubWebhook := "GitHub"
  GenericWebhook := "Generic"
  CurrentVersion := "7.8.0"
  DefaultAdminUser := "adminUser"
  DefaultPassword := "RedHat"
  TrialEnvSuffix := "trial"
  SchemeGroup := "app.kiegroup.org"
  OperatorVersion := "7.8.0"
  DatabaseH2 := "h2"
  DatabaseMySQL := "mysql"
  DatabasePostgreSQL := "postgresql"
  DefaultKieServerDatabaseUsername := "rhpam"
  DefaultKieServerDatabaseName := "rhpam7"
  DefaultProcessMigrationDatabaseUsername := "pim"
  DefaultProcessMigrationDatabaseName := "pimdb"
  ConfigMapPrefix := "kieconfigs"
  RhpamEnvironments := ["rhpam-trial", "rhpam-authoring", "rhpam-authoring-ha",
    "rhpam-production", "rhpam-production-immutable"]
  KeystoreSecret := fun name => name ++ "-app-secret"
  EnvironmentConstants := fun env =>
    if env = "rhpam-trial" then
      some { Product := "rhpam", ServerReplicas := { Replicas := 1, DenyScale := false },
             Database := some { Type_ := "h2", Size := "" } }
    else if env = "rhdm-production" then
      some { Product := "rhdm", ServerReplicas := { Replicas := 2, DenyScale := false },
             Database := none }
    else none
  LookupEnv := fun name =>
    if name = "PAM_KIESERVER_IMAGE_7.8.0" then
      some "registry.example.com:5000/rhpam-7/rhpam-kieserver-rhel8:7.8.0-12"
    else none
  GeneratePassword := fun call len =>
    String.mk (List.replicate len (Char.ofNat (97 + call % 26)))

/-- A custom resource whose spec declares one unnamed server set with two
deployments and the application name `app`. -/
def exampleUnnamedSpec : KieApp where
  Name := "app"
  Spec := {
    CommonConfig := { ApplicationName := "app" }
    Objects := { Servers := [{ Deployments := some 2 }] } }

/-- A custom resource without declared servers in the spec, whose generated
status holds two unnamed sets (two deployments and one) and the name `app`. -/
def exampleUnnamedStatus : KieApp where
  Name := "app"
  Status := { Generated := {
    CommonConfig := { ApplicationName := "app" }
    Objects := { Servers := [{ Deployments := some 2 }, { Deployments := some 1 }] } } }

/-- A catalogue in which every fragment loads except `dbs/pim/mysql.yaml`. -/
def exampleServices : Services where
  loadYaml := fun filename _ _ _ =>
    if filename = "dbs/pim/mysql.yaml" then Except.error "dbs/pim/mysql.yaml does not exist"
    else Except.ok "rendered"
  yamlUnmarshal := fun _ => Except.ok {}
  mergeCustomObject := fun base _ => base

/-- A resource of profile `rhpam-trial` that deploys process migration. -/
def exampleMigration : KieApp where
  Name := "app"
  Spec := {
    Environment := "rhpam-trial"
    Version := "7.8.0"
    Objects := { ProcessMigration := some { Database := { Type_ := "mysql" } } } }

/-- A resource that sets the version, the admin password and the console
replicas in its spec and has stale values for them in its generated status. -/
def exampleDefaults : KieApp where
  Name := "app"
  Spec := {
    Environment := "rhpam-production"
    Version := "7.7.1"
    CommonConfig := { AdminPassword := "secret" }
    Objects := { Console := { Replicas := some 2 } } }
  Status := { Generated := {
    Version := "7.7.0"
    CommonConfig := { ApplicationName := "stored", AdminPassword := "old" }
    Objects := { Console := { Replicas := some 3 } } } }

/-- A resource with a stored admin password and nothing else. -/
def exampleStoredPassword : KieApp where
  Name := "app"
  Status := { Generated := { CommonConfig := { AdminPassword := "kept" } } }

/-- Two named sets whose names are the first two probe candidates of the
application `app`. -/
def exampleProbePre : List KieServerSet :=
  [{ Name := "app-kieserver" }, { Name := "app-kieserver2", Deployments := some 2 }]

/-- The locals of `getServersConfig` after the loop has visited
`exampleProbePre` as the first two sets of a slice of three. -/
def exampleProbeState : LoopState :=
  (serverSetsLoop exampleWorld {} "rhpam" "app" 1 3 exampleProbePre {}).2.1

/-- Version functions for evaluation: versions are split at `.`, the minor
image version is major followed by minor, upgrades are always enabled and the
catalogue diff fails exactly for the old version `7.6.0`. -/
def exampleUpgrade : UpgradeFunctions where
  checkProductUpgrade := fun cr => (cr, true, true, none)
  MajorMinorMicro := fun v =>
    ((stringsSplit v '.').getD 0 "", (stringsSplit v '.').getD 1 "",
      (stringsSplit v '.').getD 2 "")
  GetMinorImageVersion := fun v =>
    (stringsSplit v '.').getD 0 "" ++ (stringsSplit v '.').getD 1 ""
  getConfigVersionDiffs := fun old _ =>
    if old = "7.6.0" then some "no diff for 7.6.0" else none

/-- A resource whose status stores three console replicas and whose spec sets
none. -/
def exampleStoredReplicas : KieApp where
  Name := "app"
  Status := { Generated := { Objects := { Console := { Replicas := some 3 } } } }


/-- A merged environment with the router omitted and one server whose workload
has two containers, each with a router variable among its variables. -/
def exampleRouterEnv : Environment where
  SmartRouter := { Omit := true }
  Servers := [{ DeploymentConfigs := [{
    Name := "app-kieserver"
    Containers := [
      { Name := "kieserver",
        Env := [{ Name := "KIE_SERVER_ROUTER_PORT", Value := "9000" },
                { Name := "KIE_ADMIN_USER", Value := "admin" }] },
      { Name := "sidecar",
        Env := [{ Name := "KIE_SERVER_ROUTER_SERVICE", Value := "router" }] }] }] }]

/-- The environment fragment of `exampleRouterEnv` as it is loaded, before the
router is marked omitted. -/
def exampleRouterFragment : Environment where
  Servers := [{ DeploymentConfigs := [{
    Name := "app-kieserver"
    Containers := [
      { Name := "kieserver",
        Env := [{ Name := "KIE_SERVER_ROUTER_PORT", Value := "9000" },
                { Name := "KIE_ADMIN_USER", Value := "admin" }] },
      { Name := "sidecar",
        Env := [{ Name := "KIE_SERVER_ROUTER_SERVICE", Value := "router" }] }] }] }]

/-- A merge over a common fragment that adds nothing: the merged environment is
the environment fragment. -/
def exampleRouterMerge (_common env : Environment) : Environment × Option String :=
  (env, none)

/-- What the router filter makes of `exampleRouterEnv`. -/
def exampleRouterFiltered : Environment where
  SmartRouter := { Omit := true }
  Servers := [{ DeploymentConfigs := [{
    Name := "app-kieserver"
    Containers := [
      { Name := "kieserver", Env := [{ Name := "KIE_ADMIN_USER", Value := "admin" }] },
      { Name := "sidecar",
        Env := [{ Name := "KIE_SERVER_ROUTER_SERVICE", Value := "router" }] }] }] }]

/-- A platform whose messaging and database fragments hold one server, with the
workload `app-kieserver`, and whose merge takes the overlay. -/
def exampleFragments : Services where
  loadYaml := fun filename _ _ _ => Except.ok filename
  yamlUnmarshal := fun _ =>
    Except.ok { Servers := [{ DeploymentConfigs := [{ Name := "app-kieserver" }] }] }
  mergeCustomObject := fun _ overlay => overlay

/-- An environment of two servers; the second has no counterpart in the
fragments of `exampleFragments`. -/
def exampleTwoServers : Environment where
  Servers := [
    { DeploymentConfigs := [{ Name := "app-kieserver", Containers := [{ Name := "kieserver" }] }] },
    { DeploymentConfigs := [{ Name := "app-kieserver-2" }] }]

/-- Two server templates without messaging and without a database. -/
def examplePlainTemplate : EnvTemplate where
  Servers := [{ KieName := "app-kieserver" }, { KieName := "app-kieserver-2" }]

/-- Two server templates with messaging enabled and a MySQL database. -/
def exampleOverlayTemplate : EnvTemplate where
  Servers := [
    { KieName := "app-kieserver", Jms := { EnableIntegration := true },
      Database := { Type_ := "mysql" } },
    { KieName := "app-kieserver-2", Jms := { EnableIntegration := true },
      Database := { Type_ := "mysql" } }]

/-- What the folds make of `exampleTwoServers` under `exampleOverlayTemplate`: the
first server is replaced by the overlay, the second is as it was. -/
def exampleOverlaid : Environment where
  Servers := [
    { DeploymentConfigs := [{ Name := "app-kieserver" }] },
    { DeploymentConfigs := [{ Name := "app-kieserver-2" }] }]

/-- A merge that fills only the server sets and the application name. -/
def exampleMerge (dst src : KieAppSpec) : KieAppSpec × Option String :=
  let servers := if dst.Objects.Servers = [] then src.Objects.Servers else dst.Objects.Servers
  let appName := if dst.CommonConfig.ApplicationName = "" then src.CommonConfig.ApplicationName
    else dst.CommonConfig.ApplicationName
  ({ dst with Objects := { dst.Objects with Servers := servers },
              CommonConfig := { dst.CommonConfig with ApplicationName := appName } }, none)

/-- A resource with a named set of two deployments, the second set with a keystore
secret of its own, and an unnamed set. -/
def exampleThreeSets : KieApp where
  Name := "app"
  Spec := {
    Environment := "rhpam-trial"
    CommonConfig := { ApplicationName := "app" }
    Objects := { Servers := [
      { Name := "alpha", Deployments := some 2 },
      { Name := "beta", KeystoreSecret := "beta-secret" },
      { }] } }

/-- A server set with an explicit `From` and with an image and a tag of its own. -/
def exampleFromSet : KieServerSet where
  From := some { Kind := "ImageStreamTag", Name := "custom-kieserver:1.0", Namespace := "custom" }
  Image := "other-image"
  ImageTag := "2.0"

/-- A resource with the version in its spec that asks for image tags. -/
def exampleSpecVersion : KieApp where
  Name := "app"
  Spec := { Environment := "rhpam-trial", Version := "7.7.1", UseImageTags := true }
  Status := { Generated := { Version := "7.7.0" } }

/-- A resource with the version in its generated status only. -/
def exampleGeneratedVersion : KieApp where
  Name := "app"
  Spec := { Environment := "rhpam-trial" }
  Status := { Generated := { Version := "7.7.0" } }

/-! # Theorems -/

/-! ## Replica policy -/

/-- C5: with `hasEnv = true` and a profile constant whose `DenyScale` is set,
`setReplicas` returns the profile's fixed `Replicas` value for every request
(absent or any value). -/
theorem setReplicas_denyScale_fixed (objectReplicas : Option Int)
    (replicaConstant : Replicas) (hDeny : replicaConstant.DenyScale = true) :
    (setReplicas objectReplicas replicaConstant true).1 = replicaConstant.Replicas := by
  cases objectReplicas with
  | none => simp [setReplicas]
  | some r =>
    by_cases hr : r = replicaConstant.Replicas
    · simp [setReplicas, hDeny, hr]
    · simp [setReplicas, hDeny, hr]

/-- C5 at a concrete input: a request of 5 against a scaling-forbidden profile
fixed at 3 replicas yields 3. -/
theorem setReplicas_denyScale_fixed_witness :
    (setReplicas (some 5) { Replicas := 3, DenyScale := true } true).1 = 3 :=
  setReplicas_denyScale_fixed (some 5) { Replicas := 3, DenyScale := true } rfl

/-- C6: `setReplicas` is the replica policy of the specification on every
input, and its second component (the rejected-override flag) is true exactly
when a request is given, `hasEnv` and `DenyScale` hold and the request differs
from the profile's `Replicas`. -/
theorem setReplicas_eq_ResolveReplicas (objectReplicas : Option Int)
    (replicaConstant : Replicas) (hasEnv : Bool) :
    setReplicas objectReplicas replicaConstant hasEnv
        = ResolveReplicas objectReplicas replicaConstant hasEnv ∧
      ((setReplicas objectReplicas replicaConstant hasEnv).2 = true ↔
        (hasEnv = true ∧ replicaConstant.DenyScale = true ∧
          ∃ r, objectReplicas = some r ∧ r ≠ replicaConstant.Replicas)) := by
  cases objectReplicas with
  | none => cases hasEnv <;> simp [setReplicas, ResolveReplicas]
  | some r =>
    cases hasEnv <;> cases hD : replicaConstant.DenyScale <;>
      by_cases hr : r = replicaConstant.Replicas <;>
      simp [setReplicas, ResolveReplicas, hD, hr]

/-! ## Image resolution of a server set -/

/-- C7: for a server set without `From` whose `Image` and `ImageTag` are both
non-empty, `getDefaultKieServerImage` returns the `ImageStreamTag` reference
named `Image:ImageTag`, `omitImageTrigger = false` and the image URL
`Image:ImageTag`, for every product, custom resource and environment. -/
theorem getDefaultKieServerImage_user_image_and_tag (W : World) (product : String)
    (cr : KieApp) (serverSet : KieServerSet) (hFrom : serverSet.From = none)
    (hImage : serverSet.Image ≠ "") (hTag : serverSet.ImageTag ≠ "") :
    getDefaultKieServerImage W product cr serverSet =
      ({ Kind := "ImageStreamTag",
         Name := serverSet.Image ++ ":" ++ serverSet.ImageTag,
         Namespace := W.ImageStreamNamespace },
       false, serverSet.Image ++ ":" ++ serverSet.ImageTag) := by
  simp [getDefaultKieServerImage, hFrom, hImage, hTag]

/-- C7 at a concrete input: image `x` and tag `y` win over the operator-level
override that is present for `rhpam` at version `7.8.0`. -/
theorem getDefaultKieServerImage_user_image_and_tag_witness :
    getDefaultKieServerImage exampleWorld "rhpam" { Spec := { Version := "7.8.0" } }
        { Image := "x", ImageTag := "y" } =
      ({ Kind := "ImageStreamTag", Name := "x" ++ ":" ++ "y", Namespace := "openshift" },
       false, "x" ++ ":" ++ "y") :=
  getDefaultKieServerImage_user_image_and_tag exampleWorld "rhpam"
    { Spec := { Version := "7.8.0" } } { Image := "x", ImageTag := "y" } rfl
    (by decide) (by decide)

/-- C8: for a server set with no `From`, no `Image` and no `ImageTag`: when the
override variable of the product at the resource's version is present and
`UseImageTags` is false, the result is the variable's value as URL,
`omitImageTrigger = true` and a reference named `image:tag` of `GetImage` of
that value; in every other case it is the default URL
`<product>-kieserver<RhelVersion>:<version>` with `omitImageTrigger = false`. -/
theorem getDefaultKieServerImage_default_or_override (W : World) (product : String)
    (cr : KieApp) (serverSet : KieServerSet) (hFrom : serverSet.From = none)
    (hImage : serverSet.Image = "") (hTag : serverSet.ImageTag = "") :
    let envVar :=
      (if product = W.RhdmPrefix then W.DmKieImageVar else W.PamKieImageVar)
        ++ GetVersion cr
    let defaultURL := product ++ "-kieserver" ++ W.RhelVersion ++ ":" ++ GetVersion cr
    (∀ val, W.LookupEnv envVar = some val → cr.Spec.UseImageTags = false →
      getDefaultKieServerImage W product cr serverSet =
        ({ Kind := "ImageStreamTag",
           Name := (GetImage val).1 ++ ":" ++ (GetImage val).2.1,
           Namespace := W.ImageStreamNamespace }, true, val)) ∧
    ((W.LookupEnv envVar = none ∨ cr.Spec.UseImageTags = true) →
      (getDefaultKieServerImage W product cr serverSet).2 = (false, defaultURL)) := by
  intro envVar defaultURL
  have hVar : (if product = W.RhdmPrefix then W.DmKieImageVar ++ GetVersion cr
      else W.PamKieImageVar ++ GetVersion cr) = envVar := by
    simp only [envVar]; split <;> rfl
  constructor
  · intro val hVal hTags
    simp [getDefaultKieServerImage, hFrom, hImage, hTag, hVar, hVal, hTags]
  · intro h
    rcases h with h | h
    · simp [getDefaultKieServerImage, hFrom, hImage, hTag, hVar, h, defaultURL]
    · cases hL : W.LookupEnv envVar <;>
        simp [getDefaultKieServerImage, hFrom, hImage, hTag, hVar, h, hL, defaultURL]

/-- C8 at concrete inputs: product `rhpam` at version `7.8.0` has an override
in `exampleWorld` and gets it; product `rhdm` has none and gets the default. -/
theorem getDefaultKieServerImage_default_or_override_witness :
    getDefaultKieServerImage exampleWorld "rhpam" { Spec := { Version := "7.8.0" } } {} =
        ({ Kind := "ImageStreamTag", Name := "rhpam-kieserver-rhel8:7.8.0-12",
           Namespace := "openshift" }, true,
         "registry.example.com:5000/rhpam-7/rhpam-kieserver-rhel8:7.8.0-12") ∧
      (getDefaultKieServerImage exampleWorld "rhdm" { Spec := { Version := "7.8.0" } } {}).2 =
        (false, "rhdm-kieserver-rhel8:7.8.0") :=
  ⟨(getDefaultKieServerImage_default_or_override exampleWorld "rhpam"
      { Spec := { Version := "7.8.0" } } {} rfl rfl rfl).1
        "registry.example.com:5000/rhpam-7/rhpam-kieserver-rhel8:7.8.0-12" rfl rfl,
   (getDefaultKieServerImage_default_or_override exampleWorld "rhdm"
      { Spec := { Version := "7.8.0" } } {} rfl rfl rfl).2 (Or.inl rfl)⟩

/-- C9 fails as stated: in `exampleWorld` the override variable for `rhpam` at
version `7.8.0` is present and `UseImageTags` is false, so the override path has
marked the trigger omitted, yet a set that supplies only an image gets
`omitImageTrigger = false`, not `true`. -/
theorem getDefaultKieServerImage_override_reenabled :
    exampleWorld.LookupEnv ("PAM_KIESERVER_IMAGE_" ++
        GetVersion { Spec := { Version := "7.8.0" } }) =
        some "registry.example.com:5000/rhpam-7/rhpam-kieserver-rhel8:7.8.0-12" ∧
      (getDefaultKieServerImage exampleWorld "rhpam"
        { Spec := { Version := "7.8.0", UseImageTags := false } }
        { Image := "custom" }) =
        ({ Kind := "ImageStreamTag", Name := "custom:7.8.0-12", Namespace := "openshift" },
         false, "custom:7.8.0-12") := by
  constructor <;> decide

/-- C9, amended: whenever a server set without `From` supplies a non-empty
image or a non-empty tag, `getDefaultKieServerImage` returns
`omitImageTrigger = false`, whether or not the override path applied. -/
theorem getDefaultKieServerImage_user_value_enables_trigger (W : World)
    (product : String) (cr : KieApp) (serverSet : KieServerSet)
    (hFrom : serverSet.From = none)
    (hUser : serverSet.Image ≠ "" ∨ serverSet.ImageTag ≠ "") :
    (getDefaultKieServerImage W product cr serverSet).2.1 = false := by
  by_cases hImage : serverSet.Image = "" <;> by_cases hTag : serverSet.ImageTag = ""
  · exact absurd hUser (by simp [hImage, hTag])
  · simp [getDefaultKieServerImage, hFrom, hImage, hTag]
  · simp [getDefaultKieServerImage, hFrom, hImage, hTag]
  · simp [getDefaultKieServerImage, hFrom, hImage, hTag]

/-- C9, amended, at a concrete input: only a tag is supplied while the
override is present, and the trigger is enabled. -/
theorem getDefaultKieServerImage_user_value_enables_trigger_witness :
    (getDefaultKieServerImage exampleWorld "rhpam" { Spec := { Version := "7.8.0" } }
      { ImageTag := "latest" }).2.1 = false :=
  getDefaultKieServerImage_user_value_enables_trigger exampleWorld "rhpam"
    { Spec := { Version := "7.8.0" } } { ImageTag := "latest" } rfl (Or.inr (by decide))

/-! ## Splitting an image URL -/

/-- Splitting never yields the empty list: there is always a last part. -/
theorem splitChars_ne_nil (sep : Char) (l : List Char) : splitChars sep l ≠ [] := by
  induction l with
  | nil => simp [splitChars]
  | cons c cs ih =>
    unfold splitChars
    split
    · simp
    · split <;> simp

/-- A text without the separator is its own single part. -/
theorem splitChars_of_not_mem (sep : Char) (l : List Char) (h : sep ∉ l) :
    splitChars sep l = [l] := by
  induction l with
  | nil => simp [splitChars]
  | cons c cs ih =>
    have hc : c ≠ sep := fun e => h (by simp [e])
    have hcs : sep ∉ cs := fun e => h (by simp [e])
    simp [splitChars, hc, ih hcs]

/-- Splitting distributes over a separator occurrence. -/
theorem splitChars_append_sep (sep : Char) (a b : List Char) :
    splitChars sep (a ++ sep :: b) = splitChars sep a ++ splitChars sep b := by
  induction a with
  | nil => simp [splitChars]
  | cons c cs ih =>
    by_cases hc : c = sep
    · simp [splitChars, hc, ih]
    · obtain ⟨h, t, hs⟩ := List.exists_cons_of_ne_nil (splitChars_ne_nil sep cs)
      simp [splitChars, hc, ih, hs]

/-- Indexing `len-1` reads the last element. -/
theorem getD_last_append_singleton {α : Type} (xs : List α) (y d : α) :
    (xs ++ [y]).getD ((xs ++ [y]).length - 1) d = y := by
  simp [List.getD_eq_getElem?_getD]

/-- Indexing `len-2` reads the element before the last. -/
theorem getD_prev_append_two {α : Type} (xs : List α) (x y d : α) :
    (xs ++ [x] ++ [y]).getD ((xs ++ [x] ++ [y]).length - 2) d = x := by
  simp [List.getD_eq_getElem?_getD, List.getElem_append_right]


/-- `GetImage` in terms of the `'/'`-parts of the URL: the image and tag come from
the last part, the context is the part before it (if any). -/
theorem GetImage_of_split (url : String) (init : List (List Char)) (seg : List Char)
    (h : splitChars '/' url.data = init ++ [seg]) :
    GetImage url =
      (String.mk ((splitChars ':' seg).headD []),
       if (splitChars ':' seg).length > 1 then String.mk ((splitChars ':' seg).getLastD [])
       else "",
       String.mk (init.getLastD [])) := by
  obtain ⟨h0, t0, hs⟩ := List.exists_cons_of_ne_nil (splitChars_ne_nil ':' seg)
  have hImg : ((init ++ [seg]).map String.mk).getD
      (((init ++ [seg]).map String.mk).length - 1) "" = String.mk seg := by
    rw [List.map_append]; exact getD_last_append_singleton _ _ _
  have hParts : ((h0 :: t0).map String.mk).getD 0 "" = String.mk h0 := by simp
  have hTag : (if ((h0 :: t0).map String.mk).length > 1 then
        ((h0 :: t0).map String.mk).getD (((h0 :: t0).map String.mk).length - 1) "" else "")
      = if (h0 :: t0).length > 1 then String.mk ((h0 :: t0).getLastD []) else "" := by
    rcases List.eq_nil_or_concat t0 with rfl | ⟨t1, y, ht⟩
    · simp
    · rw [List.concat_eq_append] at ht
      subst ht
      have e : h0 :: (t1 ++ [y]) = (h0 :: t1) ++ [y] := rfl
      rw [e, List.map_append, List.map_singleton, getD_last_append_singleton,
        List.getLastD_concat]
      simp
  have hCtx : (if ((init ++ [seg]).map String.mk).length > 1 then
        ((init ++ [seg]).map String.mk).getD (((init ++ [seg]).map String.mk).length - 2) ""
        else "") = String.mk (init.getLastD []) := by
    rcases List.eq_nil_or_concat init with rfl | ⟨i1, c, hi⟩
    · simp
    · rw [List.concat_eq_append] at hi
      subst hi
      rw [List.map_append, List.map_append, List.map_singleton, List.map_singleton,
        getD_prev_append_two, List.getLastD_concat]
      simp
  simp only [GetImage, stringsSplit, h, hImg, hs, hParts, hTag, hCtx]
  simp

/-- The parts of `a ++ b` when `a` is empty or ends with the separator and `b`
has none: the last part is `b`, the parts before are those of `a` without its
final separator. -/
theorem splitChars_prefix_seg (sep : Char) (a b : List Char)
    (ha : a = [] ∨ ∃ p, a = p ++ [sep]) (hb : sep ∉ b) :
    ∃ init, splitChars sep (a ++ b) = init ++ [b] ∧ (a = [] → init = []) ∧
      (∀ p, a = p ++ [sep] → init = splitChars sep p) := by
  rcases ha with rfl | ⟨p, rfl⟩
  · refine ⟨[], by simp [splitChars_of_not_mem sep b hb], fun _ => rfl, ?_⟩
    intro p hp
    simp at hp
  · refine ⟨splitChars sep p, ?_, ?_, ?_⟩
    · rw [List.append_assoc, List.singleton_append, splitChars_append_sep,
        splitChars_of_not_mem sep b hb]
    · intro hp
      simp at hp
    · intro p2 hp
      rw [List.append_left_inj] at hp
      rw [hp]

/-- The empty string has no characters. -/
theorem data_eq_nil_of_eq_empty {s : String} (h : s = "") : s.data = [] := by
  subst h; rfl

/-- C10, amended: write the URL as `pfx ++ seg` where `pfx` is empty or ends
with `/` and `seg` has no `/` (so `seg` is the text after the last `/`).  If
`seg` has no `:` the image is `seg` and the tag is empty; otherwise the image is
the text of `seg` before its FIRST `:` and the tag is the text of `seg` after
its LAST `:`.  The context is empty when the URL has no `/`, and otherwise the
`/`-separated segment immediately before `seg`. -/
theorem GetImage_segments (pfx seg : String)
    (hPfx : pfx = "" ∨ ∃ p, pfx = p ++ "/") (hSeg : '/' ∉ seg.data) :
    (':' ∉ seg.data →
        (GetImage (pfx ++ seg)).1 = seg ∧ (GetImage (pfx ++ seg)).2.1 = "") ∧
      (∀ a b, seg = a ++ ":" ++ b → ':' ∉ a.data → (GetImage (pfx ++ seg)).1 = a) ∧
      (∀ a b, seg = a ++ ":" ++ b → ':' ∉ b.data → (GetImage (pfx ++ seg)).2.1 = b) ∧
      (pfx = "" → (GetImage (pfx ++ seg)).2.2 = "") ∧
      (∀ q c, pfx = q ++ c ++ "/" → (q = "" ∨ ∃ r, q = r ++ "/") → '/' ∉ c.data →
        (GetImage (pfx ++ seg)).2.2 = c) := by
  have hPfx2 : pfx.data = [] ∨ ∃ p, pfx.data = p ++ ['/'] := by
    rcases hPfx with h | ⟨p, h⟩
    · exact Or.inl (data_eq_nil_of_eq_empty h)
    · exact Or.inr ⟨p.data, by rw [h]; rfl⟩
  obtain ⟨init, hSplit, hNil, hInit⟩ := splitChars_prefix_seg '/' pfx.data seg.data hPfx2 hSeg
  have hG := GetImage_of_split (pfx ++ seg) init seg.data
    (by rw [String.data_append]; exact hSplit)
  rw [hG]
  refine ⟨?_, ?_, ?_, ?_, ?_⟩
  · intro hc
    simp [splitChars_of_not_mem ':' seg.data hc]
  · intro a b hab ha
    have e : seg.data = a.data ++ ':' :: b.data := by rw [hab]; simp
    have hne := splitChars_ne_nil ':' a.data
    simp [e, splitChars_append_sep, splitChars_of_not_mem ':' a.data ha]
  · intro a b hab hb
    have e : seg.data = a.data ++ ':' :: b.data := by rw [hab]; simp
    obtain ⟨h0, t0, hs⟩ := List.exists_cons_of_ne_nil (splitChars_ne_nil ':' a.data)
    have e2 : splitChars ':' seg.data = (h0 :: t0) ++ [b.data] := by
      rw [e, splitChars_append_sep, splitChars_of_not_mem ':' b.data hb, hs]
    rw [e2, List.getLastD_concat]
    simp
  · intro h
    simp [hNil (data_eq_nil_of_eq_empty h)]
  · intro q c hq hq2 hc
    have e : pfx.data = (q.data ++ c.data) ++ ['/'] := by rw [hq]; simp
    have hq3 : q.data = [] ∨ ∃ p, q.data = p ++ ['/'] := by
      rcases hq2 with h | ⟨p, h⟩
      · exact Or.inl (data_eq_nil_of_eq_empty h)
      · exact Or.inr ⟨p.data, by rw [h]; rfl⟩
    obtain ⟨init2, hSplit2, -, -⟩ := splitChars_prefix_seg '/' q.data c.data hq3 hc
    rw [hInit _ e, hSplit2, List.getLastD_concat]

/-- C10, amended, at concrete inputs: a URL with a registry port, a namespace and
a tagged image, and a bare image name. -/
theorem GetImage_segments_witness :
    ((GetImage ("quay.io:443/ns/" ++ "img:1.0")).1 = "img" ∧
      (GetImage ("quay.io:443/ns/" ++ "img:1.0")).2.1 = "1.0" ∧
      (GetImage ("quay.io:443/ns/" ++ "img:1.0")).2.2 = "ns") ∧
    ((GetImage ("" ++ "img")).1 = "img" ∧ (GetImage ("" ++ "img")).2.1 = "" ∧
      (GetImage ("" ++ "img")).2.2 = "") :=
  have h := GetImage_segments "quay.io:443/ns/" "img:1.0"
    (Or.inr ⟨"quay.io:443/ns", rfl⟩) (by decide)
  have g := GetImage_segments "" "img" (Or.inl rfl) (by decide)
  ⟨⟨h.2.1 "img" "1.0" rfl (by decide), h.2.2.1 "img" "1.0" rfl (by decide),
    h.2.2.2.2 "quay.io:443/" "ns" rfl (Or.inr ⟨"quay.io:443", rfl⟩) (by decide)⟩,
   ⟨(g.1 (by decide)).1, (g.1 (by decide)).2, g.2.2.2.1 rfl⟩⟩

/-- C10 fails as stated: in `repo/a:b:c` the last segment is `a:b:c`, whose text
before the last `:` is `a:b`, but the returned image is `a` (the text before
the first `:`). -/
theorem GetImage_image_before_first_colon :
    GetImage "repo/a:b:c" = ("a", "c", "repo") ∧
      "a:b:c" = "a:b" ++ ":" ++ "c" ∧ ':' ∉ "c".data ∧
      (GetImage "repo/a:b:c").1 ≠ "a:b" := by
  refine ⟨by decide, by decide, by decide, by decide⟩

/-! ## Decimal formatting -/

theorem toDigitsCore_append (f : Nat) : ∀ (n : Nat) (ds : List Char),
    Nat.toDigitsCore 10 f n ds = Nat.toDigitsCore 10 f n [] ++ ds := by
  induction f with
  | zero => intro n ds; simp [Nat.toDigitsCore]
  | succ f ih =>
    intro n ds
    simp only [Nat.toDigitsCore]
    split
    · simp
    · rw [ih (n / 10) (Nat.digitChar (n % 10) :: ds), ih (n / 10) [Nat.digitChar (n % 10)]]
      simp

/-- One round of `Nat.toDigitsCore` on a number of at least two digits. -/
theorem toDigitsCore_step (f n : Nat) (h : 10 ≤ n) :
    Nat.toDigitsCore 10 (f + 1) n [] =
      Nat.toDigitsCore 10 f (n / 10) [] ++ [Nat.digitChar (n % 10)] := by
  have h0 : n / 10 ≠ 0 := by omega
  simp only [Nat.toDigitsCore, h0, if_false]
  rw [toDigitsCore_append]

/-- One round of `Nat.toDigitsCore` on a one-digit number. -/
theorem toDigitsCore_small (f n : Nat) (h : n < 10) :
    Nat.toDigitsCore 10 (f + 1) n [] = [Nat.digitChar n] := by
  have h0 : n / 10 = 0 := by omega
  have h1 : n % 10 = n := by omega
  simp [Nat.toDigitsCore, h0, h1]

/-- With enough fuel the digits do not depend on the fuel. -/
theorem toDigitsCore_fuel (n : Nat) : ∀ f g, n < f → n < g →
    Nat.toDigitsCore 10 f n [] = Nat.toDigitsCore 10 g n [] := by
  induction n using Nat.strong_induction_on with
  | _ n ih =>
    intro f g hf hg
    obtain ⟨f, rfl⟩ : ∃ k, f = k + 1 := ⟨f - 1, by omega⟩
    obtain ⟨g, rfl⟩ : ∃ k, g = k + 1 := ⟨g - 1, by omega⟩
    by_cases h : n < 10
    · rw [toDigitsCore_small f n h, toDigitsCore_small g n h]
    · rw [toDigitsCore_step f n (by omega), toDigitsCore_step g n (by omega),
        ih (n / 10) (by omega) f g (by omega) (by omega)]

/-- The decimal digits of a number below ten. -/
theorem toDigits_small (n : Nat) (h : n < 10) : Nat.toDigits 10 n = [Nat.digitChar n] := by
  simp only [Nat.toDigits]; exact toDigitsCore_small n n h

/-- The decimal digits of `n` are those of `n / 10` followed by the last digit. -/
theorem toDigits_step (n : Nat) (h : 10 ≤ n) :
    Nat.toDigits 10 n = Nat.toDigits 10 (n / 10) ++ [Nat.digitChar (n % 10)] := by
  simp only [Nat.toDigits]
  rw [toDigitsCore_step n n h, toDigitsCore_fuel (n / 10) n (n / 10 + 1) (by omega) (by omega)]

/-- Every number has at least one decimal digit. -/
theorem toDigits_ne_nil (n : Nat) : Nat.toDigits 10 n ≠ [] := by
  by_cases h : n < 10
  · rw [toDigits_small n h]; simp
  · rw [toDigits_step n (by omega)]; simp

/-- Distinct digits have distinct characters. -/
theorem digitChar_inj (a b : Nat) (ha : a < 10) (hb : b < 10)
    (h : Nat.digitChar a = Nat.digitChar b) : a = b := by
  interval_cases a <;> interval_cases b <;> first | rfl | (exact absurd h (by decide))

/-- No digit character is the dash. -/
theorem digitChar_ne_dash (a : Nat) (ha : a < 10) : Nat.digitChar a ≠ '-' := by
  interval_cases a <;> decide

/-- Decimal digits determine the number. -/
theorem toDigits_inj : ∀ n m, Nat.toDigits 10 n = Nat.toDigits 10 m → n = m := by
  intro n
  induction n using Nat.strong_induction_on with
  | _ n ih =>
    intro m h
    by_cases hn : n < 10 <;> by_cases hm : m < 10
    · rw [toDigits_small n hn, toDigits_small m hm] at h
      exact digitChar_inj n m hn hm (by simpa using h)
    · rw [toDigits_small n hn, toDigits_step m (by omega)] at h
      have := congrArg List.length h
      have hl : (Nat.toDigits 10 (m / 10)).length ≠ 0 := by
        simpa using toDigits_ne_nil (m / 10)
      simp only [List.length_append, List.length_singleton, List.length_cons,
        List.length_nil] at this
      omega
    · rw [toDigits_small m hm, toDigits_step n (by omega)] at h
      have := congrArg List.length h
      have hl : (Nat.toDigits 10 (n / 10)).length ≠ 0 := by
        simpa using toDigits_ne_nil (n / 10)
      simp only [List.length_append, List.length_singleton, List.length_cons,
        List.length_nil] at this
      omega
    · rw [toDigits_step n (by omega), toDigits_step m (by omega)] at h
      have h2 := List.append_inj' h rfl
      have e1 := ih (n / 10) (by omega) (m / 10) h2.1
      have e2 := digitChar_inj (n % 10) (m % 10) (Nat.mod_lt _ (by decide))
        (Nat.mod_lt _ (by decide)) (by simpa using h2.2)
      omega

/-- Decimal digits contain no dash. -/
theorem toDigits_no_dash : ∀ n, '-' ∉ Nat.toDigits 10 n := by
  intro n
  induction n using Nat.strong_induction_on with
  | _ n ih =>
    by_cases hn : n < 10
    · rw [toDigits_small n hn]
      simpa using (digitChar_ne_dash n hn).symm
    · rw [toDigits_step n (by omega)]
      have := ih (n / 10) (by omega)
      have h2 := digitChar_ne_dash (n % 10) (Nat.mod_lt _ (by decide))
      simp [this, h2.symm]

/-- The characters of `fmtD n` are the decimal digits of `n`. -/
theorem fmtD_data (n : Nat) : (fmtD n).data = Nat.toDigits 10 n := rfl

/-- `%d` formatting is injective. -/
theorem fmtD_inj {n m : Nat} (h : fmtD n = fmtD m) : n = m :=
  toDigits_inj n m (by rw [← fmtD_data, ← fmtD_data, h])


/-! ## Expansion of server sets -/

theorem getBuildConfig_serverSet (W : World) (product : String) (cr : KieApp)
    (s : KieServerSet) (calls : Nat) :
    (getBuildConfig W product cr s calls).2.1 =
        { s with Build := (getBuildConfig W product cr s calls).2.1.Build } ∧
      (getBuildConfig W product cr s calls).2.1.Build.isSome = s.Build.isSome := by
  unfold getBuildConfig
  cases hB : s.Build with
  | none => cases s; simp_all
  | some b =>
    simp only []
    split <;> (cases s; simp_all)

/-- What a successful iteration of the deployment loop has done: the name was
free and is now used, exactly one template with that name was appended, and a
set with a build has at most one deployment. -/
theorem deploymentStep_ok_inv (W : World) (cr : KieApp) (product appName : String)
    (sr d : Int) (i : Nat) (s s' : KieServerSet) (st st' : LoopState)
    (h : deploymentStep W cr product appName sr d i s st = (s', st', none)) :
    getKieDeploymentName appName s.Name st.unsetNames i ∉ st.usedNames ∧
      st'.usedNames = getKieDeploymentName appName s.Name st.unsetNames i :: st.usedNames ∧
      st'.unsetNames = st.unsetNames ∧
      (∃ t : ServerTemplate, st'.servers = st.servers ++ [t] ∧
        t.KieName = getKieDeploymentName appName s.Name st.unsetNames i ∧
        t.KeystoreSecret = (if s.KeystoreSecret = "" then
          W.KeystoreSecret (getKieDeploymentName appName s.Name st.unsetNames i)
          else s.KeystoreSecret)) ∧
      s'.Name = s.Name ∧ s'.Deployments = s.Deployments ∧
      s'.KeystoreSecret = s.KeystoreSecret ∧
      (s.Build.isSome = true → d ≤ 1) := by
  obtain ⟨hb1, hb2⟩ := getBuildConfig_serverSet W product cr s st.calls
  unfold deploymentStep at h
  simp only [] at h
  split at h
  · simp at h
  · rename_i hname
    split at h
    · simp at h
    · rename_i hbuild
      split at h
      · simp at h
      · rename_i dbConfig hdb
        simp only [Prod.mk.injEq, and_true] at h
        obtain ⟨hs, hst⟩ := h
        subst hs hst
        refine ⟨hname, rfl, rfl, ⟨_, rfl, rfl, ?_⟩, ?_, ?_, ?_, ?_⟩
        · simp only []
          rw [hb1]
        · simp only []; rw [hb1]
        · simp only []; rw [hb1]
        · simp only []; rw [hb1]
        · intro hB
          rw [hb2, hB] at hbuild
          simp at hbuild
          exact hbuild

/-- Without a database override `getDatabaseConfig` returns no error. -/
theorem getDatabaseConfig_none_err (W : World) (env : String) :
    (getDatabaseConfig W env none).2 = none := by
  unfold getDatabaseConfig
  cases W.EnvironmentConstants env <;> simp

/-- Without a JMS object `getJmsConfig` returns `nil` and generates nothing. -/
theorem getJmsConfig_none (W : World) (env : String) (calls : Nat) :
    getJmsConfig W env none calls = (none, none, calls) := by
  unfold getJmsConfig
  cases W.EnvironmentConstants env <;> simp

/-- Without a build `getBuildConfig` returns the empty template. -/
theorem getBuildConfig_none (W : World) (product : String) (cr : KieApp)
    (s : KieServerSet) (calls : Nat) (h : s.Build = none) :
    getBuildConfig W product cr s calls = ({}, s, calls) := by
  unfold getBuildConfig
  simp [h]

/-- An iteration on a plain set with a free name succeeds and leaves the set plain. -/
theorem deploymentStep_plain (W : World) (cr : KieApp) (product appName : String)
    (sr d : Int) (i : Nat) (s : KieServerSet) (st : LoopState) (hP : Plain s)
    (hFresh : getKieDeploymentName appName s.Name st.unsetNames i ∉ st.usedNames) :
    ∃ s' st', deploymentStep W cr product appName sr d i s st = (s', st', none) ∧
      Plain s' := by
  obtain ⟨hB, hD, hJ⟩ := hP
  have hdb := getDatabaseConfig_none_err W cr.Spec.Environment
  unfold deploymentStep
  simp only [hFresh, if_false, getBuildConfig_none W product cr s st.calls hB, hB, hD, hJ,
    getJmsConfig_none, Option.isSome_none, Bool.false_eq_true, false_and]
  cases hdb2 : getDatabaseConfig W cr.Spec.Environment none with
  | mk db e =>
    rw [hdb2] at hdb
    simp only [] at hdb
    subst hdb
    exact ⟨_, _, rfl, rfl, rfl, rfl⟩

/-- What a successful deployment loop has done: it appended one template per
iteration, named by `getKieDeploymentName` at the successive indices, all
fresh and pairwise distinct. -/
theorem deploymentsLoop_ok_inv (W : World) (cr : KieApp) (product appName : String)
    (sr d : Int) : ∀ (fuel i : Nat) (s s' : KieServerSet) (st st' : LoopState),
    deploymentsLoop W cr product appName sr d fuel i s st = (s', st', none) →
    st'.unsetNames = st.unsetNames ∧ s'.Name = s.Name ∧ s'.Deployments = s.Deployments ∧
      s'.KeystoreSecret = s.KeystoreSecret ∧
      (0 < fuel → s.Build.isSome = true → d ≤ 1) ∧
      ∃ ts, st'.servers = st.servers ++ ts ∧
        kieNames ts = (List.range fuel).map
          (fun k => getKieDeploymentName appName s.Name st.unsetNames (i + k)) ∧
        st'.usedNames = (kieNames ts).reverse ++ st.usedNames ∧
        (∀ n ∈ kieNames ts, n ∉ st.usedNames) ∧ (kieNames ts).Nodup := by
  intro fuel
  induction fuel with
  | zero =>
    intro i s s' st st' h
    simp only [deploymentsLoop, Prod.mk.injEq, and_true] at h
    obtain ⟨rfl, rfl⟩ := h
    exact ⟨rfl, rfl, rfl, rfl, fun h => absurd h (by decide), [], by simp [kieNames]⟩
  | succ fuel ih =>
    intro i s s' st st' h
    unfold deploymentsLoop at h
    cases hstep : deploymentStep W cr product appName sr d i s st with
    | mk s1 r =>
      obtain ⟨st1, e⟩ := r
      rw [hstep] at h
      cases e with
      | some err => simp at h
      | none =>
        simp only [] at h
        obtain ⟨hfresh, hused, hunset, ⟨t, hserv, htn, -⟩, hname, hdep, hks, hbuild⟩ :=
          deploymentStep_ok_inv W cr product appName sr d i s s1 st st1 hstep
        obtain ⟨hunset2, hname2, hdep2, hks2, -, ts, hserv2, hnames2, hused2, hfresh2, hnd⟩ :=
          ih (i + 1) s1 s' st1 st' h
        refine ⟨by rw [hunset2, hunset], by rw [hname2, hname], by rw [hdep2, hdep],
          by rw [hks2, hks], fun _ => hbuild, t :: ts, ?_, ?_, ?_, ?_, ?_⟩
        · rw [hserv2, hserv]; simp
        · simp only [kieNames, List.map_cons] at hnames2 ⊢
          rw [hnames2, htn, List.range_succ_eq_map, List.map_cons, List.map_map, hname, hunset]
          simp only [Nat.add_zero, List.cons.injEq, true_and]
          apply List.map_congr_left
          intro k _
          simp only [Function.comp, Nat.succ_eq_add_one]
          congr 1
          omega
        · rw [hused2, hused]
          simp only [kieNames, List.map_cons, List.reverse_cons, htn, List.append_assoc,
            List.singleton_append]
        · intro n hn
          simp only [kieNames, List.map_cons, List.mem_cons] at hn
          rcases hn with rfl | hn
          · rw [htn]; exact hfresh
          · have := hfresh2 n hn
            rw [hused] at this
            exact fun hmem => this (List.mem_cons_of_mem _ hmem)
        · simp only [kieNames, List.map_cons, List.nodup_cons]
          refine ⟨?_, hnd⟩
          intro hmem
          have := hfresh2 _ hmem
          rw [hused, htn] at this
          exact this (List.mem_cons_self _ _)

/-- The probe loop changes at most the name of the set. -/
theorem probeSetName_fields (appName : String) (usedNames : List String) :
    ∀ (fuel : Nat) (s : KieServerSet) (u : Nat),
      (probeSetName appName usedNames fuel s u).1 =
        { s with Name := (probeSetName appName usedNames fuel s u).1.Name } := by
  intro fuel
  induction fuel with
  | zero => intro s u; simp [probeSetName]
  | succ fuel ih =>
    intro s u
    unfold probeSetName
    simp only []
    split
    · exact ih s (u + 1)
    · rfl

/-- What a successful visit of one server set has done. -/
theorem serverSetStep_ok_inv (W : World) (cr : KieApp) (product appName : String)
    (sr : Int) (sliceLen : Nat) (s s' : KieServerSet) (st st' : LoopState)
    (h : serverSetStep W cr product appName sr sliceLen s st = (s', st', none)) :
    (s.Build.isSome = true → s.Deployments.getD W.DefaultKieDeployments ≤ 1) ∧
      ∃ ts, st'.servers = st.servers ++ ts ∧
        st'.usedNames = (kieNames ts).reverse ++ st.usedNames ∧
        (∀ n ∈ kieNames ts, n ∉ st.usedNames) ∧ (kieNames ts).Nodup := by
  unfold serverSetStep at h
  simp only [] at h
  obtain ⟨-, -, -, -, hbuild, ts, hserv, -, hused, hfresh, hnd⟩ :=
    deploymentsLoop_ok_inv W cr product appName sr _ _ _ _ _ _ _ h
  refine ⟨?_, ts, hserv, hused, hfresh, hnd⟩
  intro hB
  by_contra hgt
  have hpos : 0 < (s.Deployments.getD W.DefaultKieDeployments).toNat := by omega
  refine hgt (hbuild hpos ?_)
  split
  · rw [probeSetName_fields]; exact hB
  · exact hB

/-- What a successful loop over the server sets has done: the appended names
are fresh and pairwise distinct, and no visited set with a build asks for more
than one deployment. -/
theorem serverSetsLoop_ok_inv (W : World) (cr : KieApp) (product appName : String)
    (sr : Int) (sliceLen : Nat) : ∀ (sets sets' : List KieServerSet) (st st' : LoopState),
    serverSetsLoop W cr product appName sr sliceLen sets st = (sets', st', none) →
    (∀ s ∈ sets, s.Build.isSome = true → s.Deployments.getD W.DefaultKieDeployments ≤ 1) ∧
      ∃ ts, st'.servers = st.servers ++ ts ∧
        st'.usedNames = (kieNames ts).reverse ++ st.usedNames ∧
        (∀ n ∈ kieNames ts, n ∉ st.usedNames) ∧ (kieNames ts).Nodup := by
  intro sets
  induction sets with
  | nil =>
    intro sets' st st' h
    simp only [serverSetsLoop, Prod.mk.injEq, and_true] at h
    obtain ⟨-, rfl⟩ := h
    exact ⟨by simp, [], by simp [kieNames]⟩
  | cons s rest ih =>
    intro sets' st st' h
    unfold serverSetsLoop at h
    cases hstep : serverSetStep W cr product appName sr sliceLen s st with
    | mk s1 r =>
      obtain ⟨st1, e⟩ := r
      rw [hstep] at h
      cases e with
      | some err => simp at h
      | none =>
        simp only [] at h
        cases hrest : serverSetsLoop W cr product appName sr sliceLen rest st1 with
        | mk rest1 r2 =>
          obtain ⟨st2, e2⟩ := r2
          rw [hrest] at h
          simp only [Prod.mk.injEq] at h
          obtain ⟨-, rfl, rfl⟩ := h
          obtain ⟨hb1, ts1, hserv1, hused1, hfresh1, hnd1⟩ :=
            serverSetStep_ok_inv W cr product appName sr sliceLen s s1 st st1 hstep
          obtain ⟨hb2, ts2, hserv2, hused2, hfresh2, hnd2⟩ := ih rest1 st1 st2 hrest
          refine ⟨?_, ts1 ++ ts2, ?_, ?_, ?_, ?_⟩
          · intro x hx
            rcases List.mem_cons.1 hx with rfl | hx
            · exact hb1
            · exact hb2 x hx
          · rw [hserv2, hserv1, List.append_assoc]
          · rw [hused2, hused1]
            simp [kieNames]
          · intro n hn
            simp only [kieNames, List.map_append, List.mem_append] at hn
            rcases hn with hn | hn
            · exact hfresh1 n hn
            · have := hfresh2 n hn
              rw [hused1] at this
              exact fun hmem => this (List.mem_append_right _ hmem)
          · simp only [kieNames, List.map_append]
            refine List.Nodup.append hnd1 hnd2 ?_
            intro n hn1 hn2
            have := hfresh2 n hn2
            rw [hused1] at this
            exact this (List.mem_append_left _ (List.mem_reverse.2 hn1))

/-- The only error of `getDatabaseConfig` is the external-database one. -/
theorem getDatabaseConfig_err (W : World) (env : String) (db : Option DatabaseObject)
    (e : ConfigError) (h : (getDatabaseConfig W env db).2 = some e) :
    e = ConfigError.externalDatabase := by
  unfold getDatabaseConfig at h
  cases hE : W.EnvironmentConstants env with
  | none => simp [hE] at h
  | some ec =>
    cases db with
    | none => simp [hE] at h
    | some database =>
      simp only [hE] at h
      by_cases hx : database.Type_ = W.DatabaseExternal ∧ database.ExternalConfig = none
      · simp only [hx, and_self, if_true, Option.some.injEq] at h
        exact h.symm
      · simp only [hx, if_false] at h
        cases hD : ec.Database with
        | none => simp [hD] at h
        | some d =>
          simp only [hD] at h
          split at h <;> simp at h

/-- An iteration that returns the duplicate-name error returns the empty list. -/
theorem deploymentStep_dup_servers (W : World) (cr : KieApp) (product appName : String)
    (sr d : Int) (i : Nat) (s s' : KieServerSet) (st st' : LoopState) (n : String)
    (h : deploymentStep W cr product appName sr d i s st =
      (s', st', some (ConfigError.duplicateName n))) : st'.servers = [] := by
  unfold deploymentStep at h
  simp only [] at h
  split at h
  · simp only [Prod.mk.injEq] at h
    obtain ⟨-, rfl, -⟩ := h
    rfl
  · split at h
    · simp at h
    · split at h
      · rename_i db err hdb
        simp only [Prod.mk.injEq] at h
        obtain ⟨-, -, herr⟩ := h
        have := getDatabaseConfig_err W _ _ err (by rw [hdb])
        rw [this] at herr
        simp at herr
      · simp at h

/-- A deployment loop that returns the duplicate-name error returns the empty list. -/
theorem deploymentsLoop_dup_servers (W : World) (cr : KieApp) (product appName : String)
    (sr d : Int) (n : String) : ∀ (fuel i : Nat) (s s' : KieServerSet) (st st' : LoopState),
    deploymentsLoop W cr product appName sr d fuel i s st =
      (s', st', some (ConfigError.duplicateName n)) → st'.servers = [] := by
  intro fuel
  induction fuel with
  | zero => intro i s s' st st' h; simp [deploymentsLoop] at h
  | succ fuel ih =>
    intro i s s' st st' h
    unfold deploymentsLoop at h
    cases hstep : deploymentStep W cr product appName sr d i s st with
    | mk s1 r =>
      obtain ⟨st1, e⟩ := r
      rw [hstep] at h
      cases e with
      | some err =>
        simp only [Prod.mk.injEq, Option.some.injEq] at h
        obtain ⟨rfl, rfl, rfl⟩ := h
        exact deploymentStep_dup_servers W cr product appName sr d i s _ st _ n hstep
      | none => exact ih (i + 1) s1 s' st1 st' h

/-- A loop over the sets that returns the duplicate-name error returns the empty list. -/
theorem serverSetsLoop_dup_servers (W : World) (cr : KieApp) (product appName : String)
    (sr : Int) (sliceLen : Nat) (n : String) :
    ∀ (sets sets' : List KieServerSet) (st st' : LoopState),
    serverSetsLoop W cr product appName sr sliceLen sets st =
      (sets', st', some (ConfigError.duplicateName n)) → st'.servers = [] := by
  intro sets
  induction sets with
  | nil => intro sets' st st' h; simp [serverSetsLoop] at h
  | cons s rest ih =>
    intro sets' st st' h
    unfold serverSetsLoop at h
    cases hstep : serverSetStep W cr product appName sr sliceLen s st with
    | mk s1 r =>
      obtain ⟨st1, e⟩ := r
      rw [hstep] at h
      cases e with
      | some err =>
        simp only [Prod.mk.injEq, Option.some.injEq] at h
        obtain ⟨-, rfl, rfl⟩ := h
        unfold serverSetStep at hstep
        exact deploymentsLoop_dup_servers W cr product appName sr _ n _ _ _ _ _ _ hstep
      | none =>
        simp only [] at h
        cases hrest : serverSetsLoop W cr product appName sr sliceLen rest st1 with
        | mk rest1 r2 =>
          obtain ⟨st2, e2⟩ := r2
          rw [hrest] at h
          simp only [Prod.mk.injEq] at h
          obtain ⟨-, rfl, rfl⟩ := h
          exact ih rest1 st1 st2 hrest

/-- Sorting the blanks to the end keeps the same sets. -/
theorem mem_serverSortBlanks (l : List KieServerSet) (s : KieServerSet) :
    s ∈ serverSortBlanks l ↔ s ∈ l := by
  unfold serverSortBlanks
  simp only []
  split
  · rfl
  · simp only [List.mem_append, List.mem_filter, decide_eq_true_eq]
    constructor
    · rintro (h | h) <;> exact h.1
    · intro h
      by_cases hn : s.Name = ""
      · exact Or.inr ⟨h, hn⟩
      · exact Or.inl ⟨h, hn⟩

/-- The iterated slice is the sorted list of declared sets. -/
theorem effectiveServers_eq (cr : KieApp) :
    effectiveServers cr = serverSortBlanks (declaredServers cr) := by
  unfold effectiveServers declaredServers
  by_cases h : cr.Spec.Objects.Servers = []
  · simp [h]
  · have : cr.Spec.Objects.Servers.length ≠ 0 := by
      simpa [List.length_eq_zero] using h
    simp [h, this]

/-- C4: if some declared server set has a build and requests two or more
deployments, `getServersConfig` returns a non-nil error, whatever the other
sets and fields are. -/
theorem getServersConfig_build_deployments (W : World) (cr : KieApp) (calls : Nat)
    (s : KieServerSet) (d : Int) (hMem : s ∈ declaredServers cr)
    (hBuild : s.Build ≠ none) (hDep : s.Deployments = some d) (hd : 2 ≤ d) :
    (getServersConfig W cr calls).err ≠ none := by
  intro h
  unfold getServersConfig at h
  simp only [] at h
  generalize hout : serverSetsLoop W _ _ _ _ _ _ _ = out at h
  obtain ⟨sets', st', e⟩ := out
  simp only [] at h
  subst h
  obtain ⟨hb, -⟩ := serverSetsLoop_ok_inv W _ _ _ _ _ _ _ _ _ hout
  have hs : s ∈ effectiveServers cr := by
    rw [effectiveServers_eq, mem_serverSortBlanks]; exact hMem
  have := hb s hs (by cases hB : s.Build with
    | none => exact absurd hB hBuild
    | some b => rfl)
  rw [hDep] at this
  simp only [Option.getD_some] at this
  omega

/-- C4 at a concrete input: a set with a build and two deployments, declared
after an ordinary set. -/
theorem getServersConfig_build_deployments_witness :
    (getServersConfig exampleWorld
      { Spec := { Objects := { Servers :=
          [{ Name := "a" }, { Name := "b", Build := some {}, Deployments := some 2 }] } } }
      0).err ≠ none :=
  getServersConfig_build_deployments exampleWorld
    { Spec := { Objects := { Servers :=
        [{ Name := "a" }, { Name := "b", Build := some {}, Deployments := some 2 }] } } }
    0 { Name := "b", Build := some {}, Deployments := some 2 } 2 (by decide) (by decide) rfl
    (by decide)

/-! ## Names of the expanded instances -/

theorem string_append_left_cancel {a b c : String} (h : a ++ b = a ++ c) : b = c := by
  have := congrArg String.data h
  simp only [String.data_append] at this
  exact String.ext (List.append_cancel_left this)

/-- `%d` output contains no dash. -/
theorem fmtD_no_dash (n : Nat) : '-' ∉ (fmtD n).data := toDigits_no_dash n

/-- `%d` output is never empty. -/
theorem fmtD_ne_empty (n : Nat) : fmtD n ≠ "" := by
  intro h
  have := congrArg String.data h
  exact toDigits_ne_nil n this

/-- Two dash-free texts, each followed by nothing or by a dash and more, are
equal as wholes only when equal part by part. -/
theorem dash_split : ∀ (a a' s s' : List Char), '-' ∉ a → '-' ∉ a' →
    (s = [] ∨ ∃ r, s = '-' :: r) → (s' = [] ∨ ∃ r, s' = '-' :: r) →
    a ++ s = a' ++ s' → a = a' ∧ s = s' := by
  intro a
  induction a with
  | nil =>
    intro a' s s' _ ha' hs hs' h
    cases a' with
    | nil => exact ⟨rfl, by simpa using h⟩
    | cons c r =>
      exfalso
      rcases hs with rfl | ⟨t, rfl⟩
      · simp at h
      · simp only [List.nil_append, List.cons_append, List.cons.injEq] at h
        exact ha' (by simp [← h.1])
  | cons c r ih =>
    intro a' s s' ha ha' hs hs' h
    cases a' with
    | nil =>
      exfalso
      rcases hs' with rfl | ⟨t, rfl⟩
      · simp at h
      · simp only [List.nil_append, List.cons_append, List.cons.injEq] at h
        exact ha (by simp [h.1])
    | cons c' r' =>
      simp only [List.cons_append, List.cons.injEq] at h
      have := ih r' s s' (fun hm => ha (List.mem_cons_of_mem _ hm))
        (fun hm => ha' (List.mem_cons_of_mem _ hm)) hs hs' h.2
      exact ⟨by rw [h.1, this.1], this.2⟩

/-- `getKieSetIndex` is injective in both indices. -/
theorem getKieSetIndex_inj {a k a' k' : Nat}
    (h : getKieSetIndex a k = getKieSetIndex a' k') : a = a' ∧ k = k' := by
  unfold getKieSetIndex at h
  have hd := congrArg String.data h
  simp only [String.data_append] at hd
  have hidx : ∀ x : Nat, '-' ∉ (if x > 0 then fmtD (x + 1) else "").data := by
    intro x
    split
    · exact fmtD_no_dash _
    · simp
  have hsuf : ∀ x : Nat, (if x > 0 then "-" ++ fmtD (x + 1) else "").data = [] ∨
      ∃ r, (if x > 0 then "-" ++ fmtD (x + 1) else "").data = '-' :: r := by
    intro x
    split
    · exact Or.inr ⟨(fmtD (x + 1)).data, rfl⟩
    · exact Or.inl rfl
  obtain ⟨h1, h2⟩ := dash_split _ _ _ _ (hidx a) (hidx a') (hsuf k) (hsuf k') hd
  constructor
  · by_cases ha : a > 0 <;> by_cases ha' : a' > 0
    · simp only [ha, ha', if_true] at h1
      have := fmtD_inj (String.ext h1)
      omega
    · simp only [ha, ha', if_true, if_false] at h1
      exact absurd (String.ext h1) (fmtD_ne_empty _)
    · simp only [ha, ha', if_true, if_false] at h1
      exact absurd (String.ext h1).symm (fmtD_ne_empty _)
    · omega
  · by_cases hk : k > 0 <;> by_cases hk' : k' > 0
    · simp only [hk, hk', if_true, String.data_append] at h2
      have := fmtD_inj (String.ext (List.append_cancel_left h2))
      omega
    · simp only [hk, hk', if_true, if_false, String.data_append] at h2
      simp at h2
    · simp only [hk, hk', if_true, if_false, String.data_append] at h2
      simp at h2
    · omega

/-- The index of a deployment of a named-after-probe set is the set index
followed by the deployment suffix. -/
theorem getKieSetIndex_append (p k : Nat) :
    getKieSetIndex p 0 ++ getKieSetIndex 0 k = getKieSetIndex p k := by
  simp [getKieSetIndex]

/-- The deployment name for an empty set name. -/
theorem getKieDeploymentName_unnamed (app : String) (a k : Nat) :
    getKieDeploymentName app "" a k = app ++ "-kieserver" ++ getKieSetIndex a k := by
  simp [getKieDeploymentName]

/-- The deployment name for a non-empty set name. -/
theorem getKieDeploymentName_named (app n : String) (a k : Nat) (h : n ≠ "") :
    getKieDeploymentName app n a k = n ++ getKieSetIndex 0 k := by
  simp [getKieDeploymentName, h]

/-- A synthesized set name is never empty. -/
theorem kieserver_name_ne_empty (app sfx : String) : app ++ "-kieserver" ++ sfx ≠ "" := by
  intro h
  have := congrArg String.length h
  simp only [String.length_append] at this
  have h10 : "-kieserver".length = 10 := by decide
  have h0 : "".length = 0 := by decide
  omega


/-- The deployment loop of a plain set whose names are fresh and pairwise
distinct runs to completion without error. -/
theorem deploymentsLoop_plain (W : World) (cr : KieApp) (product appName : String)
    (sr d : Int) : ∀ (fuel i : Nat) (s : KieServerSet) (st : LoopState), Plain s →
    (∀ k, k < fuel → getKieDeploymentName appName s.Name st.unsetNames (i + k) ∉ st.usedNames) →
    (∀ k1 k2, k1 < fuel → k2 < fuel →
      getKieDeploymentName appName s.Name st.unsetNames (i + k1) =
        getKieDeploymentName appName s.Name st.unsetNames (i + k2) → k1 = k2) →
    ∃ s' st', deploymentsLoop W cr product appName sr d fuel i s st = (s', st', none) ∧
      Plain s' := by
  intro fuel
  induction fuel with
  | zero => intro i s st hP _ _; exact ⟨s, st, rfl, hP⟩
  | succ fuel ih =>
    intro i s st hP hFresh hInj
    obtain ⟨s1, st1, hstep, hP1⟩ := deploymentStep_plain W cr product appName sr d i s st hP
      (by simpa using hFresh 0 (Nat.succ_pos _))
    obtain ⟨-, hused, hunset, -, hname, -, -, -⟩ :=
      deploymentStep_ok_inv W cr product appName sr d i s s1 st st1 hstep
    have hshift : ∀ k, i + 1 + k = i + (k + 1) := fun k => by omega
    obtain ⟨s', st', hloop, hP'⟩ := ih (i + 1) s1 st1 hP1
      (by
        intro k hk
        rw [hname, hunset, hused, hshift]
        intro hmem
        rcases List.mem_cons.1 hmem with heq | hmem
        · have := hInj (k + 1) 0 (by omega) (by omega) (by simpa using heq)
          omega
        · exact hFresh (k + 1) (by omega) hmem)
      (by
        intro k1 k2 hk1 hk2 heq
        rw [hname, hunset, hshift, hshift] at heq
        have := hInj (k1 + 1) (k2 + 1) (by omega) (by omega) heq
        omega)
    refine ⟨s', st', ?_, hP'⟩
    unfold deploymentsLoop
    rw [hstep]
    exact hloop

/-- Sorting a one-element list changes nothing. -/
theorem serverSortBlanks_singleton (s : KieServerSet) : serverSortBlanks [s] = [s] := by
  unfold serverSortBlanks
  by_cases h : s.Name = "" <;> simp [h]

/-- C2: when the declared server list is a single set with a non-empty name
`n`, no build, no database and no JMS override and `d` deployments,
`getServersConfig` succeeds and returns exactly `d` templates whose names are,
in order, `n`, `n-2`, ..., `n-d`, whatever the application name is. -/
theorem getServersConfig_single_named_set (W : World) (cr : KieApp) (calls : Nat)
    (s : KieServerSet) (d : Nat) (hDecl : declaredServers cr = [s])
    (hName : s.Name ≠ "") (hPlain : Plain s)
    (hDep : s.Deployments = some (d : Int)) :
    (getServersConfig W cr calls).err = none ∧
      (getServersConfig W cr calls).servers.length = d ∧
      kieNames (getServersConfig W cr calls).servers =
        (List.range d).map
          (fun k => if k = 0 then s.Name else s.Name ++ "-" ++ toString (k + 1)) := by
  have hEff : effectiveServers cr = [s] := by
    rw [effectiveServers_eq, hDecl, serverSortBlanks_singleton]
  have hnm : ∀ (u k : Nat), getKieDeploymentName (effectiveAppName cr) s.Name u k =
      s.Name ++ getKieSetIndex 0 k := fun u k => getKieDeploymentName_named _ _ u k hName
  obtain ⟨s', st', hloop, -⟩ := deploymentsLoop_plain W
    (if (decide (cr.Spec.Objects.Servers.length ≠ 0)) = true then
      setSpecServers (setStatusServers cr []) [s] else setStatusServers cr [s])
    (GetProduct W cr.Spec.Environment) (effectiveAppName cr)
    (match W.EnvironmentConstants cr.Spec.Environment with
      | some envConstants => envConstants.ServerReplicas.Replicas
      | none => 1) (d : Int) d 0
    { s with Deployments := some (d : Int) } { calls := calls }
    ⟨hPlain.1, hPlain.2.1, hPlain.2.2⟩
    (by intro k _; simp)
    (by
      intro k1 k2 _ _ h
      simp only [hnm, Nat.zero_add] at h
      exact (getKieSetIndex_inj (string_append_left_cancel h)).2)
  obtain ⟨-, -, -, -, -, ts, hserv, hnames, -, -, -⟩ :=
    deploymentsLoop_ok_inv W _ _ _ _ _ _ _ _ _ _ _ hloop
  have hres : (getServersConfig W cr calls).servers = st'.servers ∧
      (getServersConfig W cr calls).err = none := by
    unfold getServersConfig
    simp only [hEff, List.length_singleton]
    unfold serverSetsLoop serverSetStep
    simp only [hDep, Option.getD_some, hName, if_false, Int.toNat_ofNat, hloop, serverSetsLoop,
      and_self]
  rw [hres.1, hres.2, hserv]
  simp only [List.nil_append]
  have hlen : ts.length = d := by
    have := congrArg List.length hnames
    simpa [kieNames] using this
  refine ⟨trivial, hlen, ?_⟩
  rw [hnames]
  apply List.map_congr_left
  intro k _
  simp only [hnm, Nat.zero_add]
  by_cases hk : k = 0
  · simp [hk, getKieSetIndex]
  · have : k > 0 := by omega
    simp [hk, this, getKieSetIndex, fmtD, String.append_assoc]

/-- The probe stops at its first candidate when that one is free. -/
theorem probeSetName_first (appName : String) (usedNames : List String) (fuel : Nat)
    (s : KieServerSet) (u : Nat)
    (h : getKieSetName appName s.Name u ∉ usedNames) :
    probeSetName appName usedNames (fuel + 1) s u =
      ({ s with Name := getKieSetName appName s.Name u }, u) := by
  unfold probeSetName
  simp [h]

/-- The probe stops at its second candidate when the first is used and the
second is free. -/
theorem probeSetName_second (appName : String) (usedNames : List String) (fuel : Nat)
    (s : KieServerSet) (u : Nat)
    (h1 : getKieSetName appName s.Name u ∈ usedNames)
    (h2 : getKieSetName appName s.Name (u + 1) ∉ usedNames) :
    probeSetName appName usedNames (fuel + 2) s u =
      ({ s with Name := getKieSetName appName s.Name (u + 1) }, u + 1) := by
  unfold probeSetName
  simp only [h1, if_true]
  exact probeSetName_first appName usedNames fuel s (u + 1) h2

/-- The specification's name pattern is `getKieSetIndex` after `-kieserver`. -/
theorem specName_eq (app : String) (j k : Nat) :
    app ++ "-kieserver" ++ (if j = 0 then "" else toString (j + 1)) ++
        (if k = 0 then "" else "-" ++ toString (k + 1)) =
      app ++ "-kieserver" ++ getKieSetIndex j k := by
  unfold getKieSetIndex fmtD
  by_cases hj : j = 0 <;> by_cases hk : k = 0 <;>
    simp [hj, hk, Nat.pos_of_ne_zero, String.append_assoc]

/-- Visiting the unnamed plain set number `p` (from 0) when the names used so far
are those of the sets before it: the probe counter becomes `p`, the set gets
the base name of index `p` and its deployments are appended under their names. -/
theorem serverSetStep_unnamed (W : World) (cr : KieApp) (product app : String)
    (sr : Int) (sliceLen : Nat) (s : KieServerSet) (st : LoopState) (p : Nat) (d : Int)
    (hName : s.Name = "") (hPlain : Plain s) (hDep : s.Deployments = some d) (hd : 1 ≤ d)
    (hLen : p + 1 ≤ sliceLen) (hUnset : st.unsetNames = p - 1)
    (hBase : 1 ≤ p → app ++ "-kieserver" ++ getKieSetIndex (p - 1) 0 ∈ st.usedNames)
    (hUsed : ∀ x ∈ st.usedNames, ∃ a k, a < p ∧ x = app ++ "-kieserver" ++ getKieSetIndex a k) :
    ∃ s' st', serverSetStep W cr product app sr sliceLen s st = (s', st', none) ∧
      st'.unsetNames = p ∧
      app ++ "-kieserver" ++ getKieSetIndex p 0 ∈ st'.usedNames ∧
      (∀ x ∈ st'.usedNames, ∃ a k, a < p + 1 ∧ x = app ++ "-kieserver" ++ getKieSetIndex a k) ∧
      kieNames st'.servers = kieNames st.servers ++
        (List.range d.toNat).map (fun k => app ++ "-kieserver" ++ getKieSetIndex p k) := by
  have hfreshP : ∀ k, app ++ "-kieserver" ++ getKieSetIndex p k ∉ st.usedNames := by
    intro k hmem
    obtain ⟨a, k', ha, heq⟩ := hUsed _ hmem
    have := (getKieSetIndex_inj (string_append_left_cancel heq)).1
    omega
  have hprobe : (if ({ s with Deployments := some d } : KieServerSet).Name = "" then
        probeSetName app st.usedNames sliceLen { s with Deployments := some d } st.unsetNames
      else ({ s with Deployments := some d }, st.unsetNames)) =
      ({ s with Deployments := some d, Name := app ++ "-kieserver" ++ getKieSetIndex p 0 },
        p) := by
    simp only [hName, if_true]
    by_cases hp : p = 0
    · subst hp
      obtain ⟨f, rfl⟩ : ∃ f, sliceLen = f + 1 := ⟨sliceLen - 1, by omega⟩
      rw [hUnset, probeSetName_first]
      · simp [getKieSetName, getKieDeploymentName_unnamed, hName]
      · simp only [hName, getKieSetName, getKieDeploymentName_unnamed]
        exact hfreshP 0
    · obtain ⟨f, rfl⟩ : ∃ f, sliceLen = f + 2 := ⟨sliceLen - 2, by omega⟩
      have e : p - 1 + 1 = p := by omega
      rw [hUnset, probeSetName_second]
      · simp [getKieSetName, getKieDeploymentName_unnamed, hName, e]
      · simp only [hName, getKieSetName, getKieDeploymentName_unnamed]
        exact hBase (by omega)
      · simp only [hName, getKieSetName, getKieDeploymentName_unnamed, e]
        exact hfreshP 0
  have hnm : ∀ k, getKieDeploymentName app (app ++ "-kieserver" ++ getKieSetIndex p 0) p k =
      app ++ "-kieserver" ++ getKieSetIndex p k := by
    intro k
    rw [getKieDeploymentName_named _ _ _ _ (kieserver_name_ne_empty _ _), String.append_assoc,
      String.append_assoc, getKieSetIndex_append, ← String.append_assoc]
  obtain ⟨s', st', hloop, -⟩ := deploymentsLoop_plain W cr product app sr d d.toNat 0
    { s with Deployments := some d, Name := app ++ "-kieserver" ++ getKieSetIndex p 0 }
    { st with unsetNames := p } ⟨hPlain.1, hPlain.2.1, hPlain.2.2⟩
    (by intro k _; simp only [hnm, Nat.zero_add]; exact hfreshP k)
    (by
      intro k1 k2 _ _ h
      simp only [hnm, Nat.zero_add] at h
      exact (getKieSetIndex_inj (string_append_left_cancel h)).2)
  obtain ⟨hunset', -, -, -, -, ts, hserv, hnames, hused', -, -⟩ :=
    deploymentsLoop_ok_inv W _ _ _ _ _ _ _ _ _ _ _ hloop
  simp only [hnm, Nat.zero_add] at hnames
  refine ⟨s', st', ?_, hunset', ?_, ?_, ?_⟩
  · unfold serverSetStep
    simp only [hDep, Option.getD_some]
    rw [hprobe]
    exact hloop
  · rw [hused', hnames]
    apply List.mem_append_left
    rw [List.mem_reverse, List.mem_map]
    exact ⟨0, List.mem_range.2 (by omega), rfl⟩
  · intro x hx
    rw [hused', hnames] at hx
    rcases List.mem_append.1 hx with hx | hx
    · rw [List.mem_reverse, List.mem_map] at hx
      obtain ⟨k, -, rfl⟩ := hx
      exact ⟨p, k, by omega, rfl⟩
    · obtain ⟨a, k, ha, rfl⟩ := hUsed x hx
      exact ⟨a, k, by omega, rfl⟩
  · rw [hserv]
    simp only [kieNames, List.map_append] at hnames ⊢
    rw [hnames]

/-- The loop over unnamed plain sets, started at set number `p`. -/
theorem serverSetsLoop_unnamed (W : World) (cr : KieApp) (product app : String)
    (sr : Int) (sliceLen : Nat) : ∀ (sets : List KieServerSet) (p : Nat) (st : LoopState),
    (∀ s ∈ sets, s.Name = "" ∧ Plain s ∧ ∃ d : Int, 1 ≤ d ∧ s.Deployments = some d) →
    p + sets.length ≤ sliceLen → st.unsetNames = p - 1 →
    (1 ≤ p → app ++ "-kieserver" ++ getKieSetIndex (p - 1) 0 ∈ st.usedNames) →
    (∀ x ∈ st.usedNames, ∃ a k, a < p ∧ x = app ++ "-kieserver" ++ getKieSetIndex a k) →
    ∃ sets' st', serverSetsLoop W cr product app sr sliceLen sets st = (sets', st', none) ∧
      kieNames st'.servers = kieNames st.servers ++ unnamedSetNames app p sets := by
  intro sets
  induction sets with
  | nil =>
    intro p st _ _ _ _ _
    exact ⟨[], st, rfl, by simp [unnamedSetNames]⟩
  | cons s rest ih =>
    intro p st hAll hLen hUnset hBase hUsed
    obtain ⟨hName, hPlain, d, hd, hDep⟩ := hAll s (List.mem_cons_self _ _)
    simp only [List.length_cons] at hLen
    obtain ⟨s1, st1, hstep, hunset1, hbase1, hused1, hnames1⟩ :=
      serverSetStep_unnamed W cr product app sr sliceLen s st p d hName hPlain hDep hd
        (by omega) hUnset hBase hUsed
    obtain ⟨rest1, st2, hrest, hnames2⟩ := ih (p + 1) st1
      (fun x hx => hAll x (List.mem_cons_of_mem _ hx)) (by omega) (by simpa using hunset1)
      (fun _ => by simpa using hbase1) hused1
    refine ⟨s1 :: rest1, st2, ?_, ?_⟩
    · unfold serverSetsLoop
      rw [hstep]
      simp only [hrest]
    · rw [hnames2, hnames1, List.append_assoc]
      congr 1
      simp only [unnamedSetNames, List.enumFrom_cons, List.flatMap_cons, hDep,
        Option.getD_some, specName_eq]

/-- Sorting a list of unnamed sets changes nothing. -/
theorem serverSortBlanks_unnamed (sets : List KieServerSet)
    (h : ∀ s ∈ sets, s.Name = "") : serverSortBlanks sets = sets := by
  unfold serverSortBlanks
  have h1 : sets.filter (fun s => decide (s.Name ≠ "")) = [] := by
    rw [List.filter_eq_nil_iff]
    intro s hs
    simp [h s hs]
  have h2 : sets.filter (fun s => decide (s.Name = "")) = sets := by
    rw [List.filter_eq_self]
    intro s hs
    simp [h s hs]
  simp [h1, h2]

/-- C2 at the input of the specification: the set `foo` with 3 deployments
gives `foo`, `foo-2`, `foo-3`. -/
theorem getServersConfig_single_named_set_witness :
    (getServersConfig exampleWorld
        { Name := "app", Spec := { Objects := { Servers :=
          [{ Name := "foo", Deployments := some 3 }] } } } 0).err = none ∧
      kieNames (getServersConfig exampleWorld
        { Name := "app", Spec := { Objects := { Servers :=
          [{ Name := "foo", Deployments := some 3 }] } } } 0).servers =
        ["foo", "foo-2", "foo-3"] :=
  have h := getServersConfig_single_named_set exampleWorld
    { Name := "app", Spec := { Objects := { Servers :=
      [{ Name := "foo", Deployments := some 3 }] } } } 0
    { Name := "foo", Deployments := some 3 } 3 rfl (by decide) ⟨rfl, rfl, rfl⟩ rfl
  ⟨h.1, h.2.2.trans (by decide)⟩

/-- C3: when every declared server set is unnamed, has no build, no database and
no JMS override and at least one deployment, `getServersConfig` succeeds and
names deployment `k` of the `j`-th set `<app>-kieserver<idx><suffix>`, in
order, where `app` is the effective application name, `idx` is empty for the
first set and the decimal position for the later ones, and `suffix` is empty
for the first deployment and `-<k+1>` otherwise. -/
theorem getServersConfig_unnamed_sets (W : World) (cr : KieApp) (calls : Nat)
    (hAll : ∀ s ∈ declaredServers cr,
      s.Name = "" ∧ Plain s ∧ ∃ d : Int, 1 ≤ d ∧ s.Deployments = some d) :
    (getServersConfig W cr calls).err = none ∧
      kieNames (getServersConfig W cr calls).servers =
        unnamedSetNames (effectiveAppName cr) 0 (declaredServers cr) := by
  have hEff : effectiveServers cr = declaredServers cr := by
    rw [effectiveServers_eq, serverSortBlanks_unnamed _ (fun s hs => (hAll s hs).1)]
  obtain ⟨sets', st', hloop, hnames⟩ := serverSetsLoop_unnamed W
    (if (decide (cr.Spec.Objects.Servers.length ≠ 0)) = true then
      setSpecServers (setStatusServers cr []) (declaredServers cr)
      else setStatusServers cr (declaredServers cr))
    (GetProduct W cr.Spec.Environment) (effectiveAppName cr)
    (match W.EnvironmentConstants cr.Spec.Environment with
      | some envConstants => envConstants.ServerReplicas.Replicas
      | none => 1) (declaredServers cr).length (declaredServers cr) 0 { calls := calls }
    hAll (by omega) rfl (fun h => absurd h (by decide)) (by simp)
  unfold getServersConfig
  simp only [hEff, hloop]
  simpa [kieNames] using hnames

/-- C3 at the input of the specification: one unnamed set with 2 deployments
gives `app-kieserver` and `app-kieserver-2`; a second unnamed set continues
with `app-kieserver2`. -/
theorem getServersConfig_unnamed_sets_witness :
    kieNames (getServersConfig exampleWorld
        exampleUnnamedSpec 0).servers =
        ["app-kieserver", "app-kieserver-2"] ∧
      kieNames (getServersConfig exampleWorld
        exampleUnnamedStatus 0).servers =
        ["app-kieserver", "app-kieserver-2", "app-kieserver2"] :=
  ⟨(getServersConfig_unnamed_sets exampleWorld
      exampleUnnamedSpec 0
      (by
        intro s hs
        have e : declaredServers exampleUnnamedSpec = [{ Deployments := some 2 }] := rfl
        rw [e, List.mem_singleton] at hs
        subst hs
        exact ⟨rfl, ⟨rfl, rfl, rfl⟩, 2, by decide, rfl⟩)).2.trans (by decide),
   (getServersConfig_unnamed_sets exampleWorld
      exampleUnnamedStatus 0
      (by
        intro s hs
        have e : declaredServers exampleUnnamedStatus =
            [{ Deployments := some 2 }, { Deployments := some 1 }] := rfl
        rw [e, List.mem_cons, List.mem_singleton] at hs
        rcases hs with rfl | rfl
        · exact ⟨rfl, ⟨rfl, rfl, rfl⟩, 2, by decide, rfl⟩
        · exact ⟨rfl, ⟨rfl, rfl, rfl⟩, 1, by decide, rfl⟩)).2.trans (by decide)⟩

/-! ## External database without configuration -/

/-- C11 fails as stated: for an environment without constants (an unknown
profile) `getDatabaseConfig` returns `(nil, nil)` for an external database
without external configuration: no error. -/
theorem getDatabaseConfig_unknown_env_no_error :
    exampleWorld.EnvironmentConstants "no-such-env" = none ∧
      getDatabaseConfig exampleWorld "no-such-env"
        (some { Type_ := exampleWorld.DatabaseExternal, ExternalConfig := none }) =
        (none, none) :=
  ⟨rfl, by decide⟩

/-- C11, amended: for every environment that has constants (a known profile) and
every database object whose type is external and whose external configuration
is `nil`, `getDatabaseConfig` returns the external-database error and no
database configuration; for an environment without constants it returns
`(nil, nil)`. -/
theorem getDatabaseConfig_external_without_config (W : World) (environment : String)
    (database : DatabaseObject) (hType : database.Type_ = W.DatabaseExternal)
    (hConfig : database.ExternalConfig = none) :
    (∀ envConstants, W.EnvironmentConstants environment = some envConstants →
        getDatabaseConfig W environment (some database) =
          (none, some ConfigError.externalDatabase)) ∧
      (W.EnvironmentConstants environment = none →
        getDatabaseConfig W environment (some database) = (none, none)) := by
  constructor
  · intro envConstants hEnv
    simp [getDatabaseConfig, hEnv, hType, hConfig]
  · intro hEnv
    simp [getDatabaseConfig, hEnv]

/-- C11, amended, at a concrete input: the known profile `rhpam-trial`. -/
theorem getDatabaseConfig_external_without_config_witness :
    getDatabaseConfig exampleWorld "rhpam-trial" (some { Type_ := "external" }) =
      (none, some ConfigError.externalDatabase) :=
  (getDatabaseConfig_external_without_config exampleWorld "rhpam-trial"
    { Type_ := "external" } rfl rfl).1 _ rfl

/-! ## Matching component objects by name -/

/-- C12, the code at the failing input: the template's first workload is `a`,
the list holds an object without workloads followed by an object whose first
workload is `a`; the search stops at the first element and reports no match. -/
theorem findCustomObjectByName_stops_at_empty_object :
    findCustomObjectByName { DeploymentConfigs := [{ Name := "a" }] }
        [{}, { DeploymentConfigs := [{ Name := "a" }] }] = ({}, false) := by
  decide

/-! ## The migration-service fold -/

/-- C13, the code at the failing input: process migration is deployed with a
MySQL database, loading `dbs/pim/mysql.yaml` fails so `mergeProcessMigrationDB`
returns an error, and `mergeProcessMigration` returns the empty environment
with a `nil` error. -/
theorem mergeProcessMigration_swallows_db_error :
    deployProcessMigration exampleWorld exampleMigration = true ∧
      (mergeProcessMigrationDB exampleWorld exampleServices exampleMigration {}
        { ProcessMigration := { Database := { Type_ := "mysql" } } }).2 =
        some "dbs/pim/mysql.yaml does not exist" ∧
      mergeProcessMigration exampleWorld exampleServices exampleMigration {}
        { ProcessMigration := { Database := { Type_ := "mysql" } } } = ({}, none) := by
  refine ⟨by decide, by decide, by decide⟩

/-! ## Generated defaults -/

/-- The fields of the resource that `setPasswords` may change are the five
generated passwords. -/
theorem setPasswords_frame (W : World) (cr : KieApp) (isTrialEnv : Bool) (calls : Nat) :
    (setPasswords W cr isTrialEnv calls).1.Name = cr.Name ∧
      (setPasswords W cr isTrialEnv calls).1.Annotations = cr.Annotations ∧
      (setPasswords W cr isTrialEnv calls).1.Spec = cr.Spec ∧
      (setPasswords W cr isTrialEnv calls).1.Status.Generated.Version =
        cr.Status.Generated.Version ∧
      (setPasswords W cr isTrialEnv calls).1.Status.Generated.Objects =
        cr.Status.Generated.Objects ∧
      (setPasswords W cr isTrialEnv calls).1.Status.Generated.CommonConfig.ApplicationName =
        cr.Status.Generated.CommonConfig.ApplicationName ∧
      (setPasswords W cr isTrialEnv calls).1.Status.Generated.CommonConfig.AdminUser =
        cr.Status.Generated.CommonConfig.AdminUser :=
  ⟨rfl, rfl, rfl, rfl, rfl, rfl, rfl⟩

/-- C14: after `setDefaults`, every field that the spec sets is empty in the
generated status (version, application name, admin user, server sets, console
replicas and the five passwords), and the version, application name, admin
user and server-set list that the spec leaves unset hold the default
(`CurrentVersion`, the resource name, `DefaultAdminUser`, one set with
`DefaultKieDeployments` deployments). -/
theorem setDefaults_spec_fields_not_duplicated (W : World) (cr : KieApp) (calls : Nat) :
    let g := (setDefaults W cr calls).1.Status.Generated
    (cr.Spec.Version ≠ "" → g.Version = "") ∧
      (cr.Spec.CommonConfig.ApplicationName ≠ "" → g.CommonConfig.ApplicationName = "") ∧
      (cr.Spec.CommonConfig.AdminUser ≠ "" → g.CommonConfig.AdminUser = "") ∧
      (cr.Spec.Objects.Servers ≠ [] → g.Objects.Servers = []) ∧
      (cr.Spec.Objects.Console.Replicas ≠ none → g.Objects.Console.Replicas = none) ∧
      (cr.Spec.CommonConfig.KeyStorePassword ≠ "" → g.CommonConfig.KeyStorePassword = "") ∧
      (cr.Spec.CommonConfig.AdminPassword ≠ "" → g.CommonConfig.AdminPassword = "") ∧
      (cr.Spec.CommonConfig.DBPassword ≠ "" → g.CommonConfig.DBPassword = "") ∧
      (cr.Spec.CommonConfig.AMQPassword ≠ "" → g.CommonConfig.AMQPassword = "") ∧
      (cr.Spec.CommonConfig.AMQClusterPassword ≠ "" →
        g.CommonConfig.AMQClusterPassword = "") ∧
      (cr.Spec.Version = "" → g.Version = W.CurrentVersion) ∧
      (cr.Spec.CommonConfig.ApplicationName = "" →
        g.CommonConfig.ApplicationName = cr.Name) ∧
      (cr.Spec.CommonConfig.AdminUser = "" →
        g.CommonConfig.AdminUser = W.DefaultAdminUser) ∧
      (cr.Spec.Objects.Servers = [] →
        g.Objects.Servers = [{ Deployments := some W.DefaultKieDeployments }]) := by
  intro g
  refine ⟨?_, ?_, ?_, ?_, ?_, ?_, ?_, ?_, ?_, ?_, ?_, ?_, ?_, ?_⟩ <;> intro h <;>
    simp [g, setDefaults, setPasswords, h]

/-- C14 at a concrete input: the version, admin password and console replicas
set in the spec are emptied in the status, the unset application name and
server sets get their defaults. -/
theorem setDefaults_spec_fields_not_duplicated_witness :
    (setDefaults exampleWorld exampleDefaults 0).1.Status.Generated.Version = "" ∧
      (setDefaults exampleWorld exampleDefaults 0).1.Status.Generated.Objects.Console.Replicas
        = none ∧
      (setDefaults exampleWorld exampleDefaults 0).1.Status.Generated.CommonConfig.AdminPassword
        = "" ∧
      (setDefaults exampleWorld exampleDefaults 0).1.Status.Generated.CommonConfig.ApplicationName
        = "app" ∧
      (setDefaults exampleWorld exampleDefaults 0).1.Status.Generated.Objects.Servers =
        [{ Deployments := some 1 }] :=
  have h := setDefaults_spec_fields_not_duplicated exampleWorld exampleDefaults 0
  ⟨h.1 (by decide), h.2.2.2.2.1 (by decide), h.2.2.2.2.2.2.1 (by decide),
    h.2.2.2.2.2.2.2.2.2.2.2.1 rfl, h.2.2.2.2.2.2.2.2.2.2.2.2.2 rfl⟩

/-- C15 fails as stated: the stored application name `stored` of
`exampleDefaults` is not overridden by the spec, yet after `setDefaults` the
generated application name is the resource name `app`. -/
theorem setDefaults_replaces_stored_name :
    exampleDefaults.Spec.CommonConfig.ApplicationName = "" ∧
      exampleDefaults.Status.Generated.CommonConfig.ApplicationName = "stored" ∧
      (setDefaults exampleWorld exampleDefaults 0).1.Status.Generated.CommonConfig.ApplicationName
        = "app" := by
  refine ⟨by decide, by decide, by decide⟩

/-- C15, amended: the generated version, application name, admin user and
server-set list after `setDefaults` do not depend on what was stored in the
status: replacing the stored status by any other gives the same four fields.
What `setDefaults` leaves unchanged are the stored console replicas, when the
spec sets none. -/
theorem setDefaults_overwrites_stored (W : World) (cr : KieApp) (calls : Nat) :
    (∀ status : KieAppStatus,
      (setDefaults W { cr with Status := status } calls).1.Status.Generated.Version =
          (setDefaults W cr calls).1.Status.Generated.Version ∧
        (setDefaults W { cr with Status := status }
            calls).1.Status.Generated.CommonConfig.ApplicationName =
          (setDefaults W cr calls).1.Status.Generated.CommonConfig.ApplicationName ∧
        (setDefaults W { cr with Status := status }
            calls).1.Status.Generated.CommonConfig.AdminUser =
          (setDefaults W cr calls).1.Status.Generated.CommonConfig.AdminUser ∧
        (setDefaults W { cr with Status := status } calls).1.Status.Generated.Objects.Servers =
          (setDefaults W cr calls).1.Status.Generated.Objects.Servers) ∧
      (cr.Spec.Objects.Console.Replicas = none →
        (setDefaults W cr calls).1.Status.Generated.Objects.Console.Replicas =
          cr.Status.Generated.Objects.Console.Replicas) := by
  refine ⟨fun status => ⟨rfl, rfl, rfl, rfl⟩, ?_⟩
  intro h
  simp [setDefaults, setPasswords, h]

/-- C15, amended, at a concrete input: a resource whose spec sets no console
replicas keeps the stored ones. -/
theorem setDefaults_overwrites_stored_witness :
    (setDefaults exampleWorld
      exampleStoredReplicas
      0).1.Status.Generated.Objects.Console.Replicas = some 3 :=
  (setDefaults_overwrites_stored exampleWorld
    exampleStoredReplicas
    0).2 rfl

/-- C16: when the five generated passwords are empty, `setPasswords` with
`isTrialEnv = true` makes each of them the fixed `DefaultPassword` when the spec
does not supply it and leaves it empty when the spec does; the generator is
never called (the call counter is unchanged and the result is the same for
every generator); `setDefaults` does the same when the environment name ends
with the trial suffix. -/
theorem setPasswords_trial_default (W : World) (cr : KieApp) (calls : Nat)
    (hEmpty : passwords cr.Status.Generated.CommonConfig = ["", "", "", "", ""]) :
    passwords (setPasswords W cr true calls).1.Status.Generated.CommonConfig =
        (passwords cr.Spec.CommonConfig).map
          (fun supplied => if supplied = "" then W.DefaultPassword else "") ∧
      (setPasswords W cr true calls).2 = calls ∧
      (∀ generator : Nat → Nat → String,
        setPasswords { W with GeneratePassword := generator } cr true calls =
          setPasswords W cr true calls) ∧
      (stringsHasSuffix cr.Spec.Environment W.TrialEnvSuffix = true →
        passwords (setDefaults W cr calls).1.Status.Generated.CommonConfig =
          (passwords cr.Spec.CommonConfig).map
            (fun supplied => if supplied = "" then W.DefaultPassword else "")) := by
  simp only [passwords, List.cons.injEq, and_true] at hEmpty
  obtain ⟨h1, h2, h3, h4, h5⟩ := hEmpty
  refine ⟨?_, ?_, ?_, ?_⟩
  · simp only [passwords, setPasswords, fillPassword, h1, h2, h3, h4, h5, List.map]
    by_cases a1 : cr.Spec.CommonConfig.KeyStorePassword = "" <;>
    by_cases a2 : cr.Spec.CommonConfig.AdminPassword = "" <;>
    by_cases a3 : cr.Spec.CommonConfig.DBPassword = "" <;>
    by_cases a4 : cr.Spec.CommonConfig.AMQPassword = "" <;>
    by_cases a5 : cr.Spec.CommonConfig.AMQClusterPassword = "" <;>
    simp [a1, a2, a3, a4, a5]
  · simp [setPasswords, fillPassword, h1, h2, h3, h4, h5]
  · intro generator
    simp [setPasswords, fillPassword, h1, h2, h3, h4, h5]
  · intro hTrial
    simp only [passwords, setDefaults, hTrial, setPasswords, fillPassword, h1, h2, h3, h4, h5,
      List.map]
    by_cases a1 : cr.Spec.CommonConfig.KeyStorePassword = "" <;>
    by_cases a2 : cr.Spec.CommonConfig.AdminPassword = "" <;>
    by_cases a3 : cr.Spec.CommonConfig.DBPassword = "" <;>
    by_cases a4 : cr.Spec.CommonConfig.AMQPassword = "" <;>
    by_cases a5 : cr.Spec.CommonConfig.AMQClusterPassword = "" <;>
    simp [a1, a2, a3, a4, a5]

/-- C16 at a concrete input: a trial resource whose spec supplies only the admin
password. -/
theorem setPasswords_trial_default_witness :
    passwords (setPasswords exampleWorld
        { Spec := { Environment := "rhpam-trial", CommonConfig := { AdminPassword := "mine" } } }
        true 0).1.Status.Generated.CommonConfig =
      ["RedHat", "", "RedHat", "RedHat", "RedHat"] :=
  (setPasswords_trial_default exampleWorld
    { Spec := { Environment := "rhpam-trial", CommonConfig := { AdminPassword := "mine" } } }
    0 rfl).1.trans (by decide)

/-- A generated password of length 8 is not empty. -/
theorem generated_ne_empty (W : World) (hGen : ∀ c, (W.GeneratePassword c 8).length = 8)
    (c : Nat) : W.GeneratePassword c 8 ≠ "" := by
  intro h
  have := hGen c
  rw [h] at this
  exact absurd this (by decide)

/-- Filling a password that is already non-empty changes nothing. -/
theorem fillPassword_of_ne_empty (W : World) (t : Bool) (p : String) (c : Nat)
    (h : p ≠ "") : fillPassword W t p c = (p, c) := by
  simp [fillPassword, h]

/-- Filling twice gives the same password as filling once, when generated
passwords have the requested length. -/
theorem fillPassword_idem (W : World) (hGen : ∀ c, (W.GeneratePassword c 8).length = 8)
    (t : Bool) (p : String) (c c2 : Nat) :
    (fillPassword W t (fillPassword W t p c).1 c2).1 = (fillPassword W t p c).1 := by
  by_cases hp : p = ""
  · cases t
    · have := generated_ne_empty W hGen c
      simp [fillPassword, hp, this]
    · by_cases hd : W.DefaultPassword = "" <;> simp [fillPassword, hp, hd]
  · simp [fillPassword, hp]

/-- C17: `setPasswords` keeps every generated password that is non-empty and
whose spec counterpart is empty, for every trial flag and every generator;
and, when the spec supplies no password and generated passwords have the
requested length 8, applying `setPasswords` a second time (at any later state of
the generator) leaves the resource as the first application left it. -/
theorem setPasswords_reuses_generated (W : World) (cr : KieApp) (isTrialEnv : Bool)
    (calls : Nat) :
    let before := cr.Status.Generated.CommonConfig
    let after := (setPasswords W cr isTrialEnv calls).1.Status.Generated.CommonConfig
    (before.KeyStorePassword ≠ "" → cr.Spec.CommonConfig.KeyStorePassword = "" →
        after.KeyStorePassword = before.KeyStorePassword) ∧
      (before.AdminPassword ≠ "" → cr.Spec.CommonConfig.AdminPassword = "" →
        after.AdminPassword = before.AdminPassword) ∧
      (before.DBPassword ≠ "" → cr.Spec.CommonConfig.DBPassword = "" →
        after.DBPassword = before.DBPassword) ∧
      (before.AMQPassword ≠ "" → cr.Spec.CommonConfig.AMQPassword = "" →
        after.AMQPassword = before.AMQPassword) ∧
      (before.AMQClusterPassword ≠ "" → cr.Spec.CommonConfig.AMQClusterPassword = "" →
        after.AMQClusterPassword = before.AMQClusterPassword) ∧
      (passwords cr.Spec.CommonConfig = ["", "", "", "", ""] →
        (∀ c, (W.GeneratePassword c 8).length = 8) →
        ∀ calls2, (setPasswords W (setPasswords W cr isTrialEnv calls).1 isTrialEnv calls2).1 =
          (setPasswords W cr isTrialEnv calls).1) := by
  intro before after
  refine ⟨?_, ?_, ?_, ?_, ?_, ?_⟩
  · intro h1 h2; simp [after, before, setPasswords, fillPassword, h1, h2]
  · intro h1 h2; simp [after, before, setPasswords, fillPassword, h1, h2]
  · intro h1 h2; simp [after, before, setPasswords, fillPassword, h1, h2]
  · intro h1 h2; simp [after, before, setPasswords, fillPassword, h1, h2]
  · intro h1 h2; simp [after, before, setPasswords, fillPassword, h1, h2]
  · intro hSpec hGen calls2
    simp only [passwords, List.cons.injEq, and_true] at hSpec
    obtain ⟨s1, s2, s3, s4, s5⟩ := hSpec
    simp only [setPasswords, s1, s2, s3, s4, s5, ne_eq, not_true_eq_false, if_false,
      fillPassword_idem W hGen]

/-- C17 at a concrete input: the stored admin password `kept` survives, and a
second application at a later generator state changes nothing. -/
theorem setPasswords_reuses_generated_witness :
    (setPasswords exampleWorld exampleStoredPassword false
        0).1.Status.Generated.CommonConfig.AdminPassword = "kept" ∧
      (setPasswords exampleWorld (setPasswords exampleWorld exampleStoredPassword false 0).1
        false 7).1 = (setPasswords exampleWorld exampleStoredPassword false 0).1 :=
  have h := setPasswords_reuses_generated exampleWorld exampleStoredPassword false 0
  ⟨h.2.1 (by decide) rfl,
   h.2.2.2.2.2 rfl (fun c => by simp [exampleWorld, String.length]) 7⟩

/-! ## Sorting the unnamed sets to the end -/

/-- C18: `serverSortBlanks` returns the sets with a non-empty name in their
original order followed by the sets with an empty name in their original
order; the result is a permutation of the input of the same length, so the
length-mismatch fallback is never taken. -/
theorem serverSortBlanks_stable_partition (serverSets : List KieServerSet) :
    serverSortBlanks serverSets =
        serverSets.filter (fun s => s.Name ≠ "") ++ serverSets.filter (fun s => s.Name = "") ∧
      (serverSortBlanks serverSets).Perm serverSets ∧
      (serverSortBlanks serverSets).length = serverSets.length := by
  have hperm : (serverSets.filter (fun s => decide (s.Name ≠ "")) ++
      serverSets.filter (fun s => decide (s.Name = ""))).Perm serverSets := by
    have h := List.filter_append_perm (fun s : KieServerSet => decide (s.Name ≠ "")) serverSets
    have e : serverSets.filter (fun s => !decide (s.Name ≠ "")) =
        serverSets.filter (fun s => decide (s.Name = "")) := by
      apply List.filter_congr
      intro s _
      by_cases hs : s.Name = "" <;> simp [hs]
    rw [e] at h
    exact h
  have hlen := hperm.length_eq
  have hdef : serverSortBlanks serverSets =
      serverSets.filter (fun s => s.Name ≠ "") ++ serverSets.filter (fun s => s.Name = "") := by
    unfold serverSortBlanks
    simp only [hlen, ne_eq, not_true_eq_false, if_false]
  rw [hdef]
  exact ⟨rfl, hperm, hlen⟩

/-! ## The probe for the name of an unnamed set -/

/-- Decimal digits do not contain the letter `k`. -/
theorem toDigits_no_k : ∀ n, 'k' ∉ Nat.toDigits 10 n := by
  intro n
  induction n using Nat.strong_induction_on with
  | _ n ih =>
    have hd : ∀ a, a < 10 → Nat.digitChar a ≠ 'k' := by
      intro a ha
      interval_cases a <;> decide
    by_cases hn : n < 10
    · rw [toDigits_small n hn]
      simpa using (hd n hn).symm
    · rw [toDigits_step n (by omega)]
      have := ih (n / 10) (by omega)
      have h2 := hd (n % 10) (Nat.mod_lt _ (by decide))
      simp [this, h2.symm]

/-- Two texts cut at their last dash are equal only when equal part by part. -/
theorem last_dash_split (p p' s s' : List Char) (hs : '-' ∉ s) (hs' : '-' ∉ s')
    (h : p ++ '-' :: s = p' ++ '-' :: s') : p = p' ∧ s = s' := by
  have hr := congrArg List.reverse h
  simp only [List.reverse_append, List.reverse_cons, List.append_assoc,
    List.singleton_append] at hr
  obtain ⟨h1, h2⟩ := dash_split s.reverse s'.reverse ('-' :: p.reverse) ('-' :: p'.reverse)
    (by simpa using hs) (by simpa using hs') (Or.inr ⟨_, rfl⟩) (Or.inr ⟨_, rfl⟩) hr
  simp only [List.cons.injEq, true_and] at h2
  exact ⟨List.reverse_injective h2, List.reverse_injective h1⟩

/-- The index part of a set name has no dash. -/
theorem getKieSetIndex_zero_no_dash (u : Nat) : '-' ∉ (getKieSetIndex u 0).data := by
  unfold getKieSetIndex
  by_cases hu : u > 0
  · simp only [hu, if_true, Nat.lt_irrefl, if_false, String.append_empty]
    exact fmtD_no_dash _
  · simp [hu]

/-- A probe candidate is not of the form `<name>-<number>`. -/
theorem candidate_not_dashNumbered (app : String) (u : Nat) :
    ¬ DashNumbered (getKieSetName app "" u) := by
  rintro ⟨n, k, h⟩
  rw [getKieSetName, getKieDeploymentName_unnamed] at h
  have hd := congrArg String.data h
  simp only [String.data_append] at hd
  have hd2 : app.data ++ '-' :: (['k', 'i', 'e', 's', 'e', 'r', 'v', 'e', 'r'] ++
      (getKieSetIndex u 0).data) = n.data ++ '-' :: (fmtD k).data := by
    simpa using hd
  have hk : '-' ∉ ['k', 'i', 'e', 's', 'e', 'r', 'v', 'e', 'r'] ++
      (getKieSetIndex u 0).data := by
    intro hm
    rcases List.mem_append.1 hm with hm | hm
    · exact absurd hm (by decide)
    · exact getKieSetIndex_zero_no_dash u hm
  obtain ⟨-, h2⟩ := last_dash_split _ _ _ _ hk (fmtD_no_dash k) hd2
  have : 'k' ∈ (fmtD k).data := by
    rw [← h2]
    exact List.mem_append_left _ (by decide)
  exact toDigits_no_k k this

/-- Distinct probe counters give distinct candidates. -/
theorem candidate_inj (app : String) {u u' : Nat}
    (h : getKieSetName app "" u = getKieSetName app "" u') : u = u' := by
  rw [getKieSetName, getKieSetName, getKieDeploymentName_unnamed,
    getKieDeploymentName_unnamed] at h
  exact (getKieSetIndex_inj (string_append_left_cancel h)).1

/-- Every deployment name after the first of a set is of the form
`<name>-<number>`. -/
theorem deploymentName_dashNumbered (app setName : String) (u k : Nat) (hk : 0 < k) :
    DashNumbered (getKieDeploymentName app setName u k) := by
  by_cases hn : setName = ""
  · subst hn
    refine ⟨app ++ "-kieserver" ++ getKieSetIndex u 0, k + 1, ?_⟩
    rw [getKieDeploymentName_unnamed]
    simp [getKieSetIndex, hk, String.append_assoc]
  · refine ⟨setName, k + 1, ?_⟩
    rw [getKieDeploymentName_named _ _ _ _ hn]
    simp [getKieSetIndex, hk, String.append_assoc]

/-- Pigeonhole: when the used names that are not of the form `<name>-<number>`
are fewer than the candidates tried, one of the candidates is free. -/
theorem exists_free_candidate (app : String) (used : List String) (q n u : Nat)
    (hB : BasesBound used q) (hq : q < n) :
    ∃ k, k < n ∧ getKieSetName app "" (u + k) ∉ used := by
  by_contra hcon
  have hall : ∀ k, k < n → getKieSetName app "" (u + k) ∈ used := by
    intro k hk
    by_contra hnot
    exact hcon ⟨k, hk, hnot⟩
  obtain ⟨bases, hlen, hcover⟩ := hB
  have hnd : ((List.range n).map (fun k => getKieSetName app "" (u + k))).Nodup := by
    refine List.Nodup.map ?_ (List.nodup_range n)
    intro a b hab
    have := candidate_inj app hab
    omega
  have hsub : (List.range n).map (fun k => getKieSetName app "" (u + k)) ⊆ bases := by
    intro x hx
    obtain ⟨k, hk, rfl⟩ := List.mem_map.1 hx
    rcases hcover _ (hall k (List.mem_range.1 hk)) with hb | hd
    · exact hb
    · exact absurd hd (candidate_not_dashNumbered app (u + k))
  have := (List.subperm_of_subset hnd hsub).length_le
  simp only [List.length_map, List.length_range] at this
  omega

/-- The probe stops at the first free candidate, when there is one within its
bound. -/
theorem probeSetName_finds (app : String) (used : List String) :
    ∀ (fuel : Nat) (s : KieServerSet) (u : Nat), s.Name = "" →
    (∃ k, k < fuel ∧ getKieSetName app "" (u + k) ∉ used) →
    ∃ k, k < fuel ∧ getKieSetName app "" (u + k) ∉ used ∧
      probeSetName app used fuel s u =
        ({ s with Name := getKieSetName app "" (u + k) }, u + k) := by
  intro fuel
  induction fuel with
  | zero => intro s u _ h; obtain ⟨k, hk, _⟩ := h; omega
  | succ fuel ih =>
    intro s u hName h
    by_cases hfree : getKieSetName app "" u ∈ used
    · obtain ⟨k, hk, hk2⟩ := h
      have hk0 : k ≠ 0 := by
        rintro rfl
        exact hk2 (by simpa using hfree)
      obtain ⟨j, hj, hj2, hj3⟩ := ih s (u + 1) hName
        ⟨k - 1, by omega, by
          have e : u + 1 + (k - 1) = u + k := by omega
          rw [e]; exact hk2⟩
      refine ⟨j + 1, by omega, ?_, ?_⟩
      · have e : u + (j + 1) = u + 1 + j := by omega
        rw [e]; exact hj2
      · have e : u + (j + 1) = u + 1 + j := by omega
        unfold probeSetName
        simp only [hName, hfree, if_true]
        rw [e, hj3]
    · refine ⟨0, by omega, by simpa using hfree, ?_⟩
      unfold probeSetName
      simp only [hName, hfree, if_false, Nat.add_zero]

/-- A successful deployment loop started at index 0 adds at most one used name
that is not of the form `<name>-<number>`. -/
theorem deploymentsLoop_basesBound (W : World) (cr : KieApp) (product appName : String)
    (sr d : Int) (fuel : Nat) (s s' : KieServerSet) (st st' : LoopState) (q : Nat)
    (h : deploymentsLoop W cr product appName sr d fuel 0 s st = (s', st', none))
    (hB : BasesBound st.usedNames q) : BasesBound st'.usedNames (q + 1) := by
  obtain ⟨-, -, -, -, -, ts, -, hnames, hused, -, -⟩ :=
    deploymentsLoop_ok_inv W cr product appName sr d fuel 0 s s' st st' h
  obtain ⟨bases, hlen, hcover⟩ := hB
  refine ⟨getKieDeploymentName appName s.Name st.unsetNames 0 :: bases,
    by simpa using hlen, ?_⟩
  intro x hx
  rw [hused, hnames] at hx
  rcases List.mem_append.1 hx with hx | hx
  · rw [List.mem_reverse, List.mem_map] at hx
    obtain ⟨k, -, rfl⟩ := hx
    by_cases hk : k = 0
    · subst hk
      exact Or.inl (List.mem_cons_self _ _)
    · refine Or.inr ?_
      rw [Nat.zero_add]
      exact deploymentName_dashNumbered _ _ _ _ (by omega)
  · rcases hcover x hx with hb | hd
    · exact Or.inl (List.mem_cons_of_mem _ hb)
    · exact Or.inr hd

/-- A successful loop over server sets adds at most one used name per set that
is not of the form `<name>-<number>`. -/
theorem serverSetsLoop_basesBound (W : World) (cr : KieApp) (product appName : String)
    (sr : Int) (sliceLen : Nat) :
    ∀ (sets sets' : List KieServerSet) (st st' : LoopState) (q : Nat),
    serverSetsLoop W cr product appName sr sliceLen sets st = (sets', st', none) →
    BasesBound st.usedNames q → BasesBound st'.usedNames (q + sets.length) := by
  intro sets
  induction sets with
  | nil =>
    intro sets' st st' q h hB
    simp only [serverSetsLoop, Prod.mk.injEq, and_true] at h
    obtain ⟨-, rfl⟩ := h
    simpa using hB
  | cons s rest ih =>
    intro sets' st st' q h hB
    unfold serverSetsLoop at h
    cases hstep : serverSetStep W cr product appName sr sliceLen s st with
    | mk s1 r =>
      obtain ⟨st1, e⟩ := r
      rw [hstep] at h
      cases e with
      | some err => simp at h
      | none =>
        simp only [] at h
        cases hrest : serverSetsLoop W cr product appName sr sliceLen rest st1 with
        | mk rest1 r2 =>
          obtain ⟨st2, e2⟩ := r2
          rw [hrest] at h
          simp only [Prod.mk.injEq] at h
          obtain ⟨-, rfl, rfl⟩ := h
          unfold serverSetStep at hstep
          have hB1 := deploymentsLoop_basesBound W cr product appName sr _ _ _ _ _ _ q
            hstep hB
          have := ih rest1 st1 st2 (q + 1) hrest hB1
          simpa [Nat.add_assoc, Nat.add_comm 1] using this

/-- The loop over a slice visits the sets in order: after a successful loop over
the sets before `s`, the loop over the whole slice continues with the visit of
`s` in the state that loop left. -/
theorem serverSetsLoop_append (W : World) (cr : KieApp) (product appName : String)
    (sr : Int) (sliceLen : Nat) :
    ∀ (pre pre' rest : List KieServerSet) (st st' : LoopState),
    serverSetsLoop W cr product appName sr sliceLen pre st = (pre', st', none) →
    serverSetsLoop W cr product appName sr sliceLen (pre ++ rest) st =
      (pre' ++ (serverSetsLoop W cr product appName sr sliceLen rest st').1,
        (serverSetsLoop W cr product appName sr sliceLen rest st').2) := by
  intro pre
  induction pre with
  | nil =>
    intro pre' rest st st' h
    simp only [serverSetsLoop, Prod.mk.injEq, and_true] at h
    obtain ⟨rfl, rfl⟩ := h
    simp
  | cons s pre ih =>
    intro pre' rest st st' h
    unfold serverSetsLoop at h
    rw [List.cons_append]
    conv_lhs => unfold serverSetsLoop
    cases hstep : serverSetStep W cr product appName sr sliceLen s st with
    | mk s1 r =>
      obtain ⟨st1, e⟩ := r
      rw [hstep] at h
      cases e with
      | some err => simp at h
      | none =>
        simp only [] at h ⊢
        cases hpre : serverSetsLoop W cr product appName sr sliceLen pre st1 with
        | mk pre1 r2 =>
          obtain ⟨st2, e2⟩ := r2
          rw [hpre] at h
          simp only [Prod.mk.injEq] at h
          obtain ⟨rfl, rfl, rfl⟩ := h
          rw [ih pre1 rest st1 st2 hpre]
          simp

/-- C19: whenever the loop of `getServersConfig` over a slice `pre ++ s :: post`
has visited the sets before an unnamed set `s` without error, the bounded probe
loop (at most `len(serverSlice)` candidates `app-kieserver`, `app-kieserver2`,
... from the current counter on) assigns `s` a candidate that is non-empty and
not among the used names, whatever the earlier sets and their deployment
counts are. -/
theorem probeSetName_assigns_free_name (W : World) (cr : KieApp) (product appName : String)
    (sr : Int) (calls : Nat) (pre pre' post : List KieServerSet) (s : KieServerSet)
    (st : LoopState) (hName : s.Name = "")
    (hLoop : serverSetsLoop W cr product appName sr (pre ++ s :: post).length pre
      { calls := calls } = (pre', st, none)) :
    let probed := probeSetName appName st.usedNames (pre ++ s :: post).length s st.unsetNames
    probed.1.Name ≠ "" ∧ probed.1.Name ∉ st.usedNames ∧
      probed.1.Name = getKieSetName appName "" probed.2 ∧
      st.unsetNames ≤ probed.2 ∧ probed.2 < st.unsetNames + (pre ++ s :: post).length := by
  intro probed
  have hB0 : BasesBound ({ calls := calls } : LoopState).usedNames 0 :=
    ⟨[], by simp, by intro x hx; simp at hx⟩
  have hB := serverSetsLoop_basesBound W cr product appName sr _ pre pre' _ st 0 hLoop hB0
  have hlt : 0 + pre.length < (pre ++ s :: post).length := by simp
  obtain ⟨k, hk, hfree, hprobe⟩ := probeSetName_finds appName st.usedNames
    (pre ++ s :: post).length s st.unsetNames hName
    (exists_free_candidate appName st.usedNames _ _ st.unsetNames hB hlt)
  simp only [probed, hprobe]
  refine ⟨?_, hfree, trivial, by omega, by omega⟩
  rw [getKieSetName, getKieDeploymentName_unnamed]
  exact kieserver_name_ne_empty _ _

/-- C19 at a concrete input: two named sets occupy the first two candidates
`app-kieserver` and `app-kieserver2`; the probe for the unnamed third set of
the slice assigns a name that is not used. -/
theorem probeSetName_assigns_free_name_witness :
    (probeSetName "app" exampleProbeState.usedNames 3 {}
        exampleProbeState.unsetNames).1.Name ∉ exampleProbeState.usedNames :=
  (probeSetName_assigns_free_name exampleWorld {} "rhpam" "app" 1 0 exampleProbePre
    (serverSetsLoop exampleWorld {} "rhpam" "app" 1 3 exampleProbePre {}).1 [] {}
    exampleProbeState rfl
    (Prod.ext rfl (Prod.ext rfl (by decide)))).2.1

/-! ## Version transition -/

/-- After `SetVersion` with a non-empty version, `GetVersion` returns it. -/
theorem GetVersion_SetVersion (cr : KieApp) (v : String) (hv : v ≠ "") :
    GetVersion (SetVersion cr v) = v := by
  unfold SetVersion GetVersion
  by_cases h : cr.Spec.Version = ""
  · simp [h]
  · simp [h, hv]

/-- C20: let `checkProductUpgrade` return the resource `cr0`, the flags `minor`
and `micro` and no error.  The transition is required exactly in the case
`(micro and equal minor image versions) or (minor and different minor image
versions and equal major versions)`.  When it is required and the catalogue
diff fails, the step leaves `cr0` as it is (annotations and version unchanged)
and `GetEnvironment` returns that error with the empty environment; when the
diff succeeds, the annotations are the empty map and `GetVersion` is
`CurrentVersion` (a non-empty constant); when it is not required the step
leaves `cr0` as it is. -/
theorem upgradeStep_transition (W : World) (U : UpgradeFunctions)
    (build : KieApp → KieApp × Environment × Option String) (cr cr0 : KieApp)
    (minor micro : Bool) (hCurrent : W.CurrentVersion ≠ "")
    (hCheck : U.checkProductUpgrade cr = (cr0, minor, micro, none)) :
    (transitionRequired W U cr0 minor micro = true ↔
        (micro = true ∧ U.GetMinorImageVersion (GetVersion cr0) =
            U.GetMinorImageVersion W.CurrentVersion) ∨
          (minor = true ∧ U.GetMinorImageVersion (GetVersion cr0) ≠
            U.GetMinorImageVersion W.CurrentVersion ∧
            (U.MajorMinorMicro (GetVersion cr0)).1 =
              (U.MajorMinorMicro W.CurrentVersion).1)) ∧
      (transitionRequired W U cr0 minor micro = true →
        ∀ err, U.getConfigVersionDiffs (GetVersion cr0) W.CurrentVersion = some err →
          upgradeStep W U cr = (cr0, some err) ∧
            GetEnvironment W U build cr = (cr0, {}, some err)) ∧
      (transitionRequired W U cr0 minor micro = true →
        U.getConfigVersionDiffs (GetVersion cr0) W.CurrentVersion = none →
          (upgradeStep W U cr).2 = none ∧
            (upgradeStep W U cr).1.Annotations = some [] ∧
            GetVersion (upgradeStep W U cr).1 = W.CurrentVersion ∧
            GetEnvironment W U build cr = build (upgradeStep W U cr).1) ∧
      (transitionRequired W U cr0 minor micro = false →
        upgradeStep W U cr = (cr0, none) ∧ GetEnvironment W U build cr = build cr0) := by
  refine ⟨?_, ?_, ?_, ?_⟩
  · simp [transitionRequired, and_assoc]
  · intro hReq err hDiff
    have hStep : upgradeStep W U cr = (cr0, some err) := by
      simp [upgradeStep, hCheck, hReq, hDiff]
    exact ⟨hStep, by simp [GetEnvironment, hStep]⟩
  · intro hReq hDiff
    have hStep : upgradeStep W U cr =
        (SetVersion { cr0 with Annotations := some [] } W.CurrentVersion, none) := by
      simp [upgradeStep, hCheck, hReq, hDiff]
    refine ⟨by rw [hStep], ?_, ?_, by simp [GetEnvironment, hStep]⟩
    · rw [hStep]
      unfold SetVersion
      split <;> rfl
    · rw [hStep]
      exact GetVersion_SetVersion _ _ hCurrent
  · intro hReq
    have hStep : upgradeStep W U cr = (cr0, none) := by
      simp [upgradeStep, hCheck, hReq]
    exact ⟨hStep, by simp [GetEnvironment, hStep]⟩

/-- C20 at concrete inputs: a resource at version `7.7.0` with minor upgrades
enabled is moved to `7.8.0` with its annotations cleared; for a resource at
version `7.6.0` the catalogue diff fails and the step leaves it untouched. -/
theorem upgradeStep_transition_witness :
    (GetVersion (upgradeStep exampleWorld exampleUpgrade
        { Annotations := some [("k", "v")], Spec := { Version := "7.7.0" } }).1 = "7.8.0" ∧
      (upgradeStep exampleWorld exampleUpgrade
        { Annotations := some [("k", "v")], Spec := { Version := "7.7.0" } }).1.Annotations =
        some []) ∧
      upgradeStep exampleWorld exampleUpgrade
        { Annotations := some [("k", "v")], Spec := { Version := "7.6.0" } } =
        ({ Annotations := some [("k", "v")], Spec := { Version := "7.6.0" } },
          some "no diff for 7.6.0") :=
  have h := upgradeStep_transition exampleWorld exampleUpgrade (fun cr => (cr, {}, none))
    { Annotations := some [("k", "v")], Spec := { Version := "7.7.0" } }
    { Annotations := some [("k", "v")], Spec := { Version := "7.7.0" } } true true
    (by decide) rfl
  have g := upgradeStep_transition exampleWorld exampleUpgrade (fun cr => (cr, {}, none))
    { Annotations := some [("k", "v")], Spec := { Version := "7.6.0" } }
    { Annotations := some [("k", "v")], Spec := { Version := "7.6.0" } } true true
    (by decide) rfl
  ⟨⟨(h.2.2.1 (by decide) (by decide)).2.2.1, (h.2.2.1 (by decide) (by decide)).2.1⟩,
   (g.2.1 (by decide) "no diff for 7.6.0" (by decide)).1⟩

/-! ## Database deployment descriptors -/

/-- The loop over the server templates appends the descriptors of the servers
with a deployed database, in order. -/
theorem appendServerDatabases_eq (W : World) :
    ∀ (servers : List ServerTemplate) (acc : List DatabaseTemplate),
      appendServerDatabases W servers acc =
        acc ++ (servers.filter (fun sc => isDeployDB W sc.Database.Type_)).map
          (serverDatabaseTemplate W) := by
  intro servers
  induction servers with
  | nil => intro acc; simp [appendServerDatabases]
  | cons sc rest ih =>
    intro acc
    unfold appendServerDatabases
    by_cases h : isDeployDB W sc.Database.Type_ = true
    · simp [h, ih]
    · simp [h, ih]

/-- C21: `isDeployDB` holds exactly for the MySQL and PostgreSQL types, and
`getDatabaseDeploymentTemplate` returns, in server order, one descriptor for
every server template whose database type is MySQL or PostgreSQL (with that
server's `KieName` and the kie-server username and database name), followed by
one descriptor named `<cr.Name>-process-migration` exactly when the migration
template's database type is MySQL or PostgreSQL; every other server or
migration database type contributes nothing. -/
theorem getDatabaseDeploymentTemplate_descriptors (W : World) (cr : KieApp)
    (serversConfig : List ServerTemplate) (pim : ProcessMigrationTemplate) :
    (∀ dbType, isDeployDB W dbType = true ↔
        dbType = W.DatabaseMySQL ∨ dbType = W.DatabasePostgreSQL) ∧
      getDatabaseDeploymentTemplate W cr serversConfig (some pim) =
        (serversConfig.filter (fun sc =>
            sc.Database.Type_ = W.DatabaseMySQL ∨ sc.Database.Type_ = W.DatabasePostgreSQL)).map
          (fun sc =>
            { Type_ := sc.Database.Type_, Size := sc.Database.Size,
              StorageClassName := sc.Database.StorageClassName,
              ServerName := sc.KieName,
              Username := W.DefaultKieServerDatabaseUsername,
              DatabaseName := W.DefaultKieServerDatabaseName }) ++
          (if pim.Database.Type_ = W.DatabaseMySQL ∨ pim.Database.Type_ = W.DatabasePostgreSQL
            then
              [{ Type_ := pim.Database.Type_, Size := pim.Database.Size,
                 StorageClassName := pim.Database.StorageClassName,
                 ServerName := cr.Name ++ "-process-migration",
                 Username := W.DefaultProcessMigrationDatabaseUsername,
                 DatabaseName := W.DefaultProcessMigrationDatabaseName }]
            else []) := by
  have hDeploy : ∀ dbType, isDeployDB W dbType = true ↔
      dbType = W.DatabaseMySQL ∨ dbType = W.DatabasePostgreSQL := by
    intro dbType
    unfold isDeployDB
    split <;> simp_all
  refine ⟨hDeploy, ?_⟩
  have hFilter : serversConfig.filter (fun sc => isDeployDB W sc.Database.Type_) =
      serversConfig.filter (fun sc => decide
        (sc.Database.Type_ = W.DatabaseMySQL ∨ sc.Database.Type_ = W.DatabasePostgreSQL)) := by
    apply List.filter_congr
    intro sc _
    by_cases h : sc.Database.Type_ = W.DatabaseMySQL ∨ sc.Database.Type_ = W.DatabasePostgreSQL
    · simp [h, (hDeploy _).2 h]
    · have : isDeployDB W sc.Database.Type_ = false := by
        cases hb : isDeployDB W sc.Database.Type_ with
        | false => rfl
        | true => exact absurd ((hDeploy _).1 hb) h
      simp [h, this]
  unfold getDatabaseDeploymentTemplate
  simp only [appendServerDatabases_eq, List.nil_append, hFilter]
  by_cases h : pim.Database.Type_ = W.DatabaseMySQL ∨ pim.Database.Type_ = W.DatabasePostgreSQL
  · simp only [(hDeploy _).2 h, if_true, h]
    rfl
  · have : isDeployDB W pim.Database.Type_ = false := by
      cases hb : isDeployDB W pim.Database.Type_ with
      | false => rfl
      | true => exact absurd ((hDeploy _).1 hb) h
    simp only [this, h, if_false, List.append_nil]
    rfl

/-! ## Cleaning the queue list -/

/-- C26, the code at the failing input: a JMS object with integration enabled
and every other field unset, in the known profile `rhpam-trial`.  The signal and
audit queues are both disabled, the cleaning loop removes only the first empty
entry, and the joined `AMQQueues` ends with an empty entry after a separator. -/
theorem getJmsConfig_leaves_empty_queue :
    ((getJmsConfig exampleWorld "rhpam-trial" (some { EnableIntegration := true }) 0).1.map
        (fun jms => jms.AMQQueues)) =
      some ("queue/KIE.SERVER.EXECUTOR, queue/KIE.SERVER.REQUEST, " ++
        "queue/KIE.SERVER.RESPONSE, ") := by
  decide

/-! ## Soundness of the search by name -/

/-- C28: when `findCustomObjectByName` reports a match, the returned object is
an element of the list, it and the template have a first workload, the two
first workload names are equal, and no earlier element of the list has that
first workload name; when the template has no workloads or the list is empty
the result is the empty object and `false`. -/
theorem findCustomObjectByName_sound (template : CustomObject) (objects : List CustomObject) :
    (∀ found, findCustomObjectByName template objects = (found, true) →
        ∃ pre post objectDC objectRest templateDC templateRest,
          objects = pre ++ found :: post ∧
          found.DeploymentConfigs = objectDC :: objectRest ∧
          template.DeploymentConfigs = templateDC :: templateRest ∧
          objectDC.Name = templateDC.Name ∧
          ∀ earlier ∈ pre, ∀ dc rest, earlier.DeploymentConfigs = dc :: rest →
            dc.Name ≠ templateDC.Name) ∧
      (template.DeploymentConfigs = [] ∨ objects = [] →
        findCustomObjectByName template objects = ({}, false)) := by
  constructor
  · induction objects with
    | nil => intro found h; simp [findCustomObjectByName] at h
    | cons object rest ih =>
      intro found h
      unfold findCustomObjectByName at h
      cases hO : object.DeploymentConfigs with
      | nil => simp [hO] at h
      | cons objectDC objectRest =>
        cases hT : template.DeploymentConfigs with
        | nil => simp [hO, hT] at h
        | cons templateDC templateRest =>
          simp only [hO, hT] at h
          by_cases hName : objectDC.Name = templateDC.Name
          · simp only [hName, if_true, Prod.mk.injEq, and_true] at h
            subst h
            exact ⟨[], rest, objectDC, objectRest, templateDC, templateRest, rfl, hO, rfl,
              hName, by simp⟩
          · simp only [hName, if_false] at h
            obtain ⟨pre, post, oDC, oRest, tDC, tRest, hSplit, hF, hT2, hEq, hPre⟩ := ih found h
            rw [hT] at hT2
            simp only [List.cons.injEq] at hT2
            obtain ⟨rfl, rfl⟩ := hT2
            refine ⟨object :: pre, post, oDC, oRest, templateDC, templateRest, by rw [hSplit]; rfl,
              hF, rfl, hEq, ?_⟩
            intro earlier hMem dc rest2 hDC
            rcases List.mem_cons.1 hMem with rfl | hMem
            · rw [hO] at hDC
              simp only [List.cons.injEq] at hDC
              rw [← hDC.1]
              exact hName
            · exact hPre earlier hMem dc rest2 hDC
  · rintro (hT | hO)
    · cases objects with
      | nil => rfl
      | cons object rest =>
        unfold findCustomObjectByName
        cases hO : object.DeploymentConfigs <;> simp [hT]
    · subst hO; rfl

/-! ## The database configuration of a known environment -/

/-- C29: for a known environment with default database `D`: a `nil` database
gives `D`; a database that passes the external-configuration check, has an
empty `Size` and meets a non-`nil` `D` gives a copy that differs from it exactly
in `Size`, which is `D.Size`; a database that passes the check gives itself in
the remaining cases; none of these is an error.  For an unknown environment the
result is `(nil, nil)`. -/
theorem getDatabaseConfig_cases (W : World) (environment : String) :
    (∀ envConstants, W.EnvironmentConstants environment = some envConstants →
        getDatabaseConfig W environment none = (envConstants.Database, none) ∧
        (∀ database : DatabaseObject,
          ¬ (database.Type_ = W.DatabaseExternal ∧ database.ExternalConfig = none) →
          (∀ defaultDB, envConstants.Database = some defaultDB → database.Size = "" →
            getDatabaseConfig W environment (some database) =
              (some { database with Size := defaultDB.Size }, none)) ∧
          (database.Size ≠ "" ∨ envConstants.Database = none →
            getDatabaseConfig W environment (some database) = (some database, none)))) ∧
      (W.EnvironmentConstants environment = none →
        ∀ database, getDatabaseConfig W environment database = (none, none)) := by
  constructor
  · intro envConstants hEnv
    refine ⟨by simp [getDatabaseConfig, hEnv], ?_⟩
    intro database hCheck
    constructor
    · intro defaultDB hD hSize
      simp [getDatabaseConfig, hEnv, hCheck, hD, hSize]
    · intro h
      cases hD : envConstants.Database with
      | none => simp [getDatabaseConfig, hEnv, hCheck, hD]
      | some d =>
        rcases h with h | h
        · simp [getDatabaseConfig, hEnv, hCheck, hD, h]
        · rw [hD] at h; cases h
  · intro hEnv database
    simp [getDatabaseConfig, hEnv]

/-- C29 at concrete inputs: in `rhpam-trial` (default database `h2`) a MySQL
database without size gets the default size, and `nil` gives the default. -/
theorem getDatabaseConfig_cases_witness :
    getDatabaseConfig exampleWorld "rhpam-trial" none =
        (some { Type_ := "h2", Size := "" }, none) ∧
      getDatabaseConfig exampleWorld "rhpam-trial" (some { Type_ := "mysql" }) =
        (some { Type_ := "mysql", Size := "" }, none) ∧
      getDatabaseConfig exampleWorld "rhdm-production" (some { Type_ := "mysql" }) =
        (some { Type_ := "mysql" }, none) ∧
      getDatabaseConfig exampleWorld "other" (some { Type_ := "mysql" }) = (none, none) :=
  have h := (getDatabaseConfig_cases exampleWorld "rhpam-trial").1 _ rfl
  have g := (getDatabaseConfig_cases exampleWorld "rhdm-production").1 _ rfl
  ⟨h.1, (h.2 { Type_ := "mysql" } (by decide)).1 _ rfl rfl,
    (g.2 { Type_ := "mysql" } (by decide)).2 (Or.inr rfl),
    (getDatabaseConfig_cases exampleWorld "other").2 rfl _⟩

/-- C28 at a concrete input: the second element is the first one named `b`. -/
theorem findCustomObjectByName_sound_witness :
    ∃ pre post objectDC objectRest templateDC templateRest,
      [({ DeploymentConfigs := [{ Name := "a" }] } : CustomObject),
          { DeploymentConfigs := [{ Name := "b" }] }] =
        pre ++ ({ DeploymentConfigs := [{ Name := "b" }] } : CustomObject) :: post ∧
      ({ DeploymentConfigs := [{ Name := "b" }] } : CustomObject).DeploymentConfigs =
        objectDC :: objectRest ∧
      ({ DeploymentConfigs := [{ Name := "b" }, { Name := "c" }] } :
        CustomObject).DeploymentConfigs = templateDC :: templateRest ∧
      objectDC.Name = templateDC.Name ∧
      ∀ earlier ∈ pre, ∀ dc rest, earlier.DeploymentConfigs = dc :: rest →
        dc.Name ≠ templateDC.Name :=
  (findCustomObjectByName_sound { DeploymentConfigs := [{ Name := "b" }, { Name := "c" }] }
    [{ DeploymentConfigs := [{ Name := "a" }] }, { DeploymentConfigs := [{ Name := "b" }] }]).1
    { DeploymentConfigs := [{ Name := "b" }] } (by decide)

/-! ## `GetImage` and the composition `name:tag` -/

/-- A string without `/` and `:` followed by `:` and another such string splits
at `:` into the two. -/
theorem splitChars_colon_pair (image tag : List Char) (hImage : ':' ∉ image)
    (hTag : ':' ∉ tag) : splitChars ':' (image ++ ':' :: tag) = [image, tag] := by
  rw [splitChars_append_sep, splitChars_of_not_mem ':' image hImage,
    splitChars_of_not_mem ':' tag hTag]
  rfl

/-- An index within the length reads the element that `getD` reads. -/
theorem getElem?_eq_some_getD {α : Type} (xs : List α) (i : Nat) (d : α)
    (h : i < xs.length) : xs[i]? = some (xs.getD i d) := by
  simp [List.getD_eq_getElem?_getD, List.getElem?_eq_getElem h]

/-- `strings.Split` returns at least one part. -/
theorem stringsSplit_length_pos (s : String) (sep : Char) :
    0 < (stringsSplit s sep).length := by
  unfold stringsSplit
  rw [List.length_map]
  exact List.length_pos.2 (splitChars_ne_nil sep s.data)

/-- The indexing of `GetImage` is never out of range. -/
theorem GetImageChecked_eq (imageURL : String) :
    GetImageChecked imageURL = some (GetImage imageURL) := by
  have last : ∀ xs : List String, 0 < xs.length →
      xs[xs.length - 1]? = some (xs.getD (xs.length - 1) "") :=
    fun xs h => getElem?_eq_some_getD xs _ "" (by omega)
  have prev : ∀ xs : List String,
      (if xs.length > 1 then xs[xs.length - 2]? else some "") =
        some (if xs.length > 1 then xs.getD (xs.length - 2) "" else "") := by
    intro xs
    split
    · exact getElem?_eq_some_getD xs _ "" (by omega)
    · rfl
  have lastIf : ∀ xs : List String,
      (if xs.length > 1 then xs[xs.length - 1]? else some "") =
        some (if xs.length > 1 then xs.getD (xs.length - 1) "" else "") := by
    intro xs
    split
    · exact getElem?_eq_some_getD xs _ "" (by omega)
    · rfl
  have first : ∀ xs : List String, 0 < xs.length → xs[0]? = some (xs.getD 0 "") :=
    fun xs h => getElem?_eq_some_getD xs 0 "" h
  unfold GetImageChecked GetImage
  simp only [prev, last _ (stringsSplit_length_pos imageURL '/'),
    first _ (stringsSplit_length_pos _ ':'), lastIf]

/-- C30: for an image name and a tag without `/` and `:` and a registry context
`c` without `/` (it may contain `:`), `GetImage` recovers the parts of
`image:tag` and of `c/image:tag`; the indexing of `GetImage` is never out of
range; and `GetImage ""` is three empty strings. -/
theorem GetImage_inverts_composition (image tag c : String)
    (hImageSlash : '/' ∉ image.data) (hImageColon : ':' ∉ image.data)
    (hTagSlash : '/' ∉ tag.data) (hTagColon : ':' ∉ tag.data) (hContext : '/' ∉ c.data) :
    GetImage (image ++ ":" ++ tag) = (image, tag, "") ∧
      GetImage (c ++ "/" ++ image ++ ":" ++ tag) = (image, tag, c) ∧
      (∀ imageURL, GetImageChecked imageURL = some (GetImage imageURL)) ∧
      GetImage "" = ("", "", "") := by
  have hSeg : '/' ∉ image.data ++ ':' :: tag.data := by
    intro h
    rcases List.mem_append.1 h with h | h
    · exact hImageSlash h
    · rcases List.mem_cons.1 h with h | h
      · exact absurd h (by decide)
      · exact hTagSlash h
  have hParts := splitChars_colon_pair image.data tag.data hImageColon hTagColon
  refine ⟨?_, ?_, GetImageChecked_eq, by decide⟩
  · have hSplit : splitChars '/' (image ++ ":" ++ tag).data =
        [] ++ [image.data ++ ':' :: tag.data] := by
      have e : (image ++ ":" ++ tag).data = image.data ++ ':' :: tag.data := by
        simp [String.data_append]
      rw [e, splitChars_of_not_mem '/' _ hSeg]
      rfl
    rw [GetImage_of_split _ _ _ hSplit, hParts]
    simp
  · have hSplit : splitChars '/' (c ++ "/" ++ image ++ ":" ++ tag).data =
        [c.data] ++ [image.data ++ ':' :: tag.data] := by
      have e : (c ++ "/" ++ image ++ ":" ++ tag).data =
          c.data ++ '/' :: (image.data ++ ':' :: tag.data) := by
        simp [String.data_append]
      rw [e, splitChars_append_sep, splitChars_of_not_mem '/' _ hSeg,
        splitChars_of_not_mem '/' _ hContext]
    rw [GetImage_of_split _ _ _ hSplit, hParts]
    simp

/-- C30 at a concrete input: a registry with a port. -/
theorem GetImage_inverts_composition_witness :
    GetImage ("rhpam-kieserver-rhel8" ++ ":" ++ "7.8.0") =
        ("rhpam-kieserver-rhel8", "7.8.0", "") ∧
      GetImage ("registry:5000" ++ "/" ++ "rhpam-kieserver-rhel8" ++ ":" ++ "7.8.0") =
        ("rhpam-kieserver-rhel8", "7.8.0", "registry:5000") :=
  have h := GetImage_inverts_composition "rhpam-kieserver-rhel8" "7.8.0" "registry:5000"
    (by decide) (by decide) (by decide) (by decide) (by decide)
  ⟨h.1, h.2.1⟩

/-! ## Config-map names -/

/-- The parts of a path that is a sequence of directories, each followed by `/`,
and a final segment. -/
theorem splitChars_path (dirs : List (List Char)) (file : List Char)
    (hDirs : ∀ d ∈ dirs, '/' ∉ d) (hFile : '/' ∉ file) :
    splitChars '/' (dirs.foldr (fun d rest => d ++ '/' :: rest) file) = dirs ++ [file] := by
  induction dirs with
  | nil => simpa using splitChars_of_not_mem '/' file hFile
  | cons d rest ih =>
    simp only [List.foldr_cons]
    rw [splitChars_append_sep, splitChars_of_not_mem '/' d (hDirs d (List.mem_cons_self _ _)),
      ih (fun x hx => hDirs x (List.mem_cons_of_mem _ hx))]
    rfl

/-- The characters of a path built from its segments. -/
theorem path_data (dirs : List String) (file : String) :
    (dirs.foldr (fun d rest => d ++ "/" ++ rest) file).data =
      (dirs.map String.data).foldr (fun d rest => d ++ '/' :: rest) file.data := by
  induction dirs with
  | nil => rfl
  | cons d rest ih => simp [List.foldr_cons, String.data_append, ih]

/-- C23: for a path `s1/.../sn` given by its directory segments `s1 .. s(n-1)` and
its final segment `sn` (no segment contains `/`), `convertToConfigMapName`
returns as name the prefix followed by `-s1`, ..., `-s(n-1)` and as key the
final segment; without directories the name is the bare prefix and the key is
the whole path. -/
theorem convertToConfigMapName_segments (W : World) (dirs : List String) (file : String)
    (hDirs : ∀ d ∈ dirs, '/' ∉ d.data) (hFile : '/' ∉ file.data) :
    convertToConfigMapName W (dirs.foldr (fun d rest => d ++ "/" ++ rest) file) =
        (dirs.foldl (fun name d => name ++ "-" ++ d) W.ConfigMapPrefix, file) ∧
      convertToConfigMapName W file = (W.ConfigMapPrefix, file) := by
  have key : ∀ ds : List String, (∀ d ∈ ds, '/' ∉ d.data) →
      convertToConfigMapName W (ds.foldr (fun d rest => d ++ "/" ++ rest) file) =
        (ds.foldl (fun name d => name ++ "-" ++ d) W.ConfigMapPrefix, file) := by
    intro ds hds
    have hSplit : stringsSplit (ds.foldr (fun d rest => d ++ "/" ++ rest) file) '/' =
        ds ++ [file] := by
      unfold stringsSplit
      rw [path_data, splitChars_path _ _ (by
        intro d hd
        obtain ⟨x, hx, rfl⟩ := List.mem_map.1 hd
        exact hds x hx) hFile]
      have hid : (String.mk ∘ String.data) = id := funext (fun _ => rfl)
      simp [List.map_map, hid]
    unfold convertToConfigMapName
    simp only [hSplit, List.length_append, List.length_singleton, Nat.add_sub_cancel,
      List.take_left', getD_last_append_singleton]
    cases ds with
    | nil => simp
    | cons d rest =>
      have : (d :: rest).length + 1 > 1 := by simp
      simp only [this, if_true]
      have e : (d :: rest ++ [file]).getD (d :: rest).length "" = file := by
        simp [List.getD_eq_getElem?_getD]
      rw [e]
  exact ⟨key dirs hDirs, key [] (by simp)⟩

/-- C23 at a concrete input: `7.8.0/dbs/servers/mysql.yaml`. -/
theorem convertToConfigMapName_segments_witness :
    convertToConfigMapName exampleWorld "7.8.0/dbs/servers/mysql.yaml" =
      ("kieconfigs-7.8.0-dbs-servers", "mysql.yaml") :=
  (convertToConfigMapName_segments exampleWorld ["7.8.0", "dbs", "servers"] "mysql.yaml"
    (by decide) (by decide)).1


/-! ## The router filter -/

/-- C22, the code at the failing input: the resource declares no smart router, so
the environment fragment is marked and the merged environment has the router
omitted; the only workload of the only server has two containers.  The filter
removes the router variable of the first container only, and the second
container keeps its `KIE_SERVER_ROUTER_SERVICE` in the environment the step
produces. -/
theorem routerFilterStep_keeps_second_container :
    ({} : KieApp).Spec.Objects.SmartRouter = none ∧
      markRouterOmitted {} exampleRouterFragment = exampleRouterEnv ∧
      exampleRouterEnv.SmartRouter.Omit = true ∧
      routerFilterStep exampleRouterMerge {} {} exampleRouterFragment =
        some (exampleRouterFiltered, none) ∧
      ∃ server ∈ exampleRouterFiltered.Servers, ∃ dc ∈ server.DeploymentConfigs,
        ∃ container ∈ dc.Containers, ∃ envvar ∈ container.Env,
          envvar.Name = "KIE_SERVER_ROUTER_SERVICE" := by
  refine ⟨by decide, by decide, by decide, by decide, by decide⟩

/-- The filter on the workloads of a server: every resulting workload has a
first container without router variables. -/
theorem removeRouterVarsDCs_first (dcs dcs' : List DeploymentConfig)
    (h : removeRouterVarsDCs dcs = some dcs') :
    ∀ dc ∈ dcs', ∃ first others, dc.Containers = first :: others ∧
      ∀ envvar ∈ first.Env, keepsEnvVar envvar = true := by
  induction dcs generalizing dcs' with
  | nil =>
    simp only [removeRouterVarsDCs, Option.some.injEq] at h
    subst h
    simp
  | cons d rest ih =>
    unfold removeRouterVarsDCs at h
    cases hd : removeRouterVarsDC d with
    | none => simp [hd] at h
    | some d1 =>
      cases hr : removeRouterVarsDCs rest with
      | none => simp [hd, hr] at h
      | some rest1 =>
        simp only [hd, hr, Option.some.injEq] at h
        subst h
        intro dc hdc
        rcases List.mem_cons.1 hdc with rfl | hdc
        · unfold removeRouterVarsDC at hd
          cases hc : d.Containers with
          | nil => simp [hc] at hd
          | cons first others =>
            simp only [hc, Option.some.injEq] at hd
            subst hd
            refine ⟨_, _, rfl, ?_⟩
            intro envvar hmem
            exact (List.mem_filter.1 hmem).2
        · exact ih rest1 hr dc hdc

/-- The filter on the servers. -/
theorem removeRouterVarsServers_first (servers servers' : List CustomObject)
    (h : removeRouterVarsServers servers = some servers') :
    ∀ server ∈ servers', ∀ dc ∈ server.DeploymentConfigs,
      ∃ first others, dc.Containers = first :: others ∧
        ∀ envvar ∈ first.Env, keepsEnvVar envvar = true := by
  induction servers generalizing servers' with
  | nil =>
    simp only [removeRouterVarsServers, Option.some.injEq] at h
    subst h
    simp
  | cons s rest ih =>
    unfold removeRouterVarsServers at h
    cases hd : removeRouterVarsDCs s.DeploymentConfigs with
    | none => simp [hd] at h
    | some dcs =>
      cases hr : removeRouterVarsServers rest with
      | none => simp [hd, hr] at h
      | some rest1 =>
        simp only [hd, hr, Option.some.injEq] at h
        subst h
        intro server hs
        rcases List.mem_cons.1 hs with rfl | hs
        · exact removeRouterVarsDCs_first _ _ hd
        · exact ih rest1 hr server hs

/-- What the filter does remove: when the merged environment has the router
omitted and the filter completes, the first container of every workload of
every server has none of the three router variables. -/
theorem removeRouterVars_filters_first_container (mergedEnv result : Environment)
    (hOmit : mergedEnv.SmartRouter.Omit = true)
    (hStep : removeRouterVars mergedEnv = some result) :
    ∀ server ∈ result.Servers, ∀ dc ∈ server.DeploymentConfigs,
      ∃ first others, dc.Containers = first :: others ∧
        ∀ envvar ∈ first.Env, envvar.Name ≠ "KIE_SERVER_ROUTER_SERVICE" ∧
          envvar.Name ≠ "KIE_SERVER_ROUTER_PORT" ∧
          envvar.Name ≠ "KIE_SERVER_ROUTER_PROTOCOL" := by
  unfold removeRouterVars at hStep
  simp only [hOmit, if_true] at hStep
  cases hs : removeRouterVarsServers mergedEnv.Servers with
  | none => simp [hs] at hStep
  | some servers =>
    simp only [hs, Option.some.injEq] at hStep
    subst hStep
    intro server hmem dc hdc
    obtain ⟨first, others, hc, hkeep⟩ :=
      removeRouterVarsServers_first _ _ hs server hmem dc hdc
    refine ⟨first, others, hc, ?_⟩
    intro envvar he
    have := hkeep envvar he
    simpa [keepsEnvVar] using this

/-! ## Overlays without a matching component -/

theorem mergeFound_of_not_found (S : Services) (server : CustomObject)
    (fragmentServers : List CustomObject)
    (h : (findCustomObjectByName server fragmentServers).2 = false) :
    mergeFound S server fragmentServers = server := by
  unfold mergeFound
  split
  · rename_i found heq
    rw [heq] at h
    simp at h
  · rfl

theorem mergeFound_nil (S : Services) (server : CustomObject) :
    mergeFound S server [] = server :=
  mergeFound_of_not_found S server [] rfl

/-- Without messaging in the templates the loop of `mergeJms` loads nothing and
searches the servers of the `jmsEnv` it started with. -/
theorem mergeJmsLoop_disabled (S : Services) (cr : KieApp) (envTemplate : EnvTemplate) :
    ∀ (servers : List CustomObject) (templates : List ServerTemplate) (jmsEnv : Environment)
      (fetched : List String),
      servers.length ≤ templates.length →
      (∀ t ∈ templates, t.Jms.EnableIntegration = false) →
      mergeJmsLoop S cr envTemplate servers templates jmsEnv fetched =
        some { servers := servers.map (fun server => mergeFound S server jmsEnv.Servers),
               err := none, fetched := fetched } := by
  intro servers
  induction servers with
  | nil => intro templates jmsEnv fetched _ _; cases templates <;> rfl
  | cons server rest ih =>
    intro templates jmsEnv fetched hLen hJms
    cases templates with
    | nil => simp at hLen
    | cons t templates =>
      have ht : t.Jms.EnableIntegration = false := hJms t (List.mem_cons_self _ _)
      have hrest := ih templates jmsEnv fetched (by simpa using hLen)
        (fun u hu => hJms u (List.mem_cons_of_mem _ hu))
      simp only [mergeJmsLoop, ht, hrest, Bool.false_eq_true, if_false, List.map_cons]

/-- What a completed loop of `mergeJms` leaves at each index: the server merged
with its match among the servers searched there. -/
theorem mergeJmsLoop_ok (S : Services) (cr : KieApp) (envTemplate : EnvTemplate) :
    ∀ (servers : List CustomObject) (templates : List ServerTemplate) (jmsEnv : Environment)
      (fetched : List String) (r : FoldResult),
      mergeJmsLoop S cr envTemplate servers templates jmsEnv fetched = some r →
      r.err = none →
      ∀ (i : Nat) (server : CustomObject), servers[i]? = some server →
        r.servers[i]? = some (mergeFound S server
          (if (templates.take (i + 1)).any (fun t => t.Jms.EnableIntegration) then
            loadedServers S cr envTemplate "jms/activemq-jms-config.yaml"
          else jmsEnv.Servers)) := by
  intro servers
  induction servers with
  | nil => intro templates jmsEnv fetched r _ _ i server hi; simp at hi
  | cons server0 rest ih =>
    intro templates jmsEnv fetched r hrun herr i server hi
    cases templates with
    | nil => simp [mergeJmsLoop] at hrun
    | cons t templates =>
      unfold mergeJmsLoop at hrun
      by_cases ht : t.Jms.EnableIntegration = true
      · simp only [ht, if_true] at hrun
        cases hload : S.loadYaml "jms/activemq-jms-config.yaml" (GetVersion cr) cr.Namespace
            envTemplate with
        | error e =>
          simp only [hload] at hrun
          simp only [Option.some.injEq] at hrun
          subst hrun
          simp at herr
        | ok yamlBytes =>
          simp only [hload] at hrun
          cases hparse : S.yamlUnmarshal yamlBytes with
          | error e =>
            simp only [hparse] at hrun
            simp only [Option.some.injEq] at hrun
            subst hrun
            simp at herr
          | ok jmsEnv1 =>
            simp only [hparse] at hrun
            have hloaded : loadedServers S cr envTemplate "jms/activemq-jms-config.yaml" =
                jmsEnv1.Servers := by
              simp only [loadedServers, hload, hparse]
            cases hrec : mergeJmsLoop S cr envTemplate rest templates jmsEnv1
                (fetched ++ ["jms/activemq-jms-config.yaml"]) with
            | none => simp [hrec] at hrun
            | some r1 =>
              simp only [hrec, Option.some.injEq] at hrun
              subst hrun
              have hany : ∀ k, ((t :: templates).take (k + 1)).any
                  (fun t => t.Jms.EnableIntegration) = true := by
                intro k
                simp [List.take_succ_cons, ht]
              rw [if_pos (hany i)]
              cases i with
              | zero =>
                simp only [List.getElem?_cons_zero, Option.some.injEq] at hi
                subst hi
                simp [hloaded]
              | succ k =>
                simp only [List.getElem?_cons_succ] at hi ⊢
                have := ih templates jmsEnv1 _ r1 hrec herr k server hi
                rw [this, hloaded]
                simp
      · have ht0 : t.Jms.EnableIntegration = false := by simpa using ht
        simp only [ht0, Bool.false_eq_true, if_false] at hrun
        cases hrec : mergeJmsLoop S cr envTemplate rest templates jmsEnv fetched with
        | none => simp [hrec] at hrun
        | some r1 =>
          simp only [hrec, Option.some.injEq] at hrun
          subst hrun
          cases i with
          | zero =>
            simp only [List.getElem?_cons_zero, Option.some.injEq] at hi
            subst hi
            simp [ht0]
          | succ k =>
            simp only [List.getElem?_cons_succ] at hi ⊢
            have := ih templates jmsEnv _ r1 hrec herr k server hi
            rw [this]
            simp [List.take_succ_cons, ht0]

/-- The fragments the loop of `mergeDB` keeps in its map are those the platform
gives for their database type. -/
def CacheLoaded (S : Services) (cr : KieApp) (envTemplate : EnvTemplate)
    (dbEnvs : List (String × Environment)) : Prop :=
  ∀ entry ∈ dbEnvs,
    entry.2.Servers = loadedServers S cr envTemplate ("dbs/servers/" ++ entry.1 ++ ".yaml")

theorem lookupDBEnv_loaded (S : Services) (cr : KieApp) (envTemplate : EnvTemplate)
    (dbEnvs : List (String × Environment)) (dbType : String)
    (hCache : CacheLoaded S cr envTemplate dbEnvs)
    (hSome : (dbEnvs.find? (fun entry => entry.1 = dbType)).isSome = true) :
    (lookupDBEnv dbEnvs dbType).Servers =
      loadedServers S cr envTemplate ("dbs/servers/" ++ dbType ++ ".yaml") := by
  unfold lookupDBEnv
  cases hfind : dbEnvs.find? (fun entry => entry.1 = dbType) with
  | none => rw [hfind] at hSome; simp at hSome
  | some entry =>
    have hmem := List.mem_of_find?_eq_some hfind
    have hkey := List.find?_some hfind
    simp only [decide_eq_true_eq] at hkey
    rw [hCache entry hmem, hkey]

/-- What a completed loop of `mergeDB` leaves at each index: the server as it
was when its template has no database type, and otherwise merged with its
match among the servers of the fragment of that type. -/
theorem mergeDBLoop_ok (S : Services) (cr : KieApp) (envTemplate : EnvTemplate) :
    ∀ (servers : List CustomObject) (templates : List ServerTemplate)
      (dbEnvs : List (String × Environment)) (fetched : List String) (r : FoldResult),
      CacheLoaded S cr envTemplate dbEnvs →
      mergeDBLoop S cr envTemplate servers templates dbEnvs fetched = some r →
      r.err = none →
      ∀ (i : Nat) (server : CustomObject), servers[i]? = some server →
        ∃ t, templates[i]? = some t ∧
          r.servers[i]? = some (if t.Database.Type_ = "" then server else
            mergeFound S server
              (loadedServers S cr envTemplate ("dbs/servers/" ++ t.Database.Type_ ++ ".yaml"))) := by
  intro servers
  induction servers with
  | nil => intro templates dbEnvs fetched r _ _ _ i server hi; simp at hi
  | cons server0 rest ih =>
    intro templates dbEnvs fetched r hCache hrun herr i server hi
    cases templates with
    | nil => simp [mergeDBLoop] at hrun
    | cons t templates =>
      unfold mergeDBLoop at hrun
      simp only at hrun
      by_cases hty : t.Database.Type_ = ""
      · simp only [hty, if_true] at hrun
        cases hrec : mergeDBLoop S cr envTemplate rest templates dbEnvs fetched with
        | none => simp [hrec] at hrun
        | some r1 =>
          simp only [hrec, Option.some.injEq] at hrun
          subst hrun
          cases i with
          | zero =>
            simp only [List.getElem?_cons_zero, Option.some.injEq] at hi
            subst hi
            exact ⟨t, List.getElem?_cons_zero, by simp [hty]⟩
          | succ k =>
            simp only [List.getElem?_cons_succ] at hi ⊢
            exact ih templates dbEnvs _ r1 hCache hrec herr k server hi
      · simp only [hty, if_false] at hrun
        by_cases hSome : (dbEnvs.find? (fun entry => entry.1 = t.Database.Type_)).isSome = true
        · simp only [hSome, if_true] at hrun
          cases hrec : mergeDBLoop S cr envTemplate rest templates dbEnvs fetched with
          | none => simp [hrec] at hrun
          | some r1 =>
            simp only [hrec, Option.some.injEq] at hrun
            subst hrun
            cases i with
            | zero =>
              simp only [List.getElem?_cons_zero, Option.some.injEq] at hi
              subst hi
              refine ⟨t, List.getElem?_cons_zero, ?_⟩
              simp [hty, lookupDBEnv_loaded S cr envTemplate dbEnvs _ hCache hSome]
            | succ k =>
              simp only [List.getElem?_cons_succ] at hi ⊢
              exact ih templates dbEnvs _ r1 hCache hrec herr k server hi
        · simp only [hSome, Bool.false_eq_true, if_false] at hrun
          cases hload : S.loadYaml ("dbs/servers/" ++ t.Database.Type_ ++ ".yaml") (GetVersion cr)
              cr.Namespace envTemplate with
          | error e =>
            simp only [hload] at hrun
            simp only [Option.some.injEq] at hrun
            subst hrun
            simp at herr
          | ok yamlBytes =>
            simp only [hload] at hrun
            cases hparse : S.yamlUnmarshal yamlBytes with
            | error e =>
              simp only [hparse] at hrun
              simp only [Option.some.injEq] at hrun
              subst hrun
              simp at herr
            | ok dbEnv =>
              simp only [hparse] at hrun
              have hloaded : loadedServers S cr envTemplate
                  ("dbs/servers/" ++ t.Database.Type_ ++ ".yaml") = dbEnv.Servers := by
                simp only [loadedServers, hload, hparse]
              have hCache1 : CacheLoaded S cr envTemplate ((t.Database.Type_, dbEnv) :: dbEnvs) := by
                intro entry hentry
                rcases List.mem_cons.mp hentry with h | h
                · subst h; exact hloaded.symm
                · exact hCache entry h
              cases hrec : mergeDBLoop S cr envTemplate rest templates
                  ((t.Database.Type_, dbEnv) :: dbEnvs)
                  (fetched ++ ["dbs/servers/" ++ t.Database.Type_ ++ ".yaml"]) with
              | none => simp [hrec] at hrun
              | some r1 =>
                simp only [hrec, Option.some.injEq] at hrun
                subst hrun
                cases i with
                | zero =>
                  simp only [List.getElem?_cons_zero, Option.some.injEq] at hi
                  subst hi
                  refine ⟨t, List.getElem?_cons_zero, ?_⟩
                  simp [hty, hloaded]
                | succ k =>
                  simp only [List.getElem?_cons_succ] at hi ⊢
                  exact ih templates _ _ r1 hCache1 hrec herr k server hi

/-- C25: an overlay without a matching component leaves the base unchanged and is
not an error.  When `envTemplate.Servers` is at least as long as `env.Servers`
and no template enables the messaging integration, `mergeJms` fetches no file
and returns `env` itself with a nil error.  More generally, when `mergeJms` or
`mergeDB` completes without an error, every server for which
`findCustomObjectByName` finds no match among the servers of the fragment
searched for it (for `mergeDB` also every server whose template has no database
type, which is skipped) is returned as it was. -/
theorem merge_without_match_unchanged (S : Services) (cr : KieApp) (env : Environment)
    (envTemplate : EnvTemplate) :
    (env.Servers.length ≤ envTemplate.Servers.length →
      (∀ t ∈ envTemplate.Servers, t.Jms.EnableIntegration = false) →
      mergeJms S cr env envTemplate = some (env, none, [])) ∧
    (∀ (out : Environment) (fetched : List String),
      mergeJms S cr env envTemplate = some (out, none, fetched) →
      ∀ (i : Nat) (server : CustomObject), env.Servers[i]? = some server →
        (findCustomObjectByName server (jmsFragmentAt S cr envTemplate i)).2 = false →
        out.Servers[i]? = some server) ∧
    (∀ (out : Environment) (fetched : List String),
      mergeDB S cr env envTemplate = some (out, none, fetched) →
      ∀ (i : Nat) (server : CustomObject) (t : ServerTemplate),
        env.Servers[i]? = some server → envTemplate.Servers[i]? = some t →
        (t.Database.Type_ = "" ∨
          (findCustomObjectByName server (loadedServers S cr envTemplate
            ("dbs/servers/" ++ t.Database.Type_ ++ ".yaml"))).2 = false) →
        out.Servers[i]? = some server) := by
  refine ⟨?_, ?_, ?_⟩
  · intro hLen hJms
    have hloop := mergeJmsLoop_disabled S cr envTemplate env.Servers envTemplate.Servers {} []
      hLen hJms
    have hmap : env.Servers.map (fun server => mergeFound S server ({} : Environment).Servers) =
        env.Servers := by
      have : ∀ l : List CustomObject,
          l.map (fun server => mergeFound S server ({} : Environment).Servers) = l := by
        intro l
        induction l with
        | nil => rfl
        | cons a l ih =>
          rw [List.map_cons, ih]
          exact congrArg (fun x => x :: l) (mergeFound_nil S a)
      exact this _
    unfold mergeJms
    rw [hloop, hmap]
  · intro out fetched hrun i server hi hnot
    unfold mergeJms at hrun
    cases hloop : mergeJmsLoop S cr envTemplate env.Servers envTemplate.Servers {} [] with
    | none => simp [hloop] at hrun
    | some r =>
      simp only [hloop] at hrun
      cases herr : r.err with
      | some e => simp [herr] at hrun
      | none =>
        simp only [herr, Option.some.injEq, Prod.mk.injEq, true_and] at hrun
        have hout : out.Servers = r.servers := by rw [← hrun.1]
        have hat := mergeJmsLoop_ok S cr envTemplate env.Servers envTemplate.Servers {} [] r
          hloop herr i server hi
        have hfrag : (if (envTemplate.Servers.take (i + 1)).any
              (fun t => t.Jms.EnableIntegration) = true then
              loadedServers S cr envTemplate "jms/activemq-jms-config.yaml"
            else ({} : Environment).Servers) = jmsFragmentAt S cr envTemplate i := by
          unfold jmsFragmentAt
          rfl
        rw [hfrag] at hat
        rw [hout, hat, mergeFound_of_not_found S server _ hnot]
  · intro out fetched hrun i server t hi hti hnot
    unfold mergeDB at hrun
    cases hloop : mergeDBLoop S cr envTemplate env.Servers envTemplate.Servers [] [] with
    | none => simp [hloop] at hrun
    | some r =>
      simp only [hloop] at hrun
      cases herr : r.err with
      | some e => simp [herr] at hrun
      | none =>
        simp only [herr, Option.some.injEq, Prod.mk.injEq, true_and] at hrun
        have hout : out.Servers = r.servers := by rw [← hrun.1]
        have hCache : CacheLoaded S cr envTemplate [] := by
          intro entry hentry
          simp at hentry
        obtain ⟨t1, ht1, hat⟩ := mergeDBLoop_ok S cr envTemplate env.Servers envTemplate.Servers
          [] [] r hCache hloop herr i server hi
        rw [hti] at ht1
        obtain rfl := Option.some.inj ht1
        rw [hout, hat]
        rcases hnot with hty | hnot
        · rw [if_pos hty]
        · by_cases hty : t.Database.Type_ = ""
          · rw [if_pos hty]
          · rw [if_neg hty, mergeFound_of_not_found S server _ hnot]

theorem merge_without_match_unchanged_witness :
    mergeJms exampleFragments {} exampleTwoServers examplePlainTemplate =
        some (exampleTwoServers, none, []) ∧
      mergeJms exampleFragments {} exampleTwoServers exampleOverlayTemplate =
        some (exampleOverlaid, none,
          ["jms/activemq-jms-config.yaml", "jms/activemq-jms-config.yaml"]) ∧
      mergeDB exampleFragments {} exampleTwoServers exampleOverlayTemplate =
        some (exampleOverlaid, none, ["dbs/servers/mysql.yaml"]) ∧
      exampleOverlaid.Servers[0]? ≠ exampleTwoServers.Servers[0]? ∧
      exampleOverlaid.Servers[1]? = some { DeploymentConfigs := [{ Name := "app-kieserver-2" }] } :=
  ⟨(merge_without_match_unchanged exampleFragments {} exampleTwoServers examplePlainTemplate).1
      (by decide) (by decide),
    by decide, by decide, by decide,
    (merge_without_match_unchanged exampleFragments {} exampleTwoServers
      exampleOverlayTemplate).2.1 exampleOverlaid
      ["jms/activemq-jms-config.yaml", "jms/activemq-jms-config.yaml"] (by decide) 1
      { DeploymentConfigs := [{ Name := "app-kieserver-2" }] } (by decide) (by decide)⟩

/-! ## Blocks of instances -/

/-- Every template a successful deployment loop appends carries the keystore
secret of the set, or the one named after the template when the set has none. -/
theorem deploymentsLoop_keystore (W : World) (cr : KieApp) (product appName : String)
    (sr d : Int) : ∀ (fuel i : Nat) (s s' : KieServerSet) (st st' : LoopState),
    deploymentsLoop W cr product appName sr d fuel i s st = (s', st', none) →
    ∃ ts, st'.servers = st.servers ++ ts ∧ ts.length = fuel ∧
      ∀ t ∈ ts, t.KeystoreSecret =
        (if s.KeystoreSecret = "" then W.KeystoreSecret t.KieName else s.KeystoreSecret) := by
  intro fuel
  induction fuel with
  | zero =>
    intro i s s' st st' h
    simp only [deploymentsLoop, Prod.mk.injEq, and_true] at h
    obtain ⟨rfl, rfl⟩ := h
    exact ⟨[], by simp, rfl, by simp⟩
  | succ fuel ih =>
    intro i s s' st st' h
    unfold deploymentsLoop at h
    cases hstep : deploymentStep W cr product appName sr d i s st with
    | mk s1 r =>
      obtain ⟨st1, e⟩ := r
      rw [hstep] at h
      cases e with
      | some err => simp at h
      | none =>
        simp only [] at h
        obtain ⟨-, -, -, ⟨t, hserv, htn, htk⟩, -, -, hks, -⟩ :=
          deploymentStep_ok_inv W cr product appName sr d i s s1 st st1 hstep
        obtain ⟨ts, hserv2, hlen, hall⟩ := ih (i + 1) s1 s' st1 st' h
        refine ⟨t :: ts, by rw [hserv2, hserv]; simp, by simp [hlen], ?_⟩
        intro t1 ht1
        rcases List.mem_cons.1 ht1 with rfl | ht1
        · rw [htk, htn]
        · rw [hall t1 ht1, hks]

/-- The name the probe gives to an unnamed set is not empty when fewer sets were
visited than the slice has. -/
theorem probeSetName_named (appName : String) (used : List String) (sliceLen q : Nat)
    (s : KieServerSet) (u : Nat) (hName : s.Name = "") (hB : BasesBound used q)
    (hq : q < sliceLen) : (probeSetName appName used sliceLen s u).1.Name ≠ "" := by
  obtain ⟨k, -, -, hprobe⟩ := probeSetName_finds appName used sliceLen s u hName
    (exists_free_candidate appName used q sliceLen u hB hq)
  rw [hprobe]
  simp only [getKieSetName, getKieDeploymentName_unnamed]
  exact kieserver_name_ne_empty _ _

/-- What a successful visit of one server set appends: the block of its
instances, named after the set as the visit leaves it. -/
theorem serverSetStep_block (W : World) (cr : KieApp) (product appName : String)
    (sr : Int) (sliceLen q : Nat) (s s' : KieServerSet) (st st' : LoopState)
    (h : serverSetStep W cr product appName sr sliceLen s st = (s', st', none))
    (hB : BasesBound st.usedNames q) (hq : q < sliceLen) :
    BasesBound st'.usedNames (q + 1) ∧
      ∃ block, st'.servers = st.servers ++ block ∧ KeystoreOf W s block ∧ Expanded s' block := by
  unfold serverSetStep at h
  simp only [] at h
  have hB1 := deploymentsLoop_basesBound W cr product appName sr _ _ _ _ _ _ q h hB
  refine ⟨hB1, ?_⟩
  obtain ⟨-, hname, hdep, -, -, ts, hserv, hnames, -, -, -⟩ :=
    deploymentsLoop_ok_inv W cr product appName sr _ _ _ _ _ _ _ h
  obtain ⟨ts2, hserv2, hlen, hall⟩ :=
    deploymentsLoop_keystore W cr product appName sr _ _ _ _ _ _ _ h
  have hts : ts2 = ts := by
    have := hserv2.symm.trans hserv
    exact List.append_cancel_left this
  subst hts
  refine ⟨ts2, hserv, ⟨hlen, ?_⟩, ?_⟩
  · intro t ht
    rw [hall t ht]
    by_cases hn : s.Name = ""
    · simp only [hn, if_true]
      rw [probeSetName_fields]
    · simp only [hn, if_false]
  · by_cases hn : s.Name = ""
    · simp only [hn, if_true] at hname hdep hnames
      have hne : s'.Name ≠ "" := by
        rw [hname]
        exact probeSetName_named appName st.usedNames sliceLen q _ _ rfl hB hq
      rw [probeSetName_fields] at hdep
      simp only [] at hdep
      refine ⟨hne, by rw [hdep]; simp, ?_⟩
      rw [hnames, ← hname]
      simp only [deploymentCount, hdep, Option.getD_some, Nat.zero_add]
      apply List.map_congr_left
      intro k _
      exact getKieDeploymentName_named _ _ _ _ hne
    · simp only [hn, if_false] at hname hdep hnames
      have hne : s'.Name ≠ "" := by rw [hname]; exact hn
      refine ⟨hne, by rw [hdep]; simp, ?_⟩
      rw [hnames, ← hname]
      simp only [deploymentCount, hdep, Option.getD_some, Nat.zero_add]
      apply List.map_congr_left
      intro k _
      exact getKieDeploymentName_named _ _ _ _ hne

/-- What a successful loop over the server sets appends: one block of instances
per set, in order. -/
theorem serverSetsLoop_blocks (W : World) (cr : KieApp) (product appName : String)
    (sr : Int) (sliceLen : Nat) :
    ∀ (sets sets' : List KieServerSet) (st st' : LoopState) (q : Nat),
    serverSetsLoop W cr product appName sr sliceLen sets st = (sets', st', none) →
    BasesBound st.usedNames q → q + sets.length ≤ sliceLen →
    ∃ blocks : List (List ServerTemplate), st'.servers = st.servers ++ blocks.flatten ∧
      List.Forall₂ (KeystoreOf W) sets blocks ∧ List.Forall₂ Expanded sets' blocks := by
  intro sets
  induction sets with
  | nil =>
    intro sets' st st' q h _ _
    simp only [serverSetsLoop, Prod.mk.injEq, and_true] at h
    obtain ⟨rfl, rfl⟩ := h
    exact ⟨[], by simp, List.Forall₂.nil, List.Forall₂.nil⟩
  | cons s rest ih =>
    intro sets' st st' q h hB hq
    unfold serverSetsLoop at h
    cases hstep : serverSetStep W cr product appName sr sliceLen s st with
    | mk s1 r =>
      obtain ⟨st1, e⟩ := r
      rw [hstep] at h
      cases e with
      | some err => simp at h
      | none =>
        simp only [] at h
        cases hrest : serverSetsLoop W cr product appName sr sliceLen rest st1 with
        | mk rest1 r2 =>
          obtain ⟨st2, e2⟩ := r2
          rw [hrest] at h
          simp only [Prod.mk.injEq] at h
          obtain ⟨rfl, rfl, rfl⟩ := h
          simp only [List.length_cons] at hq
          obtain ⟨hB1, block, hserv, hks, hexp⟩ :=
            serverSetStep_block W cr product appName sr sliceLen q s s1 st st1 hstep hB
              (by omega)
          obtain ⟨blocks, hserv2, hks2, hexp2⟩ := ih rest1 st1 st2 (q + 1) hrest hB1 (by omega)
          exact ⟨block :: blocks, by rw [hserv2, hserv]; simp, List.Forall₂.cons hks hks2,
            List.Forall₂.cons hexp hexp2⟩

theorem string_append_right_cancel {a b c : String} (h : a ++ c = b ++ c) : a = b := by
  have := congrArg String.data h
  simp only [String.data_append] at this
  exact String.ext (List.append_cancel_right this)

/-- The blocks of a successful `getServersConfig`: one per server set it iterates
over, in order. -/
theorem getServersConfig_blocks (W : World) (cr : KieApp) (calls : Nat)
    (hOk : (getServersConfig W cr calls).err = none) :
    ∃ (sets' : List KieServerSet) (blocks : List (List ServerTemplate)),
      (getServersConfig W cr calls).servers = blocks.flatten ∧
      (getServersConfig W cr calls).cr =
        (if cr.Spec.Objects.Servers.length ≠ 0 then
          setSpecServers (setSpecServers (setStatusServers cr []) (effectiveServers cr)) sets'
        else setStatusServers (setStatusServers cr (effectiveServers cr)) sets') ∧
      List.Forall₂ (KeystoreOf W) (effectiveServers cr) blocks ∧
      List.Forall₂ Expanded sets' blocks ∧
      (kieNames (getServersConfig W cr calls).servers).Nodup := by
  unfold getServersConfig at hOk ⊢
  simp only [] at hOk ⊢
  generalize hcr1 : (if (decide (cr.Spec.Objects.Servers.length ≠ 0)) = true then
      setSpecServers (setStatusServers cr []) (effectiveServers cr)
    else setStatusServers cr (effectiveServers cr)) = cr1 at hOk ⊢
  generalize hsr : (match W.EnvironmentConstants cr.Spec.Environment with
    | some envConstants => envConstants.ServerReplicas.Replicas
    | none => (1 : Int)) = sr at hOk ⊢
  cases hloop : serverSetsLoop W cr1 (GetProduct W cr.Spec.Environment) (effectiveAppName cr) sr
      (effectiveServers cr).length (effectiveServers cr) { calls := calls } with
  | mk sets' r =>
    obtain ⟨st', e⟩ := r
    rw [hloop] at hOk
    have he : e = none := hOk
    subst he
    have hB : BasesBound ({ calls := calls } : LoopState).usedNames 0 :=
      ⟨[], by simp, by intro x hx; simp at hx⟩
    obtain ⟨blocks, hserv, hks, hexp⟩ := serverSetsLoop_blocks W cr1 _ _ sr _ _ _ _ _ 0 hloop hB
      (by simp)
    obtain ⟨-, ts, hts, -, -, hnd⟩ := serverSetsLoop_ok_inv W cr1 _ _ sr _ _ _ _ _ hloop
    simp only [List.nil_append] at hserv hts
    refine ⟨sets', blocks, hserv, ?_, hks, hexp, ?_⟩
    · subst hcr1
      by_cases hlen : cr.Spec.Objects.Servers.length ≠ 0
      · simp [hlen]
      · simp [hlen]
    · simp only []
      rw [hts]
      exact hnd

/-- C24: for a successful `getServersConfig` the returned templates are the
concatenation of one block per server set iterated over, in order; the block of
a set has as many templates as the set has deployments, and every template of
it has the set's `KeystoreSecret` when that is non-empty and otherwise the
`KeystoreSecret` naming pattern applied to the template's own `KieName`.  The
names are pairwise distinct, so when the pattern is injective two templates
with a secret named after themselves have different secrets. -/
theorem getServersConfig_keystoreSecret (W : World) (cr : KieApp) (calls : Nat)
    (hOk : (getServersConfig W cr calls).err = none) :
    (∃ blocks : List (List ServerTemplate),
      (getServersConfig W cr calls).servers = blocks.flatten ∧
      List.Forall₂ (KeystoreOf W) (effectiveServers cr) blocks) ∧
    (Function.Injective W.KeystoreSecret →
      ∀ (i j : Nat) (ti tj : ServerTemplate), i ≠ j →
        (getServersConfig W cr calls).servers[i]? = some ti →
        (getServersConfig W cr calls).servers[j]? = some tj →
        ti.KeystoreSecret = W.KeystoreSecret ti.KieName →
        tj.KeystoreSecret = W.KeystoreSecret tj.KieName →
        ti.KeystoreSecret ≠ tj.KeystoreSecret) := by
  obtain ⟨sets', blocks, hserv, -, hks, -, hnd⟩ := getServersConfig_blocks W cr calls hOk
  refine ⟨⟨blocks, hserv, hks⟩, ?_⟩
  intro hinj i j ti tj hij hi hj hsi hsj heq
  rw [hsi, hsj] at heq
  have hname : ti.KieName = tj.KieName := hinj heq
  obtain ⟨hi1, hi2⟩ := List.getElem?_eq_some.1 hi
  obtain ⟨hj1, hj2⟩ := List.getElem?_eq_some.1 hj
  have hi3 : i < (kieNames (getServersConfig W cr calls).servers).length := by
    simpa [kieNames] using hi1
  have hj3 : j < (kieNames (getServersConfig W cr calls).servers).length := by
    simpa [kieNames] using hj1
  have hni : (kieNames (getServersConfig W cr calls).servers)[i] = ti.KieName := by
    simp [kieNames, hi2]
  have hnj : (kieNames (getServersConfig W cr calls).servers)[j] = tj.KieName := by
    simp [kieNames, hj2]
  exact hij ((List.Nodup.getElem_inj_iff hnd).1 (by rw [hni, hnj, hname]))

theorem getServersConfig_keystoreSecret_witness :
    (getServersConfig exampleWorld exampleThreeSets 0).err = none ∧
      (getServersConfig exampleWorld exampleThreeSets 0).servers.map
          (fun t => t.KeystoreSecret) =
        ["alpha-app-secret", "alpha-2-app-secret", "beta-secret", "app-kieserver-app-secret"] ∧
      (∃ blocks : List (List ServerTemplate),
        (getServersConfig exampleWorld exampleThreeSets 0).servers = blocks.flatten ∧
        List.Forall₂ (KeystoreOf exampleWorld) (effectiveServers exampleThreeSets) blocks) ∧
      ((getServersConfig exampleWorld exampleThreeSets 0).servers.getD 0 {}).KeystoreSecret ≠
        ((getServersConfig exampleWorld exampleThreeSets 0).servers.getD 1 {}).KeystoreSecret :=
  ⟨by decide, by decide,
    (getServersConfig_keystoreSecret exampleWorld exampleThreeSets 0 (by decide)).1,
    (getServersConfig_keystoreSecret exampleWorld exampleThreeSets 0 (by decide)).2
      (fun a b h => @string_append_right_cancel a b "-app-secret" h) 0 1
      ((getServersConfig exampleWorld exampleThreeSets 0).servers.getD 0 {})
      ((getServersConfig exampleWorld exampleThreeSets 0).servers.getD 1 {})
      (by decide) (by decide) (by decide) (by decide) (by decide)⟩

/-! ## The server set of an instance -/

/-- The inner loop of `GetServerSet` finds the requested index when it is among
the deployments left. -/
theorem getServerSetDeployments_found (app : String) (req : Int) (s : KieServerSet) (u : Nat) :
    ∀ (fuel rel count k : Nat), k < fuel → req = ((count + k : Nat) : Int) →
      getServerSetDeployments app req s u fuel rel count =
        Sum.inl (s, getKieDeploymentName app s.Name u (rel + k)) := by
  intro fuel
  induction fuel with
  | zero => intro rel count k hk; omega
  | succ fuel ih =>
    intro rel count k hk hreq
    unfold getServerSetDeployments
    cases k with
    | zero =>
      have : (count : Int) = req := by rw [hreq]; simp
      simp [this]
    | succ k =>
      have hne : ¬ (count : Int) = req := by rw [hreq]; push_cast; omega
      rw [if_neg hne, ih (rel + 1) (count + 1) k (by omega) (by rw [hreq]; push_cast; omega)]
      have e : rel + 1 + k = rel + (k + 1) := by omega
      rw [e]

/-- The inner loop of `GetServerSet` counts the deployments when the requested
index lies behind them. -/
theorem getServerSetDeployments_past (app : String) (req : Int) (s : KieServerSet) (u : Nat) :
    ∀ (fuel rel count : Nat), ((count + fuel : Nat) : Int) ≤ req →
      getServerSetDeployments app req s u fuel rel count = Sum.inr (count + fuel) := by
  intro fuel
  induction fuel with
  | zero => intro rel count _; rfl
  | succ fuel ih =>
    intro rel count hreq
    unfold getServerSetDeployments
    have hne : ¬ (count : Int) = req := by push_cast at hreq; omega
    rw [if_neg hne, ih (rel + 1) (count + 1) (by push_cast at hreq ⊢; omega)]
    congr 1
    omega

theorem expanded_length (s : KieServerSet) (block : List ServerTemplate)
    (h : Expanded s block) : block.length = deploymentCount s := by
  have := congrArg List.length h.2.2
  simpa [kieNames] using this

/-- On server sets that are named and expanded into blocks, the loop of
`GetServerSet` returns the owning set and the name of the requested instance,
and the zero set behind the last instance. -/
theorem getServerSetLoop_expanded (app : String) :
    ∀ (sets : List KieServerSet) (blocks : List (List ServerTemplate)),
      List.Forall₂ Expanded sets blocks → ∀ (count u : Nat),
      (∀ (i : Nat) (t : ServerTemplate), blocks.flatten[i]? = some t →
        ∃ s, owningSet sets i = some s ∧
          getServerSetLoop app ((count + i : Nat) : Int) sets count u = some (s, t.KieName)) ∧
      (∀ req : Int, ((count + blocks.flatten.length : Nat) : Int) ≤ req →
        getServerSetLoop app req sets count u = some ({}, "")) := by
  intro sets blocks h
  induction h with
  | nil =>
    intro count u
    refine ⟨?_, ?_⟩
    · intro i t hi; simp at hi
    · intro req _; rfl
  | @cons s block sets blocks hexp _ ih =>
    intro count u
    have hlen := expanded_length s block hexp
    obtain ⟨hname, hdep, hnames⟩ := hexp
    obtain ⟨d, hd⟩ := Option.ne_none_iff_exists'.1 hdep
    have hcount : d.toNat = deploymentCount s := by simp [deploymentCount, hd]
    refine ⟨?_, ?_⟩
    · intro i t hi
      rw [List.flatten_cons] at hi
      by_cases hlt : i < block.length
      · rw [List.getElem?_append_left hlt] at hi
        refine ⟨s, by simp [owningSet, ← hlen, hlt], ?_⟩
        have hk : t.KieName = s.Name ++ getKieSetIndex 0 i := by
          have h1 : (kieNames block)[i]? = some t.KieName := by simp [kieNames, hi]
          rw [hnames] at h1
          rw [List.getElem?_map, List.getElem?_range (by omega)] at h1
          simpa using h1.symm
        unfold getServerSetLoop
        simp only [hd]
        rw [getServerSetDeployments_found app _ s u d.toNat 0 count i (by omega) rfl,
          getKieDeploymentName_named _ _ _ _ hname, Nat.zero_add, hk]
      · have hge : block.length ≤ i := by omega
        rw [List.getElem?_append_right hge] at hi
        obtain ⟨s1, hown, hget⟩ := (ih (count + block.length) u).1 (i - block.length) t hi
        refine ⟨s1, ?_, ?_⟩
        · have : ¬ i < deploymentCount s := by omega
          simp only [owningSet, this, if_false]
          rw [← hlen]; exact hown
        · unfold getServerSetLoop
          simp only [hd]
          rw [getServerSetDeployments_past app _ s u d.toNat 0 count
            (by push_cast; omega)]
          simp only [hname, if_false]
          have e : count + block.length + (i - block.length) = count + i := by omega
          rw [e, hlen, ← hcount] at hget
          exact hget
    · intro req hreq
      rw [List.flatten_cons, List.length_append] at hreq
      unfold getServerSetLoop
      simp only [hd]
      rw [getServerSetDeployments_past app _ s u d.toNat 0 count (by push_cast at hreq ⊢; omega)]
      simp only [hname, if_false]
      apply (ih (count + d.toNat) u).2
      push_cast at hreq ⊢
      omega

/-- After a successful `getServersConfig` the resolved spec has the server sets as
the call left them. -/
theorem getServersConfig_resolved (W : World)
    (Merge : KieAppSpec → KieAppSpec → KieAppSpec × Option String) (cr : KieApp) (calls : Nat)
    (hMerge : MergeFillsServers Merge)
    (hOk : (getServersConfig W cr calls).err = none) :
    (ResolveSpec Merge (getServersConfig W cr calls).cr).2 = none ∧
      ∃ blocks : List (List ServerTemplate),
        (getServersConfig W cr calls).servers = blocks.flatten ∧
        List.Forall₂ Expanded
          (ResolveSpec Merge (getServersConfig W cr calls).cr).1.Objects.Servers blocks := by
  obtain ⟨sets', blocks, hserv, hcr, -, hexp, -⟩ := getServersConfig_blocks W cr calls hOk
  obtain ⟨herr, hfill⟩ := hMerge (getServersConfig W cr calls).cr.Spec
    (getServersConfig W cr calls).cr.Status.Generated
  refine ⟨herr, blocks, hserv, ?_⟩
  have hres : (ResolveSpec Merge (getServersConfig W cr calls).cr).1.Objects.Servers = sets' := by
    unfold ResolveSpec
    rw [hfill, hcr]
    by_cases hlen : cr.Spec.Objects.Servers.length ≠ 0
    · rw [if_pos hlen]
      by_cases hnil : sets' = []
      · simp [setSpecServers, setStatusServers, hnil]
      · simp [setSpecServers, setStatusServers, hnil]
    · have h0 : cr.Spec.Objects.Servers = [] := by
        simpa using hlen
      rw [if_neg hlen]
      simp [setStatusServers, h0]
  rw [hres]
  exact hexp

theorem exampleMerge_fills : MergeFillsServers exampleMerge := by
  intro dst src
  exact ⟨rfl, rfl⟩

/-- C27: `GetServerSet` retrieves the server set and the deployment name of an
instance.  Let `getServersConfig` have succeeded on `cr` (with the names assigned
in place) returning `servers`, and let the library merge of `ResolveSpec` return
no error and keep the server sets of the resource.  Then the resolved server
sets are named and `servers` is the concatenation of their expansions, one
block per set; for every `i < len(servers)`, `GetServerSet(cr, i)` returns
`servers[i].KieName` together with the resolved set that owns index `i` by the
deployment counts; and for every `i ≥ len(servers)` it returns the zero set and
the empty name. -/
theorem GetServerSet_retrieves (W : World)
    (Merge : KieAppSpec → KieAppSpec → KieAppSpec × Option String) (cr : KieApp) (calls : Nat)
    (hMerge : MergeFillsServers Merge)
    (hOk : (getServersConfig W cr calls).err = none) :
    (∃ blocks : List (List ServerTemplate),
      (getServersConfig W cr calls).servers = blocks.flatten ∧
      List.Forall₂ Expanded
        (ResolveSpec Merge (getServersConfig W cr calls).cr).1.Objects.Servers blocks) ∧
    (∀ (i : Nat) (t : ServerTemplate), (getServersConfig W cr calls).servers[i]? = some t →
      ∃ s, owningSet (ResolveSpec Merge (getServersConfig W cr calls).cr).1.Objects.Servers i =
          some s ∧
        GetServerSet Merge (getServersConfig W cr calls).cr (i : Int) = some (s, t.KieName)) ∧
    (∀ i : Nat, (getServersConfig W cr calls).servers.length ≤ i →
      GetServerSet Merge (getServersConfig W cr calls).cr (i : Int) = some ({}, "")) := by
  obtain ⟨herr, blocks, hserv, hexp⟩ := getServersConfig_resolved W Merge cr calls hMerge hOk
  have hloop := getServerSetLoop_expanded
    (ResolveSpec Merge (getServersConfig W cr calls).cr).1.CommonConfig.ApplicationName _ _ hexp 0 0
  have hget : ∀ req : Int, GetServerSet Merge (getServersConfig W cr calls).cr req =
      getServerSetLoop
        (ResolveSpec Merge (getServersConfig W cr calls).cr).1.CommonConfig.ApplicationName req
        (ResolveSpec Merge (getServersConfig W cr calls).cr).1.Objects.Servers 0 0 := by
    intro req
    unfold GetServerSet
    cases hr : ResolveSpec Merge (getServersConfig W cr calls).cr with
    | mk resolved e =>
      rw [hr] at herr
      have he : e = none := herr
      subst he
      rfl
  refine ⟨⟨blocks, hserv, hexp⟩, ?_, ?_⟩
  · intro i t hi
    rw [hserv] at hi
    obtain ⟨s, hown, hfound⟩ := hloop.1 i t hi
    rw [Nat.zero_add] at hfound
    exact ⟨s, hown, by rw [hget]; exact hfound⟩
  · intro i hi
    rw [hget]
    apply hloop.2
    rw [hserv] at hi
    push_cast
    omega

theorem GetServerSet_retrieves_witness :
    (getServersConfig exampleWorld exampleThreeSets 0).err = none ∧
      kieNames (getServersConfig exampleWorld exampleThreeSets 0).servers =
        ["alpha", "alpha-2", "beta", "app-kieserver"] ∧
      (List.range 5).map (fun i =>
          (GetServerSet exampleMerge (getServersConfig exampleWorld exampleThreeSets 0).cr
            (i : Int)).map (fun found => (found.1.Name, found.2))) =
        [some ("alpha", "alpha"), some ("alpha", "alpha-2"), some ("beta", "beta"),
          some ("app-kieserver", "app-kieserver"), some ("", "")] ∧
      GetServerSet exampleMerge (getServersConfig exampleWorld exampleThreeSets 0).cr
        ((4 : Nat) : Int) = some ({}, "") :=
  ⟨by decide, by decide, by decide,
    (GetServerSet_retrieves exampleWorld exampleMerge exampleThreeSets 0 exampleMerge_fills
      (by decide)).2.2 4 (by decide)⟩

/-! ## An explicit image reference of a server set -/

/-- C31: for a server set with a `From`, `getDefaultKieServerImage` returns that
reference with `omitImageTrigger = false` and the empty image URL; the result
is the same for every product, resource (version, `UseImageTags`), image and
image tag of the set and every process environment and constant. -/
theorem getDefaultKieServerImage_from (W : World) (product : String) (cr : KieApp)
    (serverSet : KieServerSet) (ref : ObjectReference) (hFrom : serverSet.From = some ref) :
    getDefaultKieServerImage W product cr serverSet = (ref, false, "") ∧
      ∀ (W1 : World) (product1 : String) (cr1 : KieApp) (serverSet1 : KieServerSet),
        serverSet1.From = serverSet.From →
        getDefaultKieServerImage W1 product1 cr1 serverSet1 =
          getDefaultKieServerImage W product cr serverSet := by
  have h : ∀ (W1 : World) (product1 : String) (cr1 : KieApp) (serverSet1 : KieServerSet),
      serverSet1.From = some ref →
      getDefaultKieServerImage W1 product1 cr1 serverSet1 = (ref, false, "") := by
    intro W1 product1 cr1 serverSet1 h1
    unfold getDefaultKieServerImage
    rw [h1]
  refine ⟨h W product cr serverSet hFrom, ?_⟩
  intro W1 product1 cr1 serverSet1 h1
  rw [h W1 product1 cr1 serverSet1 (h1.trans hFrom), h W product cr serverSet hFrom]

theorem getDefaultKieServerImage_from_witness :
    getDefaultKieServerImage exampleWorld "rhpam" exampleSpecVersion exampleFromSet =
      ({ Kind := "ImageStreamTag", Name := "custom-kieserver:1.0", Namespace := "custom" },
        false, "") :=
  (getDefaultKieServerImage_from exampleWorld "rhpam" exampleSpecVersion exampleFromSet
    { Kind := "ImageStreamTag", Name := "custom-kieserver:1.0", Namespace := "custom" } rfl).1

/-! ## The version of a resource -/

/-- C32: `GetVersion` returns the spec's version when it is non-empty and the
generated one otherwise.  `SetVersion` writes into the layer `GetVersion` reads
from: after `SetVersion(cr, v)` with a non-empty `v`, `GetVersion` is `v`; when
the spec's version was non-empty it becomes `v` and the generated version is
unchanged, otherwise the generated version becomes `v` and the spec's version
is unchanged; no other field of the resource changes. -/
theorem SetVersion_layer (cr : KieApp) (v : String) :
    (cr.Spec.Version ≠ "" → GetVersion cr = cr.Spec.Version) ∧
    (cr.Spec.Version = "" → GetVersion cr = cr.Status.Generated.Version) ∧
    (v ≠ "" → GetVersion (SetVersion cr v) = v) ∧
    (cr.Spec.Version ≠ "" →
      (SetVersion cr v).Spec.Version = v ∧
      (SetVersion cr v).Status.Generated.Version = cr.Status.Generated.Version) ∧
    (cr.Spec.Version = "" →
      (SetVersion cr v).Status.Generated.Version = v ∧
      (SetVersion cr v).Spec.Version = cr.Spec.Version) ∧
    SetVersion cr v =
      { cr with
        Spec := { cr.Spec with Version := (SetVersion cr v).Spec.Version },
        Status := { Generated := { cr.Status.Generated with
          Version := (SetVersion cr v).Status.Generated.Version } } } := by
  refine ⟨?_, ?_, GetVersion_SetVersion cr v, ?_, ?_, ?_⟩
  · intro h
    simp [GetVersion, h]
  · intro h
    simp [GetVersion, h]
  · intro h
    simp [SetVersion, h]
  · intro h
    simp [SetVersion, h]
  · rcases cr with ⟨name, ns, annotations, ⟨environment, version, tags, common, objects⟩, ⟨generated⟩⟩
    by_cases h : version = ""
    · subst h
      simp [SetVersion]
    · simp [SetVersion, h]

theorem SetVersion_layer_witness :
    GetVersion exampleSpecVersion = "7.7.1" ∧
      GetVersion exampleGeneratedVersion = "7.7.0" ∧
      GetVersion (SetVersion exampleSpecVersion "7.8.0") = "7.8.0" ∧
      ((SetVersion exampleSpecVersion "7.8.0").Spec.Version = "7.8.0" ∧
        (SetVersion exampleSpecVersion "7.8.0").Status.Generated.Version = "7.7.0") ∧
      ((SetVersion exampleGeneratedVersion "7.8.0").Status.Generated.Version = "7.8.0" ∧
        (SetVersion exampleGeneratedVersion "7.8.0").Spec.Version = "") :=
  ⟨(SetVersion_layer exampleSpecVersion "7.8.0").1 (by decide),
    (SetVersion_layer exampleGeneratedVersion "7.8.0").2.1 (by decide),
    (SetVersion_layer exampleSpecVersion "7.8.0").2.2.1 (by decide),
    (SetVersion_layer exampleSpecVersion "7.8.0").2.2.2.1 (by decide),
    (SetVersion_layer exampleGeneratedVersion "7.8.0").2.2.2.2.1 (by decide)⟩

/-! ## A repeated instance name is an error -/

/-- An iteration of the deployment loop succeeds when the name is free, the set
has no build with more than one deployment and its database is accepted. -/
theorem deploymentStep_succeeds (W : World) (cr : KieApp) (product appName : String)
    (sr d : Int) (i : Nat) (s : KieServerSet) (st : LoopState)
    (hFresh : getKieDeploymentName appName s.Name st.unsetNames i ∉ st.usedNames)
    (hBuild : s.Build.isSome = true → d ≤ 1)
    (hDb : (getDatabaseConfig W cr.Spec.Environment s.Database).2 = none) :
    ∃ s' st', deploymentStep W cr product appName sr d i s st = (s', st', none) ∧
      s'.Build.isSome = s.Build.isSome ∧ s'.Database = s.Database := by
  obtain ⟨hb1, hb2⟩ := getBuildConfig_serverSet W product cr s st.calls
  have hcond : ¬ ((getBuildConfig W product cr s st.calls).2.1.Build.isSome = true ∧ d > 1) := by
    rintro ⟨h1, h2⟩
    rw [hb2] at h1
    have := hBuild h1
    omega
  have hdb1 : (getBuildConfig W product cr s st.calls).2.1.Database = s.Database := by
    rw [hb1]
  unfold deploymentStep
  simp only [hFresh, if_false, hcond, hdb1]
  cases hdb2 : getDatabaseConfig W cr.Spec.Environment s.Database with
  | mk db e =>
    rw [hdb2] at hDb
    simp only [] at hDb
    subst hDb
    refine ⟨_, _, rfl, ?_, ?_⟩
    · exact hb2
    · rfl


/-- A deployment loop over a set that cannot fail for another reason either
succeeds, or returns the duplicate-name error for a name that is already used
or was given to an earlier deployment of the loop, with an empty list. -/
theorem deploymentsLoop_outcome (W : World) (cr : KieApp) (product appName : String)
    (sr d : Int) : ∀ (fuel i : Nat) (s : KieServerSet) (st : LoopState),
    (s.Build.isSome = true → d ≤ 1) →
    (getDatabaseConfig W cr.Spec.Environment s.Database).2 = none →
    (∃ s1 st1, deploymentsLoop W cr product appName sr d fuel i s st = (s1, st1, none)) ∨
      ∃ s1 st1 k, k < fuel ∧
        deploymentsLoop W cr product appName sr d fuel i s st =
          (s1, st1, some (ConfigError.duplicateName
            (getKieDeploymentName appName s.Name st.unsetNames (i + k)))) ∧
        st1.servers = [] ∧
        (getKieDeploymentName appName s.Name st.unsetNames (i + k) ∈ st.usedNames ∨
          ∃ j, j < k ∧ getKieDeploymentName appName s.Name st.unsetNames (i + j) =
            getKieDeploymentName appName s.Name st.unsetNames (i + k)) := by
  intro fuel
  induction fuel with
  | zero =>
    intro i s st _ _
    exact Or.inl ⟨s, st, rfl⟩
  | succ fuel ih =>
    intro i s st hBuild hDb
    by_cases hmem : getKieDeploymentName appName s.Name st.unsetNames i ∈ st.usedNames
    · refine Or.inr ⟨s, { st with servers := [] }, 0, by omega, ?_, rfl, Or.inl hmem⟩
      unfold deploymentsLoop deploymentStep
      simp only [hmem, if_true, Nat.add_zero]
    · obtain ⟨s1, st1, hstep, hb, hdb⟩ :=
        deploymentStep_succeeds W cr product appName sr d i s st hmem hBuild hDb
      obtain ⟨-, hused, hunset, -, hname, -, -, -⟩ :=
        deploymentStep_ok_inv W cr product appName sr d i s s1 st st1 hstep
      have hloop : deploymentsLoop W cr product appName sr d (fuel + 1) i s st =
          deploymentsLoop W cr product appName sr d fuel (i + 1) s1 st1 := by
        conv_lhs => unfold deploymentsLoop
        rw [hstep]
      rw [hloop]
      rcases ih (i + 1) s1 st1 (by rw [hb]; exact hBuild) (by rw [hdb]; exact hDb) with
        hok | ⟨s2, st2, k, hk, hrun, hserv, hrep⟩
      · exact Or.inl hok
      · have e : ∀ j, i + 1 + j = i + (j + 1) := by intro j; omega
        rw [hname, hunset, e] at hrun
        refine Or.inr ⟨s2, st2, k + 1, by omega, hrun, hserv, ?_⟩
        rw [hname, hunset, hused, e] at hrep
        rcases hrep with hin | ⟨j, hj, hjk⟩
        · rcases List.mem_cons.1 hin with h0 | hin
          · exact Or.inr ⟨0, by omega, by rw [Nat.add_zero]; exact h0.symm⟩
          · exact Or.inl hin
        · rw [e] at hjk
          exact Or.inr ⟨j + 1, by omega, hjk⟩

/-- The probe leaves the build and the database of the set as they are. -/
theorem probeSetName_build_database (appName : String) (usedNames : List String) (fuel : Nat)
    (s : KieServerSet) (u : Nat) :
    (probeSetName appName usedNames fuel s u).1.Build = s.Build ∧
      (probeSetName appName usedNames fuel s u).1.Database = s.Database := by
  rw [probeSetName_fields]
  exact ⟨rfl, rfl⟩

theorem two_le_count_of_mem_of_mem {n : String} {l used : List String} (h1 : n ∈ l)
    (h2 : n ∈ used) : 2 ≤ (l ++ used).count n := by
  rw [List.count_append]
  have a := List.count_pos_iff.2 h1
  have b := List.count_pos_iff.2 h2
  omega

theorem two_le_count_map_range {f : Nat → String} {m j k : Nat} (hjk : j < k) (hk : k < m)
    (h : f j = f k) : 2 ≤ ((List.range m).map f).count (f k) := by
  rw [← List.duplicate_iff_two_le_count, List.duplicate_iff_exists_distinct_get]
  refine ⟨⟨j, by simp; omega⟩, ⟨k, by simp; omega⟩, by simpa using hjk, ?_, ?_⟩
  · simp [h]
  · simp

/-- The visit of a set that cannot fail for another reason either succeeds and
appends the instance names of the set, or returns the duplicate-name error for
a name that occurs twice among these names and the used ones. -/
theorem serverSetStep_outcome (W : World) (cr : KieApp) (product appName : String)
    (sr : Int) (sliceLen : Nat) (s : KieServerSet) (st : LoopState)
    (hNo : NoOtherError W cr.Spec.Environment s) :
    (∃ s1 st1, serverSetStep W cr product appName sr sliceLen s st = (s1, st1, none) ∧
      (∃ ts, st1.servers = st.servers ++ ts ∧
        kieNames ts = (setInstanceNames W appName sliceLen s st.usedNames st.unsetNames).1) ∧
      st1.usedNames =
        (setInstanceNames W appName sliceLen s st.usedNames st.unsetNames).1.reverse ++
          st.usedNames ∧
      st1.unsetNames = (setInstanceNames W appName sliceLen s st.usedNames st.unsetNames).2) ∨
    ∃ s1 st1 n,
      serverSetStep W cr product appName sr sliceLen s st =
        (s1, st1, some (ConfigError.duplicateName n)) ∧
      st1.servers = [] ∧
      2 ≤ ((setInstanceNames W appName sliceLen s st.usedNames st.unsetNames).1 ++
        st.usedNames).count n := by
  obtain ⟨hBuild, hDb⟩ := hNo
  unfold serverSetStep setInstanceNames
  simp only []
  generalize hp : (if s.Name = "" then
      probeSetName appName st.usedNames sliceLen
        { s with Deployments := some (s.Deployments.getD W.DefaultKieDeployments) } st.unsetNames
    else ({ s with Deployments := some (s.Deployments.getD W.DefaultKieDeployments) },
      st.unsetNames)) = probed
  have hfields : probed.1.Build = s.Build ∧ probed.1.Database = s.Database := by
    subst hp
    by_cases hn : s.Name = ""
    · simp only [hn, if_true]
      exact probeSetName_build_database _ _ _ _ _
    · simp only [hn, if_false]
      exact ⟨trivial, trivial⟩
  rcases deploymentsLoop_outcome W cr product appName sr
      (s.Deployments.getD W.DefaultKieDeployments)
      (s.Deployments.getD W.DefaultKieDeployments).toNat 0 probed.1
      { st with unsetNames := probed.2 } (by rw [hfields.1]; exact hBuild)
      (by rw [hfields.2]; exact hDb) with
    ⟨s1, st1, hrun⟩ | ⟨s1, st1, k, hk, hrun, hserv, hrep⟩
  · obtain ⟨hunset, -, -, -, -, ts, hts, hnames, hused, -, -⟩ :=
      deploymentsLoop_ok_inv W cr product appName sr _ _ _ _ _ _ _ hrun
    simp only [Nat.zero_add] at hnames
    refine Or.inl ⟨s1, st1, hrun, ⟨ts, hts, hnames⟩, ?_, hunset⟩
    rw [hused, hnames]
  · simp only [Nat.zero_add] at hrun hrep
    refine Or.inr ⟨s1, st1, _, hrun, hserv, ?_⟩
    rcases hrep with hin | ⟨j, hj, hjk⟩
    · refine two_le_count_of_mem_of_mem ?_ hin
      exact List.mem_map.2 ⟨k, List.mem_range.2 hk, rfl⟩
    · rw [List.count_append]
      have := two_le_count_map_range
        (f := fun k => getKieDeploymentName appName probed.1.Name probed.2 k) hj hk hjk
      simp only [] at this
      omega

/-- A successful visit of a set appends the instance names of the set. -/
theorem serverSetStep_ok_names (W : World) (cr : KieApp) (product appName : String)
    (sr : Int) (sliceLen : Nat) (s s1 : KieServerSet) (st st1 : LoopState)
    (h : serverSetStep W cr product appName sr sliceLen s st = (s1, st1, none)) :
    (∃ ts, st1.servers = st.servers ++ ts ∧
      kieNames ts = (setInstanceNames W appName sliceLen s st.usedNames st.unsetNames).1) ∧
    st1.usedNames =
      (setInstanceNames W appName sliceLen s st.usedNames st.unsetNames).1.reverse ++
        st.usedNames ∧
    st1.unsetNames = (setInstanceNames W appName sliceLen s st.usedNames st.unsetNames).2 := by
  unfold serverSetStep at h
  unfold setInstanceNames
  simp only [] at h ⊢
  obtain ⟨hunset, -, -, -, -, ts, hts, hnames, hused, -, -⟩ :=
    deploymentsLoop_ok_inv W cr product appName sr _ _ _ _ _ _ _ h
  simp only [Nat.zero_add] at hnames
  refine ⟨⟨ts, hts, hnames⟩, ?_, hunset⟩
  rw [hused, hnames]

/-- A successful loop over the server sets appends the instance names of the
expansion. -/
theorem serverSetsLoop_ok_names (W : World) (cr : KieApp) (product appName : String)
    (sr : Int) (sliceLen : Nat) : ∀ (sets sets' : List KieServerSet) (st st' : LoopState),
    serverSetsLoop W cr product appName sr sliceLen sets st = (sets', st', none) →
    ∃ ts, st'.servers = st.servers ++ ts ∧
      kieNames ts = expansionNames W appName sliceLen sets st.usedNames st.unsetNames := by
  intro sets
  induction sets with
  | nil =>
    intro sets' st st' h
    simp only [serverSetsLoop, Prod.mk.injEq, and_true] at h
    obtain ⟨-, rfl⟩ := h
    exact ⟨[], by simp, rfl⟩
  | cons s rest ih =>
    intro sets' st st' h
    unfold serverSetsLoop at h
    cases hstep : serverSetStep W cr product appName sr sliceLen s st with
    | mk s1 r =>
      obtain ⟨st1, e⟩ := r
      rw [hstep] at h
      cases e with
      | some err => simp at h
      | none =>
        simp only [] at h
        cases hrest : serverSetsLoop W cr product appName sr sliceLen rest st1 with
        | mk rest1 r2 =>
          obtain ⟨st2, e2⟩ := r2
          rw [hrest] at h
          simp only [Prod.mk.injEq] at h
          obtain ⟨-, rfl, rfl⟩ := h
          obtain ⟨⟨ts, hts, hnames⟩, hused, hunset⟩ :=
            serverSetStep_ok_names W cr product appName sr sliceLen s s1 st st1 hstep
          obtain ⟨ts2, hts2, hnames2⟩ := ih rest1 st1 st2 hrest
          refine ⟨ts ++ ts2, by rw [hts2, hts, List.append_assoc], ?_⟩
          rw [hused, hunset] at hnames2
          conv_rhs => unfold expansionNames
          simp only [kieNames, List.map_append] at hnames hnames2 ⊢
          rw [hnames, hnames2]

/-- A loop over server sets that cannot fail for another reason either succeeds,
or returns the duplicate-name error, with an empty list, for a name that occurs
twice among the instance names of the expansion and the used names. -/
theorem serverSetsLoop_outcome (W : World) (cr : KieApp) (product appName : String)
    (sr : Int) (sliceLen : Nat) : ∀ (sets : List KieServerSet) (st : LoopState),
    (∀ s ∈ sets, NoOtherError W cr.Spec.Environment s) →
    (∃ sets' st', serverSetsLoop W cr product appName sr sliceLen sets st = (sets', st', none)) ∨
    ∃ sets' st' n,
      serverSetsLoop W cr product appName sr sliceLen sets st =
        (sets', st', some (ConfigError.duplicateName n)) ∧
      st'.servers = [] ∧
      2 ≤ (expansionNames W appName sliceLen sets st.usedNames st.unsetNames ++
        st.usedNames).count n := by
  intro sets
  induction sets with
  | nil =>
    intro st _
    exact Or.inl ⟨[], st, rfl⟩
  | cons s rest ih =>
    intro st hNo
    rcases serverSetStep_outcome W cr product appName sr sliceLen s st
        (hNo s (List.mem_cons_self _ _)) with
      ⟨s1, st1, hstep, -, hused, hunset⟩ | ⟨s1, st1, n, hstep, hserv, hcount⟩
    · rcases ih st1 (fun x hx => hNo x (List.mem_cons_of_mem _ hx)) with
        ⟨rest1, st2, hrest⟩ | ⟨rest1, st2, n, hrest, hserv, hcount⟩
      · refine Or.inl ⟨s1 :: rest1, st2, ?_⟩
        conv_lhs => unfold serverSetsLoop
        simp only [hstep, hrest]
      · refine Or.inr ⟨s1 :: rest1, st2, n, ?_, hserv, ?_⟩
        · conv_lhs => unfold serverSetsLoop
          simp only [hstep, hrest]
        · rw [hused, hunset] at hcount
          conv in expansionNames _ _ _ (s :: rest) _ _ => unfold expansionNames
          simp only [List.count_append, List.count_reverse] at hcount ⊢
          omega
    · refine Or.inr ⟨s1 :: rest, st1, n, ?_, hserv, ?_⟩
      · conv_lhs => unfold serverSetsLoop
        simp only [hstep]
      · conv in expansionNames _ _ _ (s :: rest) _ _ => unfold expansionNames
        simp only [List.count_append] at hcount ⊢
        omega

/-- C1: whenever `getServersConfig` returns without error, the `KieName` values of
the returned templates are pairwise distinct and are the instance names of the
expansion, in order.  When it returns a `duplicate kieserver name` error the
returned list is empty.  An expansion in which some instance name repeats never
returns without error; and when no server set can fail for another reason (no
build with more than one deployment, every database accepted), it returns the
`duplicate kieserver name` error, for a name that occurs at least twice among
the instance names, with an empty list. -/
theorem getServersConfig_names_distinct (W : World) (cr : KieApp) (calls : Nat) :
    ((getServersConfig W cr calls).err = none →
        (kieNames (getServersConfig W cr calls).servers).Nodup ∧
        kieNames (getServersConfig W cr calls).servers =
          expansionNames W (effectiveAppName cr) (effectiveServers cr).length
            (effectiveServers cr) [] 0) ∧
      (∀ name, (getServersConfig W cr calls).err = some (ConfigError.duplicateName name) →
        (getServersConfig W cr calls).servers = []) ∧
      (¬ (expansionNames W (effectiveAppName cr) (effectiveServers cr).length
            (effectiveServers cr) [] 0).Nodup →
        (getServersConfig W cr calls).err ≠ none) ∧
      ((∀ s ∈ declaredServers cr, NoOtherError W cr.Spec.Environment s) →
        ¬ (expansionNames W (effectiveAppName cr) (effectiveServers cr).length
            (effectiveServers cr) [] 0).Nodup →
        ∃ name, (getServersConfig W cr calls).err = some (ConfigError.duplicateName name) ∧
          (getServersConfig W cr calls).servers = [] ∧
          2 ≤ (expansionNames W (effectiveAppName cr) (effectiveServers cr).length
            (effectiveServers cr) [] 0).count name) := by
  have hOk : (getServersConfig W cr calls).err = none →
      (kieNames (getServersConfig W cr calls).servers).Nodup ∧
      kieNames (getServersConfig W cr calls).servers =
        expansionNames W (effectiveAppName cr) (effectiveServers cr).length
          (effectiveServers cr) [] 0 := by
    intro h
    unfold getServersConfig at h ⊢
    simp only [] at h ⊢
    generalize hout : serverSetsLoop W _ _ _ _ _ _ _ = out at h ⊢
    obtain ⟨sets', st', e⟩ := out
    simp only [] at h
    subst h
    obtain ⟨-, ts, hserv, -, -, hnd⟩ := serverSetsLoop_ok_inv W _ _ _ _ _ _ _ _ _ hout
    obtain ⟨ts2, hserv2, hnames⟩ := serverSetsLoop_ok_names W _ _ _ _ _ _ _ _ _ hout
    simp only [List.nil_append] at hserv hserv2
    refine ⟨?_, ?_⟩
    · simp only [hserv]
      exact hnd
    · simp only [hserv2]
      exact hnames
  refine ⟨hOk, ?_, ?_, ?_⟩
  · intro name h
    unfold getServersConfig at h ⊢
    simp only [] at h ⊢
    generalize hout : serverSetsLoop W _ _ _ _ _ _ _ = out at h ⊢
    obtain ⟨sets', st', e⟩ := out
    simp only [] at h
    subst h
    exact serverSetsLoop_dup_servers W _ _ _ _ _ _ _ _ _ _ hout
  · intro hdup h
    obtain ⟨hnd, hnames⟩ := hOk h
    rw [hnames] at hnd
    exact hdup hnd
  · intro hNo hdup
    have hNo1 : ∀ s ∈ effectiveServers cr, NoOtherError W cr.Spec.Environment s := by
      intro s hs
      rw [effectiveServers_eq, mem_serverSortBlanks] at hs
      exact hNo s hs
    have hne : (getServersConfig W cr calls).err ≠ none := by
      intro h
      obtain ⟨hnd, hnames⟩ := hOk h
      rw [hnames] at hnd
      exact hdup hnd
    unfold getServersConfig at hne ⊢
    simp only [] at hne ⊢
    generalize hcr1 : (if (decide (cr.Spec.Objects.Servers.length ≠ 0)) = true then
        setSpecServers (setStatusServers cr []) (effectiveServers cr)
      else setStatusServers cr (effectiveServers cr)) = cr1 at hne ⊢
    have henv : cr1.Spec.Environment = cr.Spec.Environment := by
      subst hcr1
      split <;> rfl
    rw [← henv] at hNo1
    rcases serverSetsLoop_outcome W cr1 (GetProduct W cr.Spec.Environment) (effectiveAppName cr)
        (match W.EnvironmentConstants cr.Spec.Environment with
          | some envConstants => envConstants.ServerReplicas.Replicas
          | none => 1)
        (effectiveServers cr).length (effectiveServers cr) { calls := calls } hNo1 with
      ⟨sets', st', hrun⟩ | ⟨sets', st', n, hrun, hserv, hcount⟩
    · rw [hrun] at hne
      exact absurd rfl hne
    · rw [hrun]
      refine ⟨n, rfl, hserv, ?_⟩
      simpa using hcount

/-- C1 at concrete inputs: a named set `a` with three deployments expands to
distinct names, and the sets `a` (two deployments) and `a-2` collide on `a-2`
and return the duplicate-name error with an empty list. -/
theorem getServersConfig_names_distinct_witness :
    (kieNames (getServersConfig exampleWorld
        { Spec := { Objects := { Servers := [{ Name := "a", Deployments := some 3 }] } } }
        0).servers).Nodup ∧
      (getServersConfig exampleWorld
        { Spec := { Objects := { Servers :=
            [{ Name := "a", Deployments := some 2 }, { Name := "a-2" }] } } } 0).servers = [] ∧
      expansionNames exampleWorld "" 2
        [{ Name := "a", Deployments := some 2 }, { Name := "a-2" }] [] 0 = ["a", "a-2", "a-2"] ∧
      (getServersConfig exampleWorld
        { Spec := { Objects := { Servers :=
            [{ Name := "a", Deployments := some 2 }, { Name := "a-2" }] } } } 0).err =
        some (ConfigError.duplicateName "a-2") ∧
      ∃ name, (getServersConfig exampleWorld
          { Spec := { Objects := { Servers :=
              [{ Name := "a", Deployments := some 2 }, { Name := "a-2" }] } } } 0).err =
            some (ConfigError.duplicateName name) ∧
        (getServersConfig exampleWorld
          { Spec := { Objects := { Servers :=
              [{ Name := "a", Deployments := some 2 }, { Name := "a-2" }] } } } 0).servers = [] ∧
        2 ≤ (expansionNames exampleWorld
          (effectiveAppName { Spec := { Objects := { Servers :=
              [{ Name := "a", Deployments := some 2 }, { Name := "a-2" }] } } })
          (effectiveServers { Spec := { Objects := { Servers :=
              [{ Name := "a", Deployments := some 2 }, { Name := "a-2" }] } } }).length
          (effectiveServers { Spec := { Objects := { Servers :=
              [{ Name := "a", Deployments := some 2 }, { Name := "a-2" }] } } }) [] 0).count name :=
  ⟨((getServersConfig_names_distinct exampleWorld
      { Spec := { Objects := { Servers := [{ Name := "a", Deployments := some 3 }] } } }
      0).1 (by decide)).1,
   (getServersConfig_names_distinct exampleWorld
      { Spec := { Objects := { Servers :=
          [{ Name := "a", Deployments := some 2 }, { Name := "a-2" }] } } } 0).2.1 "a-2"
      (by decide),
   by decide, by decide,
   (getServersConfig_names_distinct exampleWorld
      { Spec := { Objects := { Servers :=
          [{ Name := "a", Deployments := some 2 }, { Name := "a-2" }] } } } 0).2.2.2
      (by
        intro s hs
        have hs2 : s = { Name := "a", Deployments := some 2 } ∨ s = { Name := "a-2" } := by
          simpa [declaredServers] using hs
        rcases hs2 with rfl | rfl
        · exact ⟨by decide, by decide⟩
        · exact ⟨by decide, by decide⟩)
      (by decide)⟩

end Defaults
